import Mathlib

/-!
# BizPulse: inventory and cost-accounting handlers

A shallow embedding of the handlers of the BizPulse pages
(`RawMaterials.jsx`, `Production.jsx`, `Sales.jsx`, `Receivables.jsx`,
`Inventory.jsx`, `Expenses.jsx`) and of the hook `useFirestore.js`, together
with the properties the specification states about them.

Modelling conventions.

* JavaScript numbers are modelled by exact rationals `ℚ` in the main embedding
  of the handlers: there the arithmetic is exact and every number is a number.
  On a rational `x` the JavaScript idiom `x || 0` is the identity, so it is
  embedded as `x`.  A quotient by 0, which JavaScript evaluates to `NaN` or an
  infinity, is 0 in `ℚ`: the statements about a quotient below are made where
  its divisor is not 0.
* Where the rounding of doubles or a `NaN` decides a property, the code is
  embedded a second time: the purchase and the production run with the result
  of every arithmetic operation rounded (`fl`, the nearest double), and the
  order form and the delivery loop on numbers that can be `NaN` (`JSNumber`).
  Both are proved to agree with the main embedding on exact arithmetic and on
  numbers.  Infinities are not modelled.
* A keyed Firestore collection is a partial map from document ids to
  documents; the identifier `addDoc` generates for a new document of such a
  collection is an argument `newId` of the handler.  A collection whose
  documents the embedded handlers only create with a store-assigned identifier,
  through `doc(collection(db, name))` followed by `transaction.set` or through
  `addDoc`, is a list: the identifier of a new document is its position in the
  list.
* Display-only string fields (names, units, descriptions) and the
  `serverTimestamp()` / ISO timestamp fields are left out of the documents,
  apart from the two dates of a receivable.
* The hook `useFirestore` is a state machine on its React state, stepped by the
  runs of its effect and the callbacks of its listener.
* A handler is a function from its React state, its arguments and the store to
  the store afterwards and an `Outcome`.  The `new Date()` calls of one handler
  run are one reading `now` of the clock.
* A transaction runs against a single client: the store does not change between
  its reads and its commit, so the retry on a write conflict never happens.
* Each update function is embedded twice: as a function from the snapshot to
  the failure or the staged writes, and call by call, as the sequence of its
  calls on the `transaction` object (`Tx`); the two are proved to agree.
-/

namespace BizPulse

/-! ## Data model -/

/-- Firestore document identifier; only equality of identifiers is used. -/
abbrev DocId := Nat

/-- The current organization of `useOrganization()`. -/
structure Organization where
  id : DocId
deriving DecidableEq

/-- An element of the array `useFirestore` returns: `{ id: doc.id, ...doc.data() }`.
It is a copy held in React state, not the stored document. -/
structure Listed (α : Type) where
  id : DocId
  data : α
deriving DecidableEq

/-- Local wall-clock instant of a JavaScript `Date`: calendar day number and
milliseconds since local midnight. -/
structure JSDate where
  day : ℤ
  msOfDay : ℕ
deriving DecidableEq

/-- Effect of `d.setDate(d.getDate() + n)`: the same wall-clock time `n` calendar
days later. -/
def JSDate.addDays (d : JSDate) (n : ℤ) : JSDate :=
  { d with day := d.day + n }

/-- Document of `raw_materials`. -/
structure RawMaterial where
  orgId : DocId
  quantity : ℚ
  averageCost : ℚ
deriving DecidableEq

/-- Element of a product's `bom` array. -/
structure BomItem where
  materialId : DocId
  quantity : ℚ
deriving DecidableEq

/-- Document of `products`. -/
structure Product where
  orgId : DocId
  bom : List BomItem
deriving DecidableEq

/-- Document of `inventory_items`; its document id is the product id. -/
structure InventoryItem where
  productId : DocId
  orgId : DocId
  quantity : ℚ
  averageCost : ℚ
deriving DecidableEq

/-- Line item of a sales order. -/
structure OrderItem where
  productId : DocId
  quantity : ℚ
  unitPrice : ℚ
deriving DecidableEq

/-- Field `status` of a sales order. -/
inductive OrderStatus where
  | pending
  | delivered
  | cancelled
deriving DecidableEq

/-- Document of `sales_orders`; `totalCost` is absent until delivery. -/
structure SalesOrder where
  orgId : DocId
  items : List OrderItem
  totalAmount : ℚ
  status : OrderStatus
  totalCost : Option ℚ
deriving DecidableEq

/-- Field `status` of a receivable: `'unpaid'`, `'partial'`, `'paid'`. -/
inductive ReceivableStatus where
  | unpaid
  | partialPaid
  | paid
deriving DecidableEq

/-- Document of `receivables`. -/
structure Receivable where
  orgId : DocId
  orderId : DocId
  totalAmount : ℚ
  paidAmount : ℚ
  dueAmount : ℚ
  issueDate : JSDate
  dueDate : JSDate
  status : ReceivableStatus
deriving DecidableEq

/-- Document of `collections`. -/
structure Collection where
  orgId : DocId
  receivableId : DocId
  orderId : DocId
  amount : ℚ
deriving DecidableEq

/-- Field `type` of a raw-material log. -/
inductive MaterialLogType where
  | purchase
  | production_use
deriving DecidableEq

/-- Document of `raw_material_logs`.  A purchase log carries `cost`, `unitCost`,
`newQuantity`, `newAvgCost`; a production-use log carries `quantity`. -/
structure MaterialLog where
  orgId : DocId
  materialId : DocId
  type : MaterialLogType
  quantityChange : ℚ
  cost : Option ℚ
  unitCost : Option ℚ
  newQuantity : Option ℚ
  newAvgCost : Option ℚ
  quantity : Option ℚ
deriving DecidableEq

/-- Field `type` of an inventory log. -/
inductive InventoryLogType where
  | production
  | sale_delivery
  | manual_add
  | manual_deduct
deriving DecidableEq

/-- Document of `inventory_logs`. -/
structure InventoryLog where
  orgId : DocId
  itemId : DocId
  type : InventoryLogType
  quantityChange : ℚ
  cost : Option ℚ
  relatedOrderId : Option DocId
  reason : Option String
deriving DecidableEq

/-- Field `status` of a production order: only `'completed'` is ever written. -/
inductive ProductionStatus where
  | completed
deriving DecidableEq

/-- Document of `production_orders`. -/
structure ProductionOrder where
  orgId : DocId
  productId : DocId
  quantity : ℚ
  totalCost : ℚ
  unitCost : ℚ
  status : ProductionStatus
deriving DecidableEq

/-- Field `type` of a cash-flow entry. -/
inductive CashflowType where
  | inflow
  | outflow
deriving DecidableEq

/-- Field `category` of a cash-flow entry. -/
inductive CashflowCategory where
  | purchase
  | collection
  | expense
deriving DecidableEq

/-- Document of `cashflow_entries`. -/
structure CashflowEntry where
  orgId : DocId
  type : CashflowType
  category : CashflowCategory
  amount : ℚ
deriving DecidableEq

/-- Document of `expenses`. -/
structure Expense where
  orgId : DocId
  amount : ℚ
deriving DecidableEq

/-- The ledger store: the Firestore collections the handlers read and write. -/
structure Store where
  raw_materials : DocId → Option RawMaterial
  inventory_items : DocId → Option InventoryItem
  sales_orders : DocId → Option SalesOrder
  receivables : List Receivable
  raw_material_logs : List MaterialLog
  inventory_logs : List InventoryLog
  production_orders : List ProductionOrder
  collections : List Collection
  cashflow_entries : List CashflowEntry
  products : DocId → Option Product
  expenses : List Expense

/-! ## Transactions -/

/-- What a handler throws inside its transaction, or alerts before it. -/
inductive Failure where
  | invalidQuantityOrCost
  | documentDoesNotExist
  | invalidProductOrBom
  | materialNotFound (materialId : DocId)
  | insufficientMaterial (materialId : DocId) (required available : ℚ)
  | inventoryNotFound (productId : DocId)
  | insufficientStock (productId : DocId) (available : ℚ)
  | amountExceedsDue (dueAmount : ℚ)
  | receivableNotFound
  | noOrganization
  | updateTargetMissing
  | itemNotFound
  | insufficientStockForDeduction
deriving DecidableEq

/-- How a handler call ends: `success` when its transaction committed,
`ignored` when a guard returned before anything was attempted, `failure` when
an error was alerted. -/
inductive Outcome where
  | success
  | ignored
  | failure (e : Failure)
deriving DecidableEq

/-- A write staged on a transaction: `transaction.update(ref, fields)` on an
existing document or `transaction.set(ref, doc)` on a new reference. -/
inductive Write where
  | updateMaterial (id : DocId) (quantity : ℚ) (averageCost : Option ℚ)
  | setMaterialLog (log : MaterialLog)
  | setCashflow (entry : CashflowEntry)
  | updateInventory (id : DocId) (quantity : ℚ) (averageCost : Option ℚ)
  | setInventory (id : DocId) (item : InventoryItem)
  | setInventoryLog (log : InventoryLog)
  | setProductionOrder (order : ProductionOrder)
  | setReceivable (rec : Receivable)
  | updateOrder (id : DocId) (status : OrderStatus) (totalCost : ℚ)
  | updateReceivable (id : DocId) (paidAmount dueAmount : ℚ) (status : ReceivableStatus)
  | setCollection (c : Collection)

/-- Replace the document stored under `id`. -/
def setDoc {α : Type} (coll : DocId → Option α) (id : DocId) (d : α) (j : DocId) : Option α :=
  if j = id then some d else coll j

/-- Modelled from the spec: the Firestore SDK is not part of the repository.
Applying one staged write at commit.  An `update` merges the given fields into
the existing document and makes the commit fail when the document is absent; a
`set` on a fresh reference of a collection appends the document. -/
def applyWrite (s : Store) : Write → Option Store
  | .updateMaterial id quantity averageCost =>
    match s.raw_materials id with
    | none => none
    | some m =>
      let m1 : RawMaterial :=
        { m with quantity := quantity, averageCost := averageCost.getD m.averageCost }
      some { s with raw_materials := setDoc s.raw_materials id m1 }
  | .setMaterialLog log => some { s with raw_material_logs := s.raw_material_logs ++ [log] }
  | .setCashflow entry => some { s with cashflow_entries := s.cashflow_entries ++ [entry] }
  | .updateInventory id quantity averageCost =>
    match s.inventory_items id with
    | none => none
    | some it =>
      let it1 : InventoryItem :=
        { it with quantity := quantity, averageCost := averageCost.getD it.averageCost }
      some { s with inventory_items := setDoc s.inventory_items id it1 }
  | .setInventory id item => some { s with inventory_items := setDoc s.inventory_items id item }
  | .setInventoryLog log => some { s with inventory_logs := s.inventory_logs ++ [log] }
  | .setProductionOrder order => some { s with production_orders := s.production_orders ++ [order] }
  | .setReceivable rec => some { s with receivables := s.receivables ++ [rec] }
  | .updateOrder id status totalCost =>
    match s.sales_orders id with
    | none => none
    | some o =>
      let o1 : SalesOrder := { o with status := status, totalCost := some totalCost }
      some { s with sales_orders := setDoc s.sales_orders id o1 }
  | .updateReceivable id paidAmount dueAmount status =>
    match s.receivables[id]? with
    | none => none
    | some r =>
      let r1 : Receivable :=
        { r with paidAmount := paidAmount, dueAmount := dueAmount, status := status }
      some { s with receivables := s.receivables.set id r1 }
  | .setCollection c => some { s with collections := s.collections ++ [c] }

/-- Modelled from the spec: the Firestore SDK is not part of the repository.
The commit applies the staged writes in the order they were staged, and is
all-or-nothing: `none` when one of them cannot be applied. -/
def commit (s : Store) : List Write → Option Store
  | [] => some s
  | w :: ws =>
    match applyWrite s w with
    | none => none
    | some s1 => commit s1 ws

/-- Modelled from the spec: the Firestore SDK is not part of the repository.
`runTransaction(db, updateFunction)` for a single client: the update function
reads the snapshot `s` and either throws or stages writes; a throw or a failed
commit leaves the store as it was. -/
def runTransaction (s : Store) (updateFunction : Store → Except Failure (List Write)) :
    Store × Outcome :=
  match updateFunction s with
  | .error e => (s, .failure e)
  | .ok writes =>
    match commit s writes with
    | none => (s, .failure .updateTargetMissing)
    | some s1 => (s1, .success)

/-! ## Costing Engine of the specification -/

/-- Section 4.2 of the specification, `weightedAverage(currentQty,
currentAvgCost, incomingQty, incomingUnitCost)`.  The source has no such
function: each handler inlines its arithmetic, which is compared with this
reference definition. -/
def weightedAverage (currentQty currentAvgCost incomingQty incomingUnitCost : ℚ) : ℚ :=
  let newTotalValue := currentQty * currentAvgCost + incomingQty * incomingUnitCost
  let newQty := currentQty + incomingQty
  if newQty > 0 then newTotalValue / newQty else 0

/-! ## Purchase (`RawMaterials.jsx`) -/

/-- React state `purchaseData` after `parseFloat`. -/
structure PurchaseData where
  quantity : ℚ
  totalCost : ℚ
deriving DecidableEq

/-- Body of the transaction of `handlePurchase` (lines 54-99). -/
def purchaseTransaction (organization : Organization) (materialId : DocId)
    (quantity cost : ℚ) (s : Store) : Except Failure (List Write) :=
  match s.raw_materials materialId with
  | none => .error .documentDoesNotExist
  | some data =>
    let currentQty := data.quantity
    let currentAvgCost := data.averageCost
    let currentTotalValue := currentQty * currentAvgCost
    let newTotalValue := currentTotalValue + cost
    let newQty := currentQty + quantity
    let newAvgCost := if newQty > 0 then newTotalValue / newQty else 0
    .ok [
      .updateMaterial materialId newQty (some newAvgCost),
      .setMaterialLog {
        orgId := organization.id
        materialId := materialId
        type := .purchase
        quantityChange := quantity
        cost := some cost
        unitCost := some (cost / quantity)
        newQuantity := some newQty
        newAvgCost := some newAvgCost
        quantity := none },
      .setCashflow {
        orgId := organization.id
        type := .outflow
        category := .purchase
        amount := cost } ]

/-- Handler `handlePurchase` of `RawMaterials.jsx`. -/
def handlePurchase (organization : Option Organization)
    (selectedMaterial : Option (Listed RawMaterial)) (purchaseData : PurchaseData)
    (s : Store) : Store × Outcome :=
  match selectedMaterial, organization with
  | none, _ => (s, .ignored)
  | _, none => (s, .ignored)
  | some material, some org =>
    let quantity := purchaseData.quantity
    let cost := purchaseData.totalCost
    if quantity ≤ 0 ∨ cost < 0 then (s, .failure .invalidQuantityOrCost)
    else runTransaction s (purchaseTransaction org material.id quantity cost)

/-! ## Production run (`Production.jsx`) -/

/-- React state `productionData`; `productId = none` stands for the empty
selection `''`, and `quantity` is the parsed number. -/
structure ProductionData where
  productId : Option DocId
  quantity : ℚ
deriving DecidableEq

/-- Element of `materialReads`: `{ ref, doc, bomItem }`. -/
structure MaterialRead where
  ref : DocId
  doc : Option RawMaterial
  bomItem : BomItem
deriving DecidableEq

/-- Element of `materialUpdates`: `{ ref, newQty, materialId, requiredQty }`. -/
structure MaterialUpdate where
  ref : DocId
  newQty : ℚ
  materialId : DocId
  requiredQty : ℚ
deriving DecidableEq

/-- Phase 1 of `handleProductionRun` (lines 91-101): one `transaction.get` per
BOM line, in BOM order. -/
def readMaterials (s : Store) (bom : List BomItem) : List MaterialRead :=
  bom.map fun item =>
    { ref := item.materialId, doc := s.raw_materials item.materialId, bomItem := item }

/-- Phase 2 of `handleProductionRun` (lines 108-134): the loop over
`materialReads`, with the running `totalCost` and `materialUpdates`. -/
def validateMaterials (qty : ℚ) :
    List MaterialRead → ℚ → List MaterialUpdate → Except Failure (ℚ × List MaterialUpdate)
  | [], totalCost, materialUpdates => .ok (totalCost, materialUpdates)
  | r :: rest, totalCost, materialUpdates =>
    match r.doc with
    | none => .error (.materialNotFound r.bomItem.materialId)
    | some matData =>
      let requiredQty := r.bomItem.quantity * qty
      if matData.quantity < requiredQty then
        .error (.insufficientMaterial r.bomItem.materialId requiredQty matData.quantity)
      else
        let newMatQty := matData.quantity - requiredQty
        let matCost := matData.averageCost * requiredQty
        validateMaterials qty rest (totalCost + matCost)
          (materialUpdates ++ [{ ref := r.ref, newQty := newMatQty,
                                 materialId := r.bomItem.materialId,
                                 requiredQty := requiredQty }])

/-- New quantity and average cost of the finished-goods item (lines 136-147). -/
def inventoryValues (invDoc : Option InventoryItem) (qty totalCost : ℚ) : ℚ × ℚ :=
  match invDoc with
  | none => (qty, totalCost / qty)
  | some invData =>
    let currentQty := invData.quantity
    let currentVal := currentQty * invData.averageCost
    let totalVal := currentVal + totalCost
    let newInvQty := currentQty + qty
    (newInvQty, totalVal / newInvQty)

/-- Phase 3, first loop (lines 151-169): per update, the material write and its
usage log. -/
def materialWrites (organization : Organization) : List MaterialUpdate → List Write
  | [] => []
  | update :: rest =>
    .updateMaterial update.ref update.newQty none ::
    .setMaterialLog {
      orgId := organization.id
      materialId := update.materialId
      type := .production_use
      quantityChange := -update.requiredQty
      cost := none
      unitCost := none
      newQuantity := none
      newAvgCost := none
      quantity := some update.requiredQty } ::
    materialWrites organization rest

/-- Phase 3, inventory write (lines 172-188): update when the item exists,
create it otherwise. -/
def inventoryWrite (organization : Organization) (productId : DocId)
    (invDoc : Option InventoryItem) (newInvQty newAvgCost : ℚ) : Write :=
  match invDoc with
  | some _ => .updateInventory productId newInvQty (some newAvgCost)
  | none =>
    .setInventory productId {
      productId := productId
      orgId := organization.id
      quantity := newInvQty
      averageCost := newAvgCost }

/-- Body of the transaction of `handleProductionRun` (lines 89-215). -/
def productionTransaction (organization : Organization) (productId : DocId)
    (product : Product) (qty : ℚ) (s : Store) : Except Failure (List Write) :=
  let materialReads := readMaterials s product.bom
  let invDoc := s.inventory_items productId
  match validateMaterials qty materialReads 0 [] with
  | .error e => .error e
  | .ok (totalCost, materialUpdates) =>
    let newInvQty := (inventoryValues invDoc qty totalCost).1
    let newAvgCost := (inventoryValues invDoc qty totalCost).2
    .ok (materialWrites organization materialUpdates ++ [
      inventoryWrite organization productId invDoc newInvQty newAvgCost,
      .setInventoryLog {
        orgId := organization.id
        itemId := productId
        type := .production
        quantityChange := qty
        cost := some totalCost
        relatedOrderId := none
        reason := none },
      .setProductionOrder {
        orgId := organization.id
        productId := productId
        quantity := qty
        totalCost := totalCost
        unitCost := totalCost / qty
        status := .completed } ])

/-- Handler `handleProductionRun` of `Production.jsx`.  `products` is the array
held by `useFirestore('products')`. -/
def handleProductionRun (organization : Option Organization)
    (products : List (Listed Product)) (productionData : ProductionData)
    (s : Store) : Store × Outcome :=
  match productionData.productId, organization with
  | none, _ => (s, .ignored)
  | _, none => (s, .ignored)
  | some productId, some org =>
    if productionData.quantity ≤ 0 then (s, .ignored)
    else
      let qty := productionData.quantity
      match products.find? (fun p => p.id == productId) with
      | none => (s, .failure .invalidProductOrBom)
      | some product =>
        if product.data.bom.length = 0 then (s, .failure .invalidProductOrBom)
        else runTransaction s (productionTransaction org productId product.data qty)

/-! ## Sales delivery (`Sales.jsx`) -/

/-- Element of `inventoryReads`: `{ ref, doc, orderItem }`. -/
structure InventoryRead where
  ref : DocId
  doc : Option InventoryItem
  orderItem : OrderItem
deriving DecidableEq

/-- Element of `inventoryUpdates`: `{ ref, newQty, productId, quantity }`. -/
structure InventoryUpdate where
  ref : DocId
  newQty : ℚ
  productId : DocId
  quantity : ℚ
deriving DecidableEq

/-- Phase 1 of `handleDeliver` (lines 71-81): one `transaction.get` per line
item, in order. -/
def readInventory (s : Store) (items : List OrderItem) : List InventoryRead :=
  items.map fun item =>
    { ref := item.productId, doc := s.inventory_items item.productId, orderItem := item }

/-- Phase 2 of `handleDeliver` (lines 84-107): the loop over `inventoryReads`,
with the running `totalCOGS` and `inventoryUpdates`. -/
def validateInventory :
    List InventoryRead → ℚ → List InventoryUpdate → Except Failure (ℚ × List InventoryUpdate)
  | [], totalCOGS, inventoryUpdates => .ok (totalCOGS, inventoryUpdates)
  | r :: rest, totalCOGS, inventoryUpdates =>
    match r.doc with
    | none => .error (.inventoryNotFound r.orderItem.productId)
    | some invData =>
      if invData.quantity < r.orderItem.quantity then
        .error (.insufficientStock r.orderItem.productId invData.quantity)
      else
        let currentAvgCost := invData.averageCost
        validateInventory rest (totalCOGS + currentAvgCost * r.orderItem.quantity)
          (inventoryUpdates ++ [{ ref := r.ref,
                                  newQty := invData.quantity - r.orderItem.quantity,
                                  productId := r.orderItem.productId,
                                  quantity := r.orderItem.quantity }])

/-- Phase 3, first loop of `handleDeliver` (lines 111-127): per update, the
inventory write and its outflow log. -/
def inventoryWrites (organization : Organization) (orderId : DocId) :
    List InventoryUpdate → List Write
  | [] => []
  | update :: rest =>
    .updateInventory update.ref update.newQty none ::
    .setInventoryLog {
      orgId := organization.id
      itemId := update.productId
      type := .sale_delivery
      quantityChange := -update.quantity
      cost := none
      relatedOrderId := some orderId
      reason := none } ::
    inventoryWrites organization orderId rest

/-- Body of the transaction of `handleDeliver` (lines 69-153).  `now` is the
value of `new Date()`.  With no organization the first `organization.id`, which
comes after the validation loop, throws. -/
def deliverTransaction (organization : Option Organization) (now : JSDate)
    (order : Listed SalesOrder) (s : Store) : Except Failure (List Write) :=
  let inventoryReads := readInventory s order.data.items
  match validateInventory inventoryReads 0 [] with
  | .error e => .error e
  | .ok (totalCOGS, inventoryUpdates) =>
    match organization with
    | none => .error .noOrganization
    | some org =>
      let dueDate := now.addDays 30
      .ok (inventoryWrites org order.id inventoryUpdates ++ [
        .setReceivable {
          orgId := org.id
          orderId := order.id
          totalAmount := order.data.totalAmount
          paidAmount := 0
          dueAmount := order.data.totalAmount
          issueDate := now
          dueDate := dueDate
          status := .unpaid },
        .updateOrder order.id .delivered totalCOGS ])

/-- Handler `handleDeliver(order)` of `Sales.jsx`.  `confirmed` is the answer to
`window.confirm`; `order` is the element of the `sales` array the button was
rendered for. -/
def handleDeliver (organization : Option Organization) (confirmed : Bool) (now : JSDate)
    (order : Listed SalesOrder) (s : Store) : Store × Outcome :=
  if confirmed = false then (s, .ignored)
  else runTransaction s (deliverTransaction organization now order)

/-! ## Collection (`Receivables.jsx`) -/

/-- Body of the transaction of `handleCollection` (lines 34-72).  With no
organization the first `organization.id` throws. -/
def collectionTransaction (organization : Option Organization)
    (selectedReceivable : Listed Receivable) (amount : ℚ) (s : Store) :
    Except Failure (List Write) :=
  match s.receivables[selectedReceivable.id]? with
  | none => .error .receivableNotFound
  | some data =>
    let newPaid := data.paidAmount + amount
    let newDue := data.totalAmount - newPaid
    let newStatus : ReceivableStatus := if newDue ≤ 0.01 then .paid else .partialPaid
    match organization with
    | none => .error .noOrganization
    | some org =>
      .ok [
        .updateReceivable selectedReceivable.id newPaid newDue newStatus,
        .setCollection {
          orgId := org.id
          receivableId := selectedReceivable.id
          orderId := selectedReceivable.data.orderId
          amount := amount },
        .setCashflow {
          orgId := org.id
          type := .inflow
          category := .collection
          amount := amount } ]

/-- Handler `handleCollection` of `Receivables.jsx`.  `selectedReceivable` is the
React state set when the payment dialog was opened; `collectionAmount` is the
parsed input. -/
def handleCollection (organization : Option Organization)
    (selectedReceivable : Option (Listed Receivable)) (collectionAmount : ℚ)
    (s : Store) : Store × Outcome :=
  match selectedReceivable with
  | none => (s, .ignored)
  | some sel =>
    if collectionAmount ≤ 0 then (s, .ignored)
    else
      let amount := collectionAmount
      if amount > sel.data.dueAmount then
        (s, .failure (.amountExceedsDue sel.data.dueAmount))
      else runTransaction s (collectionTransaction organization sel amount)

/-! ## Manual adjustment (`Inventory.jsx`) -/

/-- Value of the action `<select>` of the adjustment dialog: `'add'` or
`'deduct'`. -/
inductive AdjustmentType where
  | add
  | deduct
deriving DecidableEq

/-- React state `adjustment`, with `quantity` the parsed number. -/
structure AdjustmentData where
  type : AdjustmentType
  quantity : ℚ
  reason : String
deriving DecidableEq

/-- Body of the transaction of `handleadjustment` (lines 32-57). -/
def adjustmentTransaction (organization : Organization) (itemId : DocId)
    (adjustment : AdjustmentData) (actualChange : ℚ) (s : Store) :
    Except Failure (List Write) :=
  match s.inventory_items itemId with
  | none => .error .itemNotFound
  | some data =>
    let currentQty := data.quantity
    let newQty := currentQty + actualChange
    if newQty < 0 then .error .insufficientStockForDeduction
    else
      .ok [
        .updateInventory itemId newQty none,
        .setInventoryLog {
          orgId := organization.id
          itemId := itemId
          type := if adjustment.type = .add then .manual_add else .manual_deduct
          quantityChange := actualChange
          cost := none
          relatedOrderId := none
          reason := some adjustment.reason } ]

/-- Handler `handleadjustment` of `Inventory.jsx`.  `selectedItem` is the
element of the `inventory` array the dialog was opened on. -/
def handleadjustment (organization : Option Organization)
    (selectedItem : Option (Listed InventoryItem)) (adjustment : AdjustmentData)
    (s : Store) : Store × Outcome :=
  match selectedItem, organization with
  | none, _ => (s, .ignored)
  | _, none => (s, .ignored)
  | some item, some org =>
    let qtyChange := adjustment.quantity
    if qtyChange ≤ 0 then (s, .ignored)
    else
      let actualChange := if adjustment.type = .add then qtyChange else -qtyChange
      runTransaction s (adjustmentTransaction org item.id adjustment actualChange)

/-! ## Handlers that create a document with `addDoc` -/

/-- Handler `handleAddMaterial` of `RawMaterials.jsx` (lines 22-41).  `newId` is
the identifier `addDoc` generates for the new document. -/
def handleAddMaterial (organization : Option Organization) (newId : DocId) (s : Store) :
    Store × Outcome :=
  match organization with
  | none => (s, .ignored)
  | some org =>
    let material : RawMaterial := { orgId := org.id, quantity := 0, averageCost := 0 }
    ({ s with raw_materials := setDoc s.raw_materials newId material }, .success)

/-- Handler `handleAddProduct` of `Production.jsx` (lines 27-43).  `newId` is
the identifier `addDoc` generates for the new document. -/
def handleAddProduct (organization : Option Organization) (newId : DocId) (s : Store) :
    Store × Outcome :=
  match organization with
  | none => (s, .ignored)
  | some org =>
    let product : Product := { orgId := org.id, bom := [] }
    ({ s with products := setDoc s.products newId product }, .success)

/-- React state `newOrder` of `Sales.jsx`: the customer name and the line items
`handleAddItem` collected. -/
structure NewOrder where
  customerName : String
  items : List OrderItem
deriving DecidableEq

/-- Handler `handleCreateOrder` of `Sales.jsx` (lines 40-63).  `newId` is the
identifier `addDoc` generates.  The handler has no guard on `organization`:
with none, `organization.id` throws inside the `try` and the failure is
alerted. -/
def handleCreateOrder (organization : Option Organization) (newOrder : NewOrder)
    (newId : DocId) (s : Store) : Store × Outcome :=
  if newOrder.customerName = "" ∨ newOrder.items.length = 0 then (s, .ignored)
  else
    let totalAmount :=
      newOrder.items.foldl (fun sum item => sum + item.quantity * item.unitPrice) 0
    match organization with
    | none => (s, .failure .noOrganization)
    | some org =>
      let order : SalesOrder :=
        { orgId := org.id
          items := newOrder.items
          totalAmount := totalAmount
          status := .pending
          totalCost := none }
      ({ s with sales_orders := setDoc s.sales_orders newId order }, .success)

/-- React state `newExpense` of `Expenses.jsx`; `amount = none` stands for the
empty input `''`, otherwise it is the parsed number. -/
structure NewExpense where
  amount : Option ℚ
deriving DecidableEq

/-- Handler `handleAddExpense` of `Expenses.jsx` (lines 26-58): two `addDoc`
calls, the expense and its cash outflow. -/
def handleAddExpense (organization : Option Organization) (newExpense : NewExpense)
    (s : Store) : Store × Outcome :=
  match organization, newExpense.amount with
  | none, _ => (s, .ignored)
  | _, none => (s, .ignored)
  | some org, some amount =>
    let expenseData : Expense := { orgId := org.id, amount := amount }
    let entry : CashflowEntry :=
      { orgId := org.id, type := .outflow, category := .expense, amount := amount }
    ({ s with expenses := s.expenses ++ [expenseData],
              cashflow_entries := s.cashflow_entries ++ [entry] }, .success)

/-- The `orgId` of the document a staged write creates; `none` for an update of
an existing document. -/
def Write.createdOrgId : Write → Option DocId
  | .updateMaterial _ _ _ => none
  | .setMaterialLog log => some log.orgId
  | .setCashflow entry => some entry.orgId
  | .updateInventory _ _ _ => none
  | .setInventory _ item => some item.orgId
  | .setInventoryLog log => some log.orgId
  | .setProductionOrder order => some order.orgId
  | .setReceivable rec => some rec.orgId
  | .updateOrder _ _ _ => none
  | .updateReceivable _ _ _ _ => none
  | .setCollection c => some c.orgId

/-! ## Tenant-scoped reads (`useFirestore.js`) -/

/-- A constraint passed to `query`: a `where` filter on the document fields, an
`orderBy`, or a `limit`. -/
inductive QueryConstraint (α : Type) where
  | whereField (test : α → Bool)
  | orderBy (le : α → α → Bool)
  | limit (n : Nat)

/-- Modelled from the spec: the Firestore SDK is not part of the repository, and
the specification only names a query-by-tenant read path, so a constraint is
given the meaning the SDK documents: a `where` keeps the documents passing its
test, an `orderBy` sorts, a `limit` keeps the first `n`. -/
def QueryConstraint.apply {α : Type} (docs : List (Listed α)) :
    QueryConstraint α → List (Listed α)
  | .whereField test => docs.filter fun d => test d.data
  | .orderBy le => docs.mergeSort fun a b => le a.data b.data
  | .limit n => docs.take n

/-- Modelled from the spec: the Firestore SDK is not part of the repository.
Documents of a collection that `query(collection, ...constraints)` matches:
the constraints are conjunctive; here each one acts on what the ones before it
left, so that a constraint can narrow or reorder the result and never add a
document to it. -/
def runQuery {α : Type} (collection : List (Listed α))
    (constraints : List (QueryConstraint α)) : List (Listed α) :=
  constraints.foldl QueryConstraint.apply collection

/-- The documents the query of `useFirestore` (lines 28-32) matches on the
contents `collection` of a collection: those of the organization, under the
caller's extra constraints, each as `{ id: doc.id, ...doc.data() }`.  `orgId`
reads the field `orgId` of a document of the collection. -/
def tenantQuery {α : Type} (orgId : α → DocId) (organization : Organization)
    (collection : List (Listed α)) (queryConstraints : List (QueryConstraint α)) :
    List (Listed α) :=
  runQuery collection
    (.whereField (fun d => orgId d == organization.id) :: queryConstraints)

/-- React state of one mounted `useFirestore` (lines 7-9), with the
organization whose query the current listener is subscribed to (`none` when
there is no listener). -/
structure HookState (α : Type) where
  data : List (Listed α)
  loading : Bool
  error : Bool
  listening : Option Organization

/-- What happens to a mounted `useFirestore`: its effect runs (on mount and
whenever `organization?.id` changes), the listener delivers a snapshot of the
collection, or the listener reports an error. -/
inductive HookEvent (α : Type) where
  | effect (organization : Option Organization)
  | snapshot (collection : List (Listed α))
  | listenerError

/-- State of `useFirestore` at mount: `data = []`, `loading = true`, no error. -/
def HookState.initial {α : Type} : HookState α :=
  { data := [], loading := true, error := false, listening := none }

/-- One step of `useFirestore` (lines 19-53).  The effect unsubscribes the
previous listener; with no organization it sets `data` to `[]`, otherwise it
sets `loading` and subscribes the query of the organization, leaving `data` as
it is.  A snapshot sets `data` to the documents the query matches.  An error
sets `error` and ends the listener, leaving `data` as it is. -/
def HookState.step {α : Type} (orgId : α → DocId) (queryConstraints : List (QueryConstraint α))
    (st : HookState α) : HookEvent α → HookState α
  | .effect none => { st with data := [], loading := false, listening := none }
  | .effect (some organization) => { st with loading := true, listening := some organization }
  | .snapshot collection =>
    match st.listening with
    | none => st
    | some organization =>
      { st with data := tenantQuery orgId organization collection queryConstraints,
                loading := false }
  | .listenerError =>
    match st.listening with
    | none => st
    | some _ => { st with error := true, loading := false, listening := none }

/-- What `useFirestore(collectionName, queryConstraints)` returns at the render
after the given events, in order, since the component was mounted. -/
def useFirestore {α : Type} (orgId : α → DocId) (queryConstraints : List (QueryConstraint α))
    (events : List (HookEvent α)) : HookState α :=
  events.foldl (HookState.step orgId queryConstraints) HookState.initial

/-! ## Operation traces of the transactions -/

/-- Reference to a document a transaction reads. -/
inductive DocRef where
  | raw_materials (id : DocId)
  | inventory_items (id : DocId)
  | receivables (id : DocId)
deriving DecidableEq

/-- The update function of a transaction as the sequence of its calls on the
`transaction` object: `transaction.get` with the code that runs on the
snapshot it returns, `transaction.update` / `transaction.set` with the code
after it, a `throw`, or the normal return. -/
inductive Tx where
  | getMaterial (id : DocId) (next : Option RawMaterial → Tx)
  | getInventory (id : DocId) (next : Option InventoryItem → Tx)
  | getReceivable (id : DocId) (next : Option Receivable → Tx)
  | write (w : Write) (next : Tx)
  | throw (e : Failure)
  | done

/-- One call on the `transaction` object, or the throw that ends the update
function. -/
inductive Op where
  | get (ref : DocRef)
  | write (w : Write)
  | throw (e : Failure)

/-- The calls an update function makes, in order, on the snapshot `s`. -/
def Tx.ops (s : Store) : Tx → List Op
  | .getMaterial id next => .get (.raw_materials id) :: (next (s.raw_materials id)).ops s
  | .getInventory id next => .get (.inventory_items id) :: (next (s.inventory_items id)).ops s
  | .getReceivable id next => .get (.receivables id) :: (next (s.receivables[id]?)).ops s
  | .write w next => .write w :: next.ops s
  | .throw e => [.throw e]
  | .done => []

/-- What an update function hands to `runTransaction` on the snapshot `s`: the
thrown failure, or the writes it staged, in order. -/
def Tx.result (s : Store) : Tx → Except Failure (List Write)
  | .getMaterial id next => (next (s.raw_materials id)).result s
  | .getInventory id next => (next (s.inventory_items id)).result s
  | .getReceivable id next => (next (s.receivables[id]?)).result s
  | .write w next =>
    match next.result s with
    | .error e => .error e
    | .ok writes => .ok (w :: writes)
  | .throw e => .error e
  | .done => .ok []

/-- Staging a list of writes one after the other, then continuing. -/
def Tx.stage : List Write → Tx → Tx
  | [], next => next
  | w :: rest, next => .write w (Tx.stage rest next)

/-- Update function of `handlePurchase` (lines 54-99), call by call. -/
def purchaseTx (organization : Organization) (materialId : DocId) (quantity cost : ℚ) : Tx :=
  .getMaterial materialId fun materialDoc =>
    match materialDoc with
    | none => .throw .documentDoesNotExist
    | some data =>
      let currentQty := data.quantity
      let currentAvgCost := data.averageCost
      let currentTotalValue := currentQty * currentAvgCost
      let newTotalValue := currentTotalValue + cost
      let newQty := currentQty + quantity
      let newAvgCost := if newQty > 0 then newTotalValue / newQty else 0
      .write (.updateMaterial materialId newQty (some newAvgCost))
        (.write (.setMaterialLog {
            orgId := organization.id
            materialId := materialId
            type := .purchase
            quantityChange := quantity
            cost := some cost
            unitCost := some (cost / quantity)
            newQuantity := some newQty
            newAvgCost := some newAvgCost
            quantity := none })
          (.write (.setCashflow {
              orgId := organization.id
              type := .outflow
              category := .purchase
              amount := cost })
            .done))

/-- Phase 1 loop of `handleProductionRun` (lines 94-101), call by call: one
`transaction.get` per BOM line, pushed on `materialReads`. -/
def readMaterialsTx : List BomItem → List MaterialRead → (List MaterialRead → Tx) → Tx
  | [], materialReads, next => next materialReads
  | item :: rest, materialReads, next =>
    .getMaterial item.materialId fun doc =>
      readMaterialsTx rest
        (materialReads ++ [{ ref := item.materialId, doc := doc, bomItem := item }]) next

/-- Update function of `handleProductionRun` (lines 89-215), call by call. -/
def productionTx (organization : Organization) (productId : DocId) (product : Product)
    (qty : ℚ) : Tx :=
  readMaterialsTx product.bom [] fun materialReads =>
    .getInventory productId fun invDoc =>
      match validateMaterials qty materialReads 0 [] with
      | .error e => .throw e
      | .ok (totalCost, materialUpdates) =>
        let newInvQty := (inventoryValues invDoc qty totalCost).1
        let newAvgCost := (inventoryValues invDoc qty totalCost).2
        Tx.stage (materialWrites organization materialUpdates)
          (.write (inventoryWrite organization productId invDoc newInvQty newAvgCost)
            (.write (.setInventoryLog {
                orgId := organization.id
                itemId := productId
                type := .production
                quantityChange := qty
                cost := some totalCost
                relatedOrderId := none
                reason := none })
              (.write (.setProductionOrder {
                  orgId := organization.id
                  productId := productId
                  quantity := qty
                  totalCost := totalCost
                  unitCost := totalCost / qty
                  status := .completed })
                .done)))

/-- Phase 1 loop of `handleDeliver` (lines 74-81), call by call. -/
def readInventoryTx : List OrderItem → List InventoryRead → (List InventoryRead → Tx) → Tx
  | [], inventoryReads, next => next inventoryReads
  | item :: rest, inventoryReads, next =>
    .getInventory item.productId fun doc =>
      readInventoryTx rest
        (inventoryReads ++ [{ ref := item.productId, doc := doc, orderItem := item }]) next

/-- Update function of `handleDeliver` (lines 69-153), call by call.  With no
organization the first `organization.id` throws: in the first round of the
write loop after its `transaction.update`, or at the receivable when there is
no update. -/
def deliverTx (organization : Option Organization) (now : JSDate)
    (order : Listed SalesOrder) : Tx :=
  readInventoryTx order.data.items [] fun inventoryReads =>
    match validateInventory inventoryReads 0 [] with
    | .error e => .throw e
    | .ok (totalCOGS, inventoryUpdates) =>
      match organization with
      | none =>
        match inventoryUpdates with
        | [] => .throw .noOrganization
        | update :: _ =>
          .write (.updateInventory update.ref update.newQty none) (.throw .noOrganization)
      | some org =>
        let dueDate := now.addDays 30
        Tx.stage (inventoryWrites org order.id inventoryUpdates)
          (.write (.setReceivable {
              orgId := org.id
              orderId := order.id
              totalAmount := order.data.totalAmount
              paidAmount := 0
              dueAmount := order.data.totalAmount
              issueDate := now
              dueDate := dueDate
              status := .unpaid })
            (.write (.updateOrder order.id .delivered totalCOGS) .done))

/-- Update function of `handleCollection` (lines 34-72), call by call.  With no
organization the first `organization.id` throws after the receivable update
was staged. -/
def collectionTx (organization : Option Organization)
    (selectedReceivable : Listed Receivable) (amount : ℚ) : Tx :=
  .getReceivable selectedReceivable.id fun recDoc =>
    match recDoc with
    | none => .throw .receivableNotFound
    | some data =>
      let newPaid := data.paidAmount + amount
      let newDue := data.totalAmount - newPaid
      let newStatus : ReceivableStatus := if newDue ≤ 0.01 then .paid else .partialPaid
      .write (.updateReceivable selectedReceivable.id newPaid newDue newStatus)
        (match organization with
         | none => .throw .noOrganization
         | some org =>
           .write (.setCollection {
               orgId := org.id
               receivableId := selectedReceivable.id
               orderId := selectedReceivable.data.orderId
               amount := amount })
             (.write (.setCashflow {
                 orgId := org.id
                 type := .inflow
                 category := .collection
                 amount := amount })
               .done))

/-- Update function of `handleadjustment` (lines 32-57), call by call. -/
def adjustmentTx (organization : Organization) (itemId : DocId)
    (adjustment : AdjustmentData) (actualChange : ℚ) : Tx :=
  .getInventory itemId fun itemDoc =>
    match itemDoc with
    | none => .throw .itemNotFound
    | some data =>
      let currentQty := data.quantity
      let newQty := currentQty + actualChange
      if newQty < 0 then .throw .insufficientStockForDeduction
      else
        .write (.updateInventory itemId newQty none)
          (.write (.setInventoryLog {
              orgId := organization.id
              itemId := itemId
              type := if adjustment.type = .add then .manual_add else .manual_deduct
              quantityChange := actualChange
              cost := none
              relatedOrderId := none
              reason := some adjustment.reason })
            .done)

/-- The failures the update functions throw from a check on what they read;
`noOrganization` is the throw of `organization.id` on a missing organization,
`updateTargetMissing` the failure of the commit. -/
def Failure.isValidation : Failure → Bool
  | .documentDoesNotExist => true
  | .materialNotFound _ => true
  | .insufficientMaterial _ _ _ => true
  | .inventoryNotFound _ => true
  | .insufficientStock _ _ => true
  | .receivableNotFound => true
  | .itemNotFound => true
  | .insufficientStockForDeduction => true
  | _ => false

/-- A `transaction.get`. -/
def Op.isRead : Op → Bool
  | .get _ => true
  | _ => false

/-- A `transaction.update` or `transaction.set`. -/
def Op.isWrite : Op → Bool
  | .write _ => true
  | _ => false

/-- A throw of a validation failure. -/
def Op.isValidationFailure : Op → Bool
  | .throw e => e.isValidation
  | _ => false

/-- No read comes after a write: whenever a call of the trace is a write, no
later call is a read. -/
def noReadAfterWrite : List Op → Prop
  | [] => True
  | op :: rest => (op.isWrite = true → ∀ later ∈ rest, later.isRead = false) ∧ noReadAfterWrite rest

/-- No validation failure comes after a write. -/
def noValidationFailureAfterWrite : List Op → Prop
  | [] => True
  | op :: rest =>
    (op.isWrite = true → ∀ later ∈ rest, later.isValidationFailure = false) ∧
      noValidationFailureAfterWrite rest

/-! ## Numbers of JavaScript: rounding and `NaN` -/

/-- Rounding of a rational to the nearest integer, ties to the even one. -/
def roundHalfEven (y : ℚ) : ℤ :=
  if y - ⌊y⌋ < 1 / 2 then ⌊y⌋
  else if 1 / 2 < y - ⌊y⌋ then ⌊y⌋ + 1
  else if ⌊y⌋ % 2 = 0 then ⌊y⌋ else ⌊y⌋ + 1

/-- The double a JavaScript arithmetic operation returns for the exact result
`x`: IEEE 754 binary64, round to nearest, ties to even, that is 53 significant
bits.  Overflow to an infinity and the subnormal range are not modelled. -/
def fl (x : ℚ) : ℚ :=
  if x = 0 then 0
  else (roundHalfEven (x / (2 : ℚ) ^ (Int.log 2 |x| - 52)) : ℚ) *
    (2 : ℚ) ^ (Int.log 2 |x| - 52)

/-- Body of the transaction of `handlePurchase` (lines 54-99) with the result of
every arithmetic operation rounded by `round`: `round = fl` is the arithmetic
of the code, `round = id` the exact arithmetic of `purchaseTransaction`. -/
def purchaseTransactionRounded (round : ℚ → ℚ) (organization : Organization)
    (materialId : DocId) (quantity cost : ℚ) (s : Store) : Except Failure (List Write) :=
  match s.raw_materials materialId with
  | none => .error .documentDoesNotExist
  | some data =>
    let currentQty := data.quantity
    let currentAvgCost := data.averageCost
    let currentTotalValue := round (currentQty * currentAvgCost)
    let newTotalValue := round (currentTotalValue + cost)
    let newQty := round (currentQty + quantity)
    let newAvgCost := if newQty > 0 then round (newTotalValue / newQty) else 0
    .ok [
      .updateMaterial materialId newQty (some newAvgCost),
      .setMaterialLog {
        orgId := organization.id
        materialId := materialId
        type := .purchase
        quantityChange := quantity
        cost := some cost
        unitCost := some (round (cost / quantity))
        newQuantity := some newQty
        newAvgCost := some newAvgCost
        quantity := none },
      .setCashflow {
        orgId := organization.id
        type := .outflow
        category := .purchase
        amount := cost } ]

/-- Handler `handlePurchase` of `RawMaterials.jsx` with rounded arithmetic. -/
def handlePurchaseRounded (round : ℚ → ℚ) (organization : Option Organization)
    (selectedMaterial : Option (Listed RawMaterial)) (purchaseData : PurchaseData)
    (s : Store) : Store × Outcome :=
  match selectedMaterial, organization with
  | none, _ => (s, .ignored)
  | _, none => (s, .ignored)
  | some material, some org =>
    let quantity := purchaseData.quantity
    let cost := purchaseData.totalCost
    if quantity ≤ 0 ∨ cost < 0 then (s, .failure .invalidQuantityOrCost)
    else runTransaction s (purchaseTransactionRounded round org material.id quantity cost)

/-- Phase 2 of `handleProductionRun` (lines 108-134) with rounded arithmetic. -/
def validateMaterialsRounded (round : ℚ → ℚ) (qty : ℚ) :
    List MaterialRead → ℚ → List MaterialUpdate → Except Failure (ℚ × List MaterialUpdate)
  | [], totalCost, materialUpdates => .ok (totalCost, materialUpdates)
  | r :: rest, totalCost, materialUpdates =>
    match r.doc with
    | none => .error (.materialNotFound r.bomItem.materialId)
    | some matData =>
      let requiredQty := round (r.bomItem.quantity * qty)
      if matData.quantity < requiredQty then
        .error (.insufficientMaterial r.bomItem.materialId requiredQty matData.quantity)
      else
        let newMatQty := round (matData.quantity - requiredQty)
        let matCost := round (matData.averageCost * requiredQty)
        validateMaterialsRounded round qty rest (round (totalCost + matCost))
          (materialUpdates ++ [{ ref := r.ref, newQty := newMatQty,
                                 materialId := r.bomItem.materialId,
                                 requiredQty := requiredQty }])

/-- New quantity and average cost of the finished-goods item (lines 136-147)
with rounded arithmetic. -/
def inventoryValuesRounded (round : ℚ → ℚ) (invDoc : Option InventoryItem)
    (qty totalCost : ℚ) : ℚ × ℚ :=
  match invDoc with
  | none => (qty, round (totalCost / qty))
  | some invData =>
    let currentQty := invData.quantity
    let currentVal := round (currentQty * invData.averageCost)
    let totalVal := round (currentVal + totalCost)
    let newInvQty := round (currentQty + qty)
    (newInvQty, round (totalVal / newInvQty))

/-- Body of the transaction of `handleProductionRun` (lines 89-215) with rounded
arithmetic. -/
def productionTransactionRounded (round : ℚ → ℚ) (organization : Organization)
    (productId : DocId) (product : Product) (qty : ℚ) (s : Store) :
    Except Failure (List Write) :=
  let materialReads := readMaterials s product.bom
  let invDoc := s.inventory_items productId
  match validateMaterialsRounded round qty materialReads 0 [] with
  | .error e => .error e
  | .ok (totalCost, materialUpdates) =>
    let newInvQty := (inventoryValuesRounded round invDoc qty totalCost).1
    let newAvgCost := (inventoryValuesRounded round invDoc qty totalCost).2
    .ok (materialWrites organization materialUpdates ++ [
      inventoryWrite organization productId invDoc newInvQty newAvgCost,
      .setInventoryLog {
        orgId := organization.id
        itemId := productId
        type := .production
        quantityChange := qty
        cost := some totalCost
        relatedOrderId := none
        reason := none },
      .setProductionOrder {
        orgId := organization.id
        productId := productId
        quantity := qty
        totalCost := totalCost
        unitCost := round (totalCost / qty)
        status := .completed } ])

/-- Handler `handleProductionRun` of `Production.jsx` with rounded arithmetic. -/
def handleProductionRunRounded (round : ℚ → ℚ) (organization : Option Organization)
    (products : List (Listed Product)) (productionData : ProductionData)
    (s : Store) : Store × Outcome :=
  match productionData.productId, organization with
  | none, _ => (s, .ignored)
  | _, none => (s, .ignored)
  | some productId, some org =>
    if productionData.quantity ≤ 0 then (s, .ignored)
    else
      let qty := productionData.quantity
      match products.find? (fun p => p.id == productId) with
      | none => (s, .failure .invalidProductOrBom)
      | some product =>
        if product.data.bom.length = 0 then (s, .failure .invalidProductOrBom)
        else runTransaction s (productionTransactionRounded round org productId product.data qty)

/-- A JavaScript number as `parseFloat` returns it and a document holds it: a
number or `NaN`. -/
inductive JSNumber where
  | num (x : ℚ)
  | nan
deriving DecidableEq

/-- JavaScript `a < b`: false when either side is `NaN`. -/
def JSNumber.lt : JSNumber → JSNumber → Bool
  | .num a, .num b => decide (a < b)
  | _, _ => false

/-- JavaScript `a <= b`: false when either side is `NaN`. -/
def JSNumber.le : JSNumber → JSNumber → Bool
  | .num a, .num b => decide (a ≤ b)
  | _, _ => false

/-- JavaScript `a - b`: `NaN` when either side is `NaN`. -/
def JSNumber.sub : JSNumber → JSNumber → JSNumber
  | .num a, .num b => .num (a - b)
  | _, _ => .nan

/-- JavaScript `a + b`: `NaN` when either side is `NaN`. -/
def JSNumber.add : JSNumber → JSNumber → JSNumber
  | .num a, .num b => .num (a + b)
  | _, _ => .nan

/-- JavaScript `a * b`: `NaN` when either side is `NaN`. -/
def JSNumber.mul : JSNumber → JSNumber → JSNumber
  | .num a, .num b => .num (a * b)
  | _, _ => .nan

/-- JavaScript `a || 0` on a number: 0 when `a` is `NaN` (or 0). -/
def JSNumber.orZero : JSNumber → JSNumber
  | .num a => .num a
  | .nan => .num 0

/-- React state `orderItem` of `Sales.jsx`: `productId = none` stands for the
empty selection `''`; `quantity` and `unitPrice` are what `parseFloat` returned
for the two inputs. -/
structure OrderItemForm where
  productId : Option DocId
  quantity : JSNumber
  unitPrice : JSNumber
deriving DecidableEq

/-- Element of `newOrder.items`, and of the `items` of the stored order, with
JavaScript numbers. -/
structure JSOrderItem where
  productId : DocId
  quantity : JSNumber
  unitPrice : JSNumber
deriving DecidableEq

/-- Handler `handleAddItem` of `Sales.jsx` (lines 24-38): the line items of
`newOrder` after the click on `+ Add Line Item`. -/
def handleAddItem (orderItem : OrderItemForm) (items : List JSOrderItem) : List JSOrderItem :=
  match orderItem.productId with
  | none => items
  | some productId =>
    if orderItem.quantity.le (.num 0) = true then items
    else items ++ [{ productId := productId, quantity := orderItem.quantity,
                     unitPrice := orderItem.unitPrice }]

/-- Fields `quantity` and `averageCost` of an `inventory_items` document as
JavaScript numbers. -/
structure JSInventoryItem where
  quantity : JSNumber
  averageCost : JSNumber
deriving DecidableEq

/-- Element of `inventoryReads` with JavaScript numbers. -/
structure JSInventoryRead where
  ref : DocId
  doc : Option JSInventoryItem
  orderItem : JSOrderItem
deriving DecidableEq

/-- Element of `inventoryUpdates` with JavaScript numbers. -/
structure JSInventoryUpdate where
  ref : DocId
  newQty : JSNumber
  productId : DocId
  quantity : JSNumber
deriving DecidableEq

/-- Phase 1 of `handleDeliver` (lines 71-81) on JavaScript numbers. -/
def readInventoryJS (inventory : DocId → Option JSInventoryItem) (items : List JSOrderItem) :
    List JSInventoryRead :=
  items.map fun item =>
    { ref := item.productId, doc := inventory item.productId, orderItem := item }

/-- Phase 2 of `handleDeliver` (lines 84-107) on JavaScript numbers: the loop
over `inventoryReads`, with the running `totalCOGS` and `inventoryUpdates`;
`none` when it throws. -/
def validateInventoryJS :
    List JSInventoryRead → JSNumber → List JSInventoryUpdate →
      Option (JSNumber × List JSInventoryUpdate)
  | [], totalCOGS, inventoryUpdates => some (totalCOGS, inventoryUpdates)
  | r :: rest, totalCOGS, inventoryUpdates =>
    match r.doc with
    | none => none
    | some invData =>
      if invData.quantity.lt r.orderItem.quantity = true then none
      else
        let currentAvgCost := invData.averageCost.orZero
        validateInventoryJS rest (totalCOGS.add (currentAvgCost.mul r.orderItem.quantity))
          (inventoryUpdates ++ [{ ref := r.ref,
                                  newQty := invData.quantity.sub r.orderItem.quantity,
                                  productId := r.orderItem.productId,
                                  quantity := r.orderItem.quantity }])

/-- Phase 3 of `handleDeliver` on the inventory documents (lines 111-115), with
JavaScript numbers: `transaction.update(update.ref, { quantity: update.newQty })`
for each update, in order. -/
def applyInventoryUpdatesJS :
    List JSInventoryUpdate → (DocId → Option JSInventoryItem) → DocId → Option JSInventoryItem
  | [], inventory => inventory
  | update :: rest, inventory =>
    applyInventoryUpdatesJS rest fun id =>
      if id = update.ref then
        (inventory id).map fun item => { item with quantity := update.newQty }
      else inventory id

/-- The inventory documents and the `totalCost` written on the order by the
transaction of `handleDeliver` (lines 69-153), on JavaScript numbers; `none`
when the validation throws. -/
def deliverInventoryJS (inventory : DocId → Option JSInventoryItem)
    (items : List JSOrderItem) : Option ((DocId → Option JSInventoryItem) × JSNumber) :=
  match validateInventoryJS (readInventoryJS inventory items) (.num 0) [] with
  | none => none
  | some (totalCOGS, inventoryUpdates) =>
    some (applyInventoryUpdatesJS inventoryUpdates inventory, totalCOGS)

/-- An order line of the rational embedding as JavaScript numbers. -/
def OrderItem.toJS (item : OrderItem) : JSOrderItem :=
  { productId := item.productId, quantity := .num item.quantity,
    unitPrice := .num item.unitPrice }

/-- A read of the rational embedding as JavaScript numbers. -/
def InventoryRead.toJS (r : InventoryRead) : JSInventoryRead :=
  { ref := r.ref
    doc := r.doc.map fun d => { quantity := .num d.quantity, averageCost := .num d.averageCost }
    orderItem := r.orderItem.toJS }

/-- An update of the rational embedding as JavaScript numbers. -/
def InventoryUpdate.toJS (u : InventoryUpdate) : JSInventoryUpdate :=
  { ref := u.ref, newQty := .num u.newQty, productId := u.productId,
    quantity := .num u.quantity }

/-! ## Quantities the specification speaks of -/

/-- Average cost of a raw material in the snapshot (0 when it is absent). -/
def materialAverageCost (s : Store) (materialId : DocId) : ℚ :=
  match s.raw_materials materialId with
  | some m => m.averageCost
  | none => 0

/-- Consumed-material cost of a run: the sum over the BOM lines of
`material.averageCost * (bomQuantityPerUnit * producedQuantity)`. -/
def consumedMaterialCost (s : Store) (bom : List BomItem) (qty : ℚ) : ℚ :=
  (bom.map fun item => materialAverageCost s item.materialId * (item.quantity * qty)).sum

/-- What a run of `qty` units requires of one material: the sum of
`bomQuantityPerUnit * producedQuantity` over the BOM lines naming it. -/
def requiredOfMaterial (bom : List BomItem) (qty : ℚ) (materialId : DocId) : ℚ :=
  ((bom.filter fun item => item.materialId = materialId).map fun item =>
    item.quantity * qty).sum

/-- A BOM line is short when its material is missing from the snapshot or holds
less than `bomQuantityPerUnit * producedQuantity`. -/
def bomLineShort (s : Store) (qty : ℚ) (item : BomItem) : Prop :=
  s.raw_materials item.materialId = none ∨
    ∃ m, s.raw_materials item.materialId = some m ∧ m.quantity < item.quantity * qty

/-- Prior quantity of the finished-goods item, 0 when it does not exist yet. -/
def priorQuantity (s : Store) (productId : DocId) : ℚ :=
  match s.inventory_items productId with
  | some item => item.quantity
  | none => 0

/-- Prior average cost of the finished-goods item, 0 when it does not exist yet. -/
def priorAverageCost (s : Store) (productId : DocId) : ℚ :=
  match s.inventory_items productId with
  | some item => item.averageCost
  | none => 0

/-- Cost of goods sold of an order on a snapshot: the sum over the line items of
`averageCost * quantity`. -/
def costOfGoodsSold (s : Store) (items : List OrderItem) : ℚ :=
  (items.map fun item => priorAverageCost s item.productId * item.quantity).sum

/-- Quantity an order delivers of one product: the sum of its line quantities
for that product. -/
def deliveredOfProduct (items : List OrderItem) (productId : DocId) : ℚ :=
  ((items.filter fun item => item.productId = productId).map fun item =>
    item.quantity).sum

/-- An order line is short when its finished-goods item is missing from the
snapshot or holds less than the line quantity. -/
def orderLineShort (s : Store) (item : OrderItem) : Prop :=
  s.inventory_items item.productId = none ∨
    ∃ inv, s.inventory_items item.productId = some inv ∧ inv.quantity < item.quantity

/-! ## What the validation loops compute -/

/-- Quantity of a raw material in the snapshot (0 when it is absent). -/
def materialQuantity (s : Store) (materialId : DocId) : ℚ :=
  match s.raw_materials materialId with
  | some m => m.quantity
  | none => 0

/-- The update the validation loop computes for one BOM line on a snapshot. -/
def materialUpdateOf (s : Store) (qty : ℚ) (item : BomItem) : MaterialUpdate :=
  { ref := item.materialId
    newQty := materialQuantity s item.materialId - item.quantity * qty
    materialId := item.materialId
    requiredQty := item.quantity * qty }

/-- The `newQty` of the last update of the list written to document `id`, if any. -/
def lastMaterialQty : List MaterialUpdate → DocId → Option ℚ
  | [], _ => none
  | u :: rest, id =>
    match lastMaterialQty rest id with
    | some q => some q
    | none => if u.ref = id then some u.newQty else none

/-- The update the validation loop computes for one order line on a snapshot. -/
def inventoryUpdateOf (s : Store) (item : OrderItem) : InventoryUpdate :=
  { ref := item.productId
    newQty := priorQuantity s item.productId - item.quantity
    productId := item.productId
    quantity := item.quantity }

/-- The `newQty` of the last update of the list written to document `id`, if any. -/
def lastInventoryQty : List InventoryUpdate → DocId → Option ℚ
  | [], _ => none
  | u :: rest, id =>
    match lastInventoryQty rest id with
    | some q => some q
    | none => if u.ref = id then some u.newQty else none

/-- The material document a purchase of `n` units for `c` writes over `m`. -/
def purchasedMaterial (m : RawMaterial) (n c : ℚ) : RawMaterial :=
  { m with
    quantity := m.quantity + n
    averageCost :=
      if m.quantity + n > 0 then (m.quantity * m.averageCost + c) / (m.quantity + n) else 0 }

/-- Value a production run removed from the raw materials of a BOM: the sum
over the BOM lines of the quantity decrease of the material times its average
cost before the run. -/
def materialValueRemoved (before after : Store) (bom : List BomItem) : ℚ :=
  (bom.map fun item =>
    (materialQuantity before item.materialId - materialQuantity after item.materialId) *
      materialAverageCost before item.materialId).sum

/-- Value of the finished-goods item of a product: quantity times average cost,
0 when the item does not exist. -/
def inventoryValue (s : Store) (productId : DocId) : ℚ :=
  priorQuantity s productId * priorAverageCost s productId

/-! ## Sequences of calls and the stock invariant -/

/-- Every stored raw-material and finished-goods quantity is at least 0. -/
def nonNegativeStock (s : Store) : Prop :=
  (∀ id m, s.raw_materials id = some m → 0 ≤ m.quantity) ∧
  (∀ id item, s.inventory_items id = some item → 0 ≤ item.quantity)

/-- One call of a handler that moves stock, with its React state and arguments. -/
inductive Call where
  | purchase (organization : Option Organization)
      (selectedMaterial : Option (Listed RawMaterial)) (purchaseData : PurchaseData)
  | productionRun (organization : Option Organization) (products : List (Listed Product))
      (productionData : ProductionData)
  | salesDelivery (organization : Option Organization) (confirmed : Bool) (now : JSDate)
      (order : Listed SalesOrder)
  | manualAdjustment (organization : Option Organization)
      (selectedItem : Option (Listed InventoryItem)) (adjustment : AdjustmentData)

/-- Running one call on a store. -/
def Call.run (s : Store) : Call → Store × Outcome
  | .purchase organization selectedMaterial purchaseData =>
    handlePurchase organization selectedMaterial purchaseData s
  | .productionRun organization products productionData =>
    handleProductionRun organization products productionData s
  | .salesDelivery organization confirmed now order =>
    handleDeliver organization confirmed now order s
  | .manualAdjustment organization selectedItem adjustment =>
    handleadjustment organization selectedItem adjustment s

/-- The store after a sequence of calls, each run on the store the previous one
left. -/
def runCalls (s : Store) : List Call → Store
  | [] => s
  | call :: rest => runCalls (call.run s).1 rest

/-- The quantity a call computes for some document it reads is negative: the
purchased material's `quantity + n`, a BOM line's `quantity - required`, the
finished-goods item's `quantity + qty`, an order line's item `quantity - line
quantity`, the adjusted item's `quantity + actualChange`. -/
def wouldGoNegative (s : Store) : Call → Prop
  | .purchase _ selectedMaterial purchaseData =>
    ∃ sel m, selectedMaterial = some sel ∧ s.raw_materials sel.id = some m ∧
      m.quantity + purchaseData.quantity < 0
  | .productionRun _ products productionData =>
    ∃ productId product, productionData.productId = some productId ∧
      products.find? (fun p => p.id == productId) = some product ∧
      ((∃ item ∈ product.data.bom, ∃ m, s.raw_materials item.materialId = some m ∧
          m.quantity - item.quantity * productionData.quantity < 0) ∨
        ∃ inv, s.inventory_items productId = some inv ∧
          inv.quantity + productionData.quantity < 0)
  | .salesDelivery _ _ _ order =>
    ∃ item ∈ order.data.items, ∃ inv, s.inventory_items item.productId = some inv ∧
      inv.quantity - item.quantity < 0
  | .manualAdjustment _ selectedItem adjustment =>
    ∃ sel inv, selectedItem = some sel ∧ s.inventory_items sel.id = some inv ∧
      inv.quantity +
        (if adjustment.type = .add then adjustment.quantity else -adjustment.quantity) < 0

/-- Sum of `quantityChange` over the raw-material logs written for one material. -/
def materialLogSum (s : Store) (materialId : DocId) : ℚ :=
  ((s.raw_material_logs.filter fun log => log.materialId = materialId).map fun log =>
    log.quantityChange).sum

/-- Sum of `quantityChange` over the inventory logs written for one item. -/
def inventoryLogSum (s : Store) (itemId : DocId) : ℚ :=
  ((s.inventory_logs.filter fun log => log.itemId = itemId).map fun log =>
    log.quantityChange).sum

/-! ## Example data -/

/-- The store with no documents. -/
def emptyStore : Store :=
  { raw_materials := fun _ => none
    inventory_items := fun _ => none
    sales_orders := fun _ => none
    receivables := []
    raw_material_logs := []
    inventory_logs := []
    production_orders := []
    collections := []
    cashflow_entries := []
    products := fun _ => none
    expenses := [] }

/-- Organization 7. -/
def acme : Organization := { id := 7 }

/-- Material 1 as `handleAddMaterial` creates it: quantity 0, average cost 0. -/
def storeFreshMaterial : Store :=
  { emptyStore with
    raw_materials := setDoc emptyStore.raw_materials 1
      { orgId := 7, quantity := 0, averageCost := 0 } }

/-- Material 1 after a purchase of 100 for 5000. -/
def storeAfterPurchase : Store :=
  { emptyStore with
    raw_materials := setDoc emptyStore.raw_materials 1
      { orgId := 7, quantity := 100, averageCost := 50 } }

/-- Material 1 holds 100, material 2 holds 5. -/
def storeTwoMaterials : Store :=
  { emptyStore with
    raw_materials := setDoc (setDoc emptyStore.raw_materials 1
      { orgId := 7, quantity := 100, averageCost := 1 }) 2
      { orgId := 7, quantity := 5, averageCost := 4 } }

/-- Product 5 needs 2 of material 1 and 1 of material 2 per unit. -/
def productTwoLines : Listed Product :=
  { id := 5, data := { orgId := 7, bom := [⟨1, 2⟩, ⟨2, 1⟩] } }

/-- Material 1 holds 150 at average cost 160/3; no finished goods yet. -/
def storeBeforeRun : Store :=
  { emptyStore with
    raw_materials := setDoc emptyStore.raw_materials 1
      { orgId := 7, quantity := 150, averageCost := 160 / 3 } }

/-- Product 5 needs 2 of material 1 per unit. -/
def productOneLine : Listed Product :=
  { id := 5, data := { orgId := 7, bom := [⟨1, 2⟩] } }

/-- Material 1 holds 100 at average cost 1. -/
def storeOneMaterial : Store :=
  { emptyStore with
    raw_materials := setDoc emptyStore.raw_materials 1
      { orgId := 7, quantity := 100, averageCost := 1 } }

/-- Product 5 with two BOM lines naming material 1: 2 per unit and 3 per unit,
as two calls of `handleAddBomItem` leave it. -/
def productRepeatedMaterial : Listed Product :=
  { id := 5, data := { orgId := 7, bom := [⟨1, 2⟩, ⟨1, 3⟩] } }

/-- Pending order 9 with lines of 3 of product 5 and 2 of product 6. -/
def orderTwoProducts : Listed SalesOrder :=
  { id := 9
    data := { orgId := 7, items := [⟨5, 3, 10⟩, ⟨6, 2, 10⟩], totalAmount := 50,
              status := .pending, totalCost := none } }

/-- Product 5 holds 10, product 6 holds 1; order 9 is stored pending. -/
def storeTwoProducts : Store :=
  { emptyStore with
    inventory_items := setDoc (setDoc emptyStore.inventory_items 5
      { productId := 5, orgId := 7, quantity := 10, averageCost := 2 }) 6
      { productId := 6, orgId := 7, quantity := 1, averageCost := 3 }
    sales_orders := setDoc emptyStore.sales_orders 9 orderTwoProducts.data }

/-- Pending order 9 with two lines naming product 5: 3 units and 4 units, as two
calls of `handleAddItem` leave it. -/
def orderRepeatedProduct : Listed SalesOrder :=
  { id := 9
    data := { orgId := 7, items := [⟨5, 3, 10⟩, ⟨5, 4, 10⟩], totalAmount := 70,
              status := .pending, totalCost := none } }

/-- Product 5 holds 10 at average cost 2; order 9 is stored pending. -/
def storeRepeatedProduct : Store :=
  { emptyStore with
    inventory_items := setDoc emptyStore.inventory_items 5
      { productId := 5, orgId := 7, quantity := 10, averageCost := 2 }
    sales_orders := setDoc emptyStore.sales_orders 9 orderRepeatedProduct.data }

/-- Pending order 9: 5 units of product 5 at 200 each. -/
def orderFiveUnits : Listed SalesOrder :=
  { id := 9
    data := { orgId := 7, items := [⟨5, 5, 200⟩], totalAmount := 1000,
              status := .pending, totalCost := none } }

/-- Product 5 holds 10 at average cost 320/3; order 9 is stored pending. -/
def storeBeforeDelivery : Store :=
  { emptyStore with
    inventory_items := setDoc emptyStore.inventory_items 5
      { productId := 5, orgId := 7, quantity := 10, averageCost := 320 / 3 }
    sales_orders := setDoc emptyStore.sales_orders 9 orderFiveUnits.data }

/-- Day 100, noon. -/
def deliveryInstant : JSDate := { day := 100, msOfDay := 43200000 }

/-- Receivable of order 9 as delivery creates it: total 500, nothing paid. -/
def receivableUnpaid : Receivable :=
  { orgId := 7, orderId := 9, totalAmount := 500, paidAmount := 0, dueAmount := 500,
    issueDate := deliveryInstant, dueDate := deliveryInstant.addDays 30, status := .unpaid }

/-- The same receivable after 200 were collected. -/
def receivableAfter200 : Receivable :=
  { receivableUnpaid with paidAmount := 200, dueAmount := 300, status := .partialPaid }

/-- The same receivable after 400 were collected. -/
def receivableAfter400 : Receivable :=
  { receivableUnpaid with paidAmount := 400, dueAmount := 100, status := .partialPaid }

/-- Store whose only receivable is `receivableUnpaid`, under id 0. -/
def storeUnpaid : Store := { emptyStore with receivables := [receivableUnpaid] }

/-- Store whose only receivable is `receivableAfter200`, under id 0. -/
def storeAfter200 : Store := { emptyStore with receivables := [receivableAfter200] }

/-- Listed copy of inventory item 5 as `storeBeforeDelivery` holds it. -/
def listedItemFive : Listed InventoryItem :=
  { id := 5, data := { productId := 5, orgId := 7, quantity := 10, averageCost := 320 / 3 } }

/-- Material 1 freshly created and pending order 9 of 5 units of product 5. -/
def storeEndToEnd : Store :=
  { emptyStore with
    raw_materials := setDoc emptyStore.raw_materials 1
      { orgId := 7, quantity := 0, averageCost := 0 }
    sales_orders := setDoc emptyStore.sales_orders 9 orderFiveUnits.data }

/-- The end-to-end example after the two purchases of material 1: 100 for 5000,
then 50 for 3000. -/
def storeAfterTwoPurchases : Store :=
  (handlePurchase (some acme) (some ⟨1, ⟨7, 0, 0⟩⟩) ⟨50, 3000⟩
    (handlePurchase (some acme) (some ⟨1, ⟨7, 0, 0⟩⟩) ⟨100, 5000⟩ storeEndToEnd).1).1

/-- The end-to-end example after the production run of 10 units of product 5. -/
def storeAfterRun : Store :=
  (handleProductionRun (some acme) [productOneLine] ⟨some 5, 10⟩ storeAfterTwoPurchases).1

/-- The end-to-end example after the delivery of order 9. -/
def storeAfterDelivery : Store :=
  (handleDeliver (some acme) true deliveryInstant orderFiveUnits storeAfterRun).1

/-- Materials 1 and 2 as in `storeTwoMaterials`; the stored document of
product 5 has the two-line BOM of `productTwoLines`. -/
def storeEditedBom : Store :=
  { storeTwoMaterials with products := setDoc emptyStore.products 5 productTwoLines.data }

/-- Raw materials of organizations 7 and 8 in one collection. -/
def materialsOfTwoTenants : List (Listed RawMaterial) :=
  [⟨1, ⟨7, 100, 50⟩⟩, ⟨2, ⟨8, 30, 4⟩⟩, ⟨3, ⟨7, 5, 1⟩⟩]

/-- Order form with two lines: 3 units at 10 and 2 units at 25. -/
def newOrderTwoLines : NewOrder :=
  { customerName := "Asha", items := [⟨5, 3, 10⟩, ⟨6, 2, 25⟩] }

/-- Ten units of material 1 at average cost 2. -/
def storeTenAtTwo : Store :=
  { emptyStore with
    raw_materials := setDoc emptyStore.raw_materials 1
      { orgId := 7, quantity := 10, averageCost := 2 } }

/-- Material 1 holds 10 at average cost 5; finished-goods item 5 holds 6 at
average cost 4. -/
def storeSixAtFour : Store :=
  { emptyStore with
    raw_materials := setDoc emptyStore.raw_materials 1
      { orgId := 7, quantity := 10, averageCost := 5 }
    inventory_items := setDoc emptyStore.inventory_items 5
      { productId := 5, orgId := 7, quantity := 6, averageCost := 4 } }

/-- Product 5 needs 1 of material 1 per unit. -/
def productUnitLine : Listed Product :=
  { id := 5, data := { orgId := 7, bom := [⟨1, 1⟩] } }

/-! ## Lemmas on the store and on commits -/

/-- Reading back the document just stored. -/
@[simp] theorem setDoc_same {α : Type} (coll : DocId → Option α) (id : DocId) (d : α) :
    setDoc coll id d id = some d := by
  simp [setDoc]

/-- Storing under one id leaves the other ids alone. -/
theorem setDoc_other {α : Type} (coll : DocId → Option α) (id j : DocId) (d : α) (h : j ≠ id) :
    setDoc coll id d j = coll j := by
  simp [setDoc, h]

/-- Committing a concatenation is committing the first part, then the second. -/
theorem commit_append (s : Store) (a b : List Write) :
    commit s (a ++ b) = (commit s a).bind (fun s1 => commit s1 b) := by
  induction a generalizing s with
  | nil => simp [commit]
  | cons w ws ih =>
    simp only [List.cons_append, commit]
    cases applyWrite s w with
    | none => simp
    | some s1 => simpa using ih s1

/-! ## Lemmas on the production run -/

/-- The validation loop of the production run throws as soon as one BOM line is
short, whatever it has accumulated. -/
theorem validateMaterials_error_of_short (s : Store) (qty : ℚ) (bom : List BomItem)
    (h : ∃ item ∈ bom, bomLineShort s qty item) (totalCost : ℚ) (updates : List MaterialUpdate) :
    ∃ e, validateMaterials qty (readMaterials s bom) totalCost updates = .error e := by
  induction bom generalizing totalCost updates with
  | nil => simp at h
  | cons item rest ih =>
    simp only [readMaterials, List.map_cons, validateMaterials]
    cases hdoc : s.raw_materials item.materialId with
    | none => exact ⟨_, rfl⟩
    | some m =>
      by_cases hlt : m.quantity < item.quantity * qty
      · simp [hlt]
      · simp only [hlt, if_false]
        obtain ⟨it, hmem, hshort⟩ := h
        rcases List.mem_cons.mp hmem with heq | hmem
        · subst heq
          rcases hshort with hnone | ⟨m1, hm1, hlt1⟩
          · simp [hdoc] at hnone
          · rw [hdoc] at hm1
            cases hm1
            exact absurd hlt1 hlt
        · exact ih ⟨it, hmem, hshort⟩ _ _

/-- When the validation loop of the production run passes, the `totalCost` it
returns is the initial value plus the consumed-material cost of the BOM. -/
theorem validateMaterials_totalCost (s : Store) (qty : ℚ) (bom : List BomItem)
    (totalCost : ℚ) (updates : List MaterialUpdate) (T : ℚ) (us : List MaterialUpdate)
    (h : validateMaterials qty (readMaterials s bom) totalCost updates = .ok (T, us)) :
    T = totalCost + consumedMaterialCost s bom qty := by
  induction bom generalizing totalCost updates with
  | nil =>
    simp [readMaterials, validateMaterials] at h
    simp [consumedMaterialCost, h.1]
  | cons item rest ih =>
    simp only [readMaterials, List.map_cons, validateMaterials] at h
    cases hdoc : s.raw_materials item.materialId with
    | none => simp [hdoc] at h
    | some m =>
      simp only [hdoc] at h
      by_cases hlt : m.quantity < item.quantity * qty
      · simp [hlt] at h
      · simp only [hlt, if_false] at h
        have := ih _ _ h
        rw [this]
        simp [consumedMaterialCost, materialAverageCost, hdoc]
        ring

/-- The material writes of a production run touch only `raw_materials` and
`raw_material_logs`. -/
theorem commit_materialWrites_frame (org : Organization) (us : List MaterialUpdate)
    (s s1 : Store) (h : commit s (materialWrites org us) = some s1) :
    s1.inventory_items = s.inventory_items ∧ s1.sales_orders = s.sales_orders ∧
    s1.receivables = s.receivables ∧ s1.inventory_logs = s.inventory_logs ∧
    s1.production_orders = s.production_orders ∧ s1.collections = s.collections ∧
    s1.cashflow_entries = s.cashflow_entries := by
  induction us generalizing s with
  | nil =>
    simp [materialWrites, commit] at h
    subst h
    simp
  | cons u rest ih =>
    simp only [materialWrites, commit, applyWrite] at h
    cases hdoc : s.raw_materials u.ref with
    | none => simp [hdoc] at h
    | some m =>
      simp only [hdoc] at h
      have := ih _ h
      simpa using this

/-- When the validation loop of the production run passes, it has appended one
update per BOM line, computed from the snapshot, and every line's material is
present and sufficient. -/
theorem validateMaterials_updates (s : Store) (qty : ℚ) (bom : List BomItem)
    (totalCost : ℚ) (updates : List MaterialUpdate) (T : ℚ) (us : List MaterialUpdate)
    (h : validateMaterials qty (readMaterials s bom) totalCost updates = .ok (T, us)) :
    us = updates ++ bom.map (materialUpdateOf s qty) ∧
    ∀ item ∈ bom, ∃ m, s.raw_materials item.materialId = some m ∧
      item.quantity * qty ≤ m.quantity := by
  induction bom generalizing totalCost updates with
  | nil =>
    simp [readMaterials, validateMaterials] at h
    simp [h.2]
  | cons item rest ih =>
    simp only [readMaterials, List.map_cons, validateMaterials] at h
    cases hdoc : s.raw_materials item.materialId with
    | none => simp [hdoc] at h
    | some m =>
      simp only [hdoc] at h
      by_cases hlt : m.quantity < item.quantity * qty
      · simp [hlt] at h
      · simp only [hlt, if_false] at h
        obtain ⟨hus, hall⟩ := ih _ _ h
        refine ⟨?_, ?_⟩
        · rw [hus]
          simp [materialUpdateOf, materialQuantity, hdoc]
        · intro it hit
          rcases List.mem_cons.mp hit with heq | hmem
          · subst heq
            exact ⟨m, hdoc, not_lt.mp hlt⟩
          · exact hall it hmem

/-- After the material writes are applied, a raw material holds the `newQty` of
the last update written to it, and is untouched when no update names it. -/
theorem commit_materialWrites_raw_materials (org : Organization) (us : List MaterialUpdate)
    (s s1 : Store) (h : commit s (materialWrites org us) = some s1) (id : DocId) :
    s1.raw_materials id =
      match lastMaterialQty us id with
      | none => s.raw_materials id
      | some q => (s.raw_materials id).map fun m => { m with quantity := q } := by
  induction us generalizing s with
  | nil =>
    simp [materialWrites, commit] at h
    subst h
    simp [lastMaterialQty]
  | cons u rest ih =>
    simp only [materialWrites, commit, applyWrite] at h
    cases hdoc : s.raw_materials u.ref with
    | none => simp [hdoc] at h
    | some m =>
      simp only [hdoc] at h
      rw [ih _ h]
      simp only [lastMaterialQty]
      cases hlast : lastMaterialQty rest id with
      | some q =>
        by_cases hid : id = u.ref
        · subst hid
          simp [setDoc, hdoc]
        · simp [setDoc, hid]
      | none =>
        by_cases hid : id = u.ref
        · subst hid
          simp [setDoc, hdoc]
        · have hid' : ¬ u.ref = id := fun h => hid h.symm
          simp [setDoc, hid, hid']

/-- No update names the document. -/
theorem lastMaterialQty_eq_none (us : List MaterialUpdate) (id : DocId)
    (h : ∀ u ∈ us, u.ref ≠ id) : lastMaterialQty us id = none := by
  induction us with
  | nil => rfl
  | cons u rest ih =>
    have h1 := ih (fun v hv => h v (List.mem_cons_of_mem _ hv))
    have h2 := h u (List.mem_cons_self _ _)
    simp [lastMaterialQty, h1, h2]

/-- When the BOM lines name pairwise distinct materials, the last update of a
line's material is that line's own. -/
theorem lastMaterialQty_of_nodup (s : Store) (qty : ℚ) (bom : List BomItem)
    (hnodup : (bom.map fun i => i.materialId).Nodup) (item : BomItem) (hmem : item ∈ bom) :
    lastMaterialQty (bom.map (materialUpdateOf s qty)) item.materialId =
      some (materialQuantity s item.materialId - item.quantity * qty) := by
  induction bom with
  | nil => simp at hmem
  | cons b rest ih =>
    rw [List.map_cons, List.nodup_cons] at hnodup
    obtain ⟨hnot, hrest⟩ := hnodup
    rcases List.mem_cons.mp hmem with heq | hin
    · subst heq
      have hnone : lastMaterialQty (rest.map (materialUpdateOf s qty)) item.materialId = none := by
        apply lastMaterialQty_eq_none
        intro u hu
        obtain ⟨i, hi, rfl⟩ := List.mem_map.mp hu
        intro hEq
        apply hnot
        exact List.mem_map.mpr ⟨i, hi, hEq⟩
      simp [lastMaterialQty, hnone, materialUpdateOf]
    · simp [lastMaterialQty, ih hrest hin]

/-- When the BOM lines name pairwise distinct materials, what the run requires of
a line's material is that line's requirement. -/
theorem requiredOfMaterial_of_nodup (qty : ℚ) (bom : List BomItem)
    (hnodup : (bom.map fun i => i.materialId).Nodup) (item : BomItem) (hmem : item ∈ bom) :
    requiredOfMaterial bom qty item.materialId = item.quantity * qty := by
  induction bom with
  | nil => simp at hmem
  | cons b rest ih =>
    rw [List.map_cons, List.nodup_cons] at hnodup
    obtain ⟨hnot, hrest⟩ := hnodup
    rcases List.mem_cons.mp hmem with heq | hin
    · subst heq
      have hfil : (rest.filter fun i => i.materialId = item.materialId) = [] := by
        rw [List.filter_eq_nil_iff]
        intro i hi
        simp only [decide_eq_true_eq]
        intro hEq
        exact hnot (List.mem_map.mpr ⟨i, hi, hEq⟩)
      simp [requiredOfMaterial, List.filter_cons, hfil]
    · have hne : ¬ b.materialId = item.materialId := by
        intro hEq
        apply hnot
        rw [hEq]
        exact List.mem_map.mpr ⟨item, hin, rfl⟩
      have := ih hrest hin
      simp only [requiredOfMaterial] at this ⊢
      simp [List.filter_cons, hne, this]

/-- A successful production run has `qty > 0` and passed the validation loop. -/
theorem production_success_validates
    (organization : Option Organization) (products : List (Listed Product))
    (productId : DocId) (product : Listed Product) (qty : ℚ) (s : Store)
    (hfind : products.find? (fun p => p.id == productId) = some product)
    (hsucc : (handleProductionRun organization products ⟨some productId, qty⟩ s).2 = .success) :
    0 < qty ∧ ∃ T us,
      validateMaterials qty (readMaterials s product.data.bom) 0 [] = .ok (T, us) := by
  cases organization with
  | none => simp [handleProductionRun] at hsucc
  | some org =>
    by_cases hq : qty ≤ 0
    · simp [handleProductionRun, hq] at hsucc
    by_cases hlen : product.data.bom.length = 0
    · simp [handleProductionRun, hq, hfind, hlen] at hsucc
    cases hval : validateMaterials qty (readMaterials s product.data.bom) 0 [] with
    | error e =>
      simp [handleProductionRun, hq, hfind, hlen, runTransaction, productionTransaction, hval]
        at hsucc
    | ok res => exact ⟨lt_of_not_ge hq, res.1, res.2, rfl⟩

/-- Raw materials after a successful production run: each holds the `newQty`
computed for the last BOM line naming it, and is untouched when no line names
it. -/
theorem production_raw_materials_after
    (organization : Option Organization) (products : List (Listed Product))
    (productId : DocId) (product : Listed Product) (qty : ℚ) (s : Store)
    (hfind : products.find? (fun p => p.id == productId) = some product)
    (hsucc : (handleProductionRun organization products ⟨some productId, qty⟩ s).2 = .success)
    (id : DocId) :
    (handleProductionRun organization products ⟨some productId, qty⟩ s).1.raw_materials id =
      match lastMaterialQty (product.data.bom.map (materialUpdateOf s qty)) id with
      | none => s.raw_materials id
      | some q => (s.raw_materials id).map fun m => { m with quantity := q } := by
  cases organization with
  | none => simp [handleProductionRun] at hsucc
  | some org =>
    by_cases hq : qty ≤ 0
    · simp [handleProductionRun, hq] at hsucc
    by_cases hlen : product.data.bom.length = 0
    · simp [handleProductionRun, hq, hfind, hlen] at hsucc
    cases hval : validateMaterials qty (readMaterials s product.data.bom) 0 [] with
    | error e =>
      simp [handleProductionRun, hq, hfind, hlen, runTransaction, productionTransaction, hval]
        at hsucc
    | ok res =>
      obtain ⟨T, us⟩ := res
      have hus := (validateMaterials_updates s qty product.data.bom 0 [] T us hval).1
      rw [List.nil_append] at hus
      simp only [handleProductionRun, hq, hfind, hlen, runTransaction, productionTransaction,
        hval, if_false, commit_append] at hsucc ⊢
      cases hc : commit s (materialWrites org us) with
      | none => simp [hc] at hsucc
      | some s1 =>
        have hraw := commit_materialWrites_raw_materials org us s s1 hc id
        have hframe := (commit_materialWrites_frame org us s s1 hc).1
        rw [hus] at hraw
        rw [← hraw]
        cases hinv : s.inventory_items productId with
        | none => simp [hc, commit, applyWrite, inventoryWrite, hinv]
        | some it =>
          simp [hc, commit, applyWrite, inventoryWrite, hinv, hframe]

/-- When the BOM lines name pairwise distinct materials, a successful production
run deducts from every BOM material exactly what the run requires of it. -/
theorem production_deducts_distinct_materials
    (organization : Option Organization) (products : List (Listed Product))
    (productId : DocId) (product : Listed Product) (qty : ℚ) (s : Store)
    (hfind : products.find? (fun p => p.id == productId) = some product)
    (hsucc : (handleProductionRun organization products ⟨some productId, qty⟩ s).2 = .success)
    (hnodup : (product.data.bom.map fun i => i.materialId).Nodup)
    (item : BomItem) (hmem : item ∈ product.data.bom) :
    ∃ m, s.raw_materials item.materialId = some m ∧
      (handleProductionRun organization products ⟨some productId, qty⟩ s).1.raw_materials
        item.materialId =
        some { m with quantity :=
          m.quantity - requiredOfMaterial product.data.bom qty item.materialId } := by
  obtain ⟨_, T, us, hval⟩ := production_success_validates organization products productId
    product qty s hfind hsucc
  obtain ⟨m, hm, _⟩ := (validateMaterials_updates s qty product.data.bom 0 [] T us hval).2
    item hmem
  refine ⟨m, hm, ?_⟩
  rw [production_raw_materials_after organization products productId product qty s hfind hsucc,
    lastMaterialQty_of_nodup s qty product.data.bom hnodup item hmem,
    requiredOfMaterial_of_nodup qty product.data.bom hnodup item hmem]
  simp [hm, materialQuantity]

/-! ## Lemmas on the sales delivery -/

/-- The validation loop of the delivery throws as soon as one order line is
short, whatever it has accumulated. -/
theorem validateInventory_error_of_short (s : Store) (items : List OrderItem)
    (h : ∃ item ∈ items, orderLineShort s item) (totalCOGS : ℚ)
    (updates : List InventoryUpdate) :
    ∃ e, validateInventory (readInventory s items) totalCOGS updates = .error e := by
  induction items generalizing totalCOGS updates with
  | nil => simp at h
  | cons item rest ih =>
    simp only [readInventory, List.map_cons, validateInventory]
    cases hdoc : s.inventory_items item.productId with
    | none => exact ⟨_, rfl⟩
    | some inv =>
      by_cases hlt : inv.quantity < item.quantity
      · simp [hlt]
      · simp only [hlt, if_false]
        obtain ⟨it, hmem, hshort⟩ := h
        rcases List.mem_cons.mp hmem with heq | hmem
        · subst heq
          rcases hshort with hnone | ⟨inv1, hinv1, hlt1⟩
          · simp [hdoc] at hnone
          · rw [hdoc] at hinv1
            cases hinv1
            exact absurd hlt1 hlt
        · exact ih ⟨it, hmem, hshort⟩ _ _

/-- When the validation loop of the delivery passes, the `totalCOGS` it returns
is the initial value plus the cost of goods sold of the lines. -/
theorem validateInventory_totalCOGS (s : Store) (items : List OrderItem)
    (totalCOGS : ℚ) (updates : List InventoryUpdate) (C : ℚ) (us : List InventoryUpdate)
    (h : validateInventory (readInventory s items) totalCOGS updates = .ok (C, us)) :
    C = totalCOGS + costOfGoodsSold s items := by
  induction items generalizing totalCOGS updates with
  | nil =>
    simp [readInventory, validateInventory] at h
    simp [costOfGoodsSold, h.1]
  | cons item rest ih =>
    simp only [readInventory, List.map_cons, validateInventory] at h
    cases hdoc : s.inventory_items item.productId with
    | none => simp [hdoc] at h
    | some inv =>
      simp only [hdoc] at h
      by_cases hlt : inv.quantity < item.quantity
      · simp [hlt] at h
      · simp only [hlt, if_false] at h
        have := ih _ _ h
        rw [this]
        simp [costOfGoodsSold, priorAverageCost, hdoc]
        ring

/-- The inventory writes of a delivery touch only `inventory_items` and
`inventory_logs`. -/
theorem commit_inventoryWrites_frame (org : Organization) (orderId : DocId)
    (us : List InventoryUpdate) (s s1 : Store)
    (h : commit s (inventoryWrites org orderId us) = some s1) :
    s1.raw_materials = s.raw_materials ∧ s1.sales_orders = s.sales_orders ∧
    s1.receivables = s.receivables ∧ s1.raw_material_logs = s.raw_material_logs ∧
    s1.production_orders = s.production_orders ∧ s1.collections = s.collections ∧
    s1.cashflow_entries = s.cashflow_entries := by
  induction us generalizing s with
  | nil =>
    simp [inventoryWrites, commit] at h
    subst h
    simp
  | cons u rest ih =>
    simp only [inventoryWrites, commit, applyWrite] at h
    cases hdoc : s.inventory_items u.ref with
    | none => simp [hdoc] at h
    | some m =>
      simp only [hdoc] at h
      have := ih _ h
      simpa using this

/-- When the validation loop of the delivery passes, it has appended one update
per order line, computed from the snapshot, and every line's item is present and
sufficient. -/
theorem validateInventory_updates (s : Store) (items : List OrderItem)
    (totalCOGS : ℚ) (updates : List InventoryUpdate) (C : ℚ) (us : List InventoryUpdate)
    (h : validateInventory (readInventory s items) totalCOGS updates = .ok (C, us)) :
    us = updates ++ items.map (inventoryUpdateOf s) ∧
    ∀ item ∈ items, ∃ inv, s.inventory_items item.productId = some inv ∧
      item.quantity ≤ inv.quantity := by
  induction items generalizing totalCOGS updates with
  | nil =>
    simp [readInventory, validateInventory] at h
    simp [h.2]
  | cons item rest ih =>
    simp only [readInventory, List.map_cons, validateInventory] at h
    cases hdoc : s.inventory_items item.productId with
    | none => simp [hdoc] at h
    | some inv =>
      simp only [hdoc] at h
      by_cases hlt : inv.quantity < item.quantity
      · simp [hlt] at h
      · simp only [hlt, if_false] at h
        obtain ⟨hus, hall⟩ := ih _ _ h
        refine ⟨?_, ?_⟩
        · rw [hus]
          simp [inventoryUpdateOf, priorQuantity, hdoc]
        · intro it hit
          rcases List.mem_cons.mp hit with heq | hmem
          · subst heq
            exact ⟨inv, hdoc, not_lt.mp hlt⟩
          · exact hall it hmem

/-- After the inventory writes are applied, an inventory item holds the `newQty`
of the last update written to it, and is untouched when no update names it. -/
theorem commit_inventoryWrites_inventory_items (org : Organization) (orderId : DocId)
    (us : List InventoryUpdate) (s s1 : Store)
    (h : commit s (inventoryWrites org orderId us) = some s1) (id : DocId) :
    s1.inventory_items id =
      match lastInventoryQty us id with
      | none => s.inventory_items id
      | some q => (s.inventory_items id).map fun inv => { inv with quantity := q } := by
  induction us generalizing s with
  | nil =>
    simp [inventoryWrites, commit] at h
    subst h
    simp [lastInventoryQty]
  | cons u rest ih =>
    simp only [inventoryWrites, commit, applyWrite] at h
    cases hdoc : s.inventory_items u.ref with
    | none => simp [hdoc] at h
    | some inv =>
      simp only [hdoc] at h
      rw [ih _ h]
      simp only [lastInventoryQty]
      cases hlast : lastInventoryQty rest id with
      | some q =>
        by_cases hid : id = u.ref
        · subst hid
          simp [setDoc, hdoc]
        · simp [setDoc, hid]
      | none =>
        by_cases hid : id = u.ref
        · subst hid
          simp [setDoc, hdoc]
        · have hid' : ¬ u.ref = id := fun h => hid h.symm
          simp [setDoc, hid, hid']

/-- No update names the inventory document. -/
theorem lastInventoryQty_eq_none (us : List InventoryUpdate) (id : DocId)
    (h : ∀ u ∈ us, u.ref ≠ id) : lastInventoryQty us id = none := by
  induction us with
  | nil => rfl
  | cons u rest ih =>
    have h1 := ih (fun v hv => h v (List.mem_cons_of_mem _ hv))
    have h2 := h u (List.mem_cons_self _ _)
    simp [lastInventoryQty, h1, h2]

/-- When the order lines name pairwise distinct products, the last update of a
line's item is that line's own. -/
theorem lastInventoryQty_of_nodup (s : Store) (items : List OrderItem)
    (hnodup : (items.map fun i => i.productId).Nodup) (item : OrderItem) (hmem : item ∈ items) :
    lastInventoryQty (items.map (inventoryUpdateOf s)) item.productId =
      some (priorQuantity s item.productId - item.quantity) := by
  induction items with
  | nil => simp at hmem
  | cons b rest ih =>
    rw [List.map_cons, List.nodup_cons] at hnodup
    obtain ⟨hnot, hrest⟩ := hnodup
    rcases List.mem_cons.mp hmem with heq | hin
    · subst heq
      have hnone : lastInventoryQty (rest.map (inventoryUpdateOf s)) item.productId = none := by
        apply lastInventoryQty_eq_none
        intro u hu
        obtain ⟨i, hi, rfl⟩ := List.mem_map.mp hu
        intro hEq
        apply hnot
        exact List.mem_map.mpr ⟨i, hi, hEq⟩
      simp [lastInventoryQty, hnone, inventoryUpdateOf]
    · simp [lastInventoryQty, ih hrest hin]

/-- When the order lines name pairwise distinct products, the quantity delivered
of a line's product is that line's quantity. -/
theorem deliveredOfProduct_of_nodup (items : List OrderItem)
    (hnodup : (items.map fun i => i.productId).Nodup) (item : OrderItem) (hmem : item ∈ items) :
    deliveredOfProduct items item.productId = item.quantity := by
  induction items with
  | nil => simp at hmem
  | cons b rest ih =>
    rw [List.map_cons, List.nodup_cons] at hnodup
    obtain ⟨hnot, hrest⟩ := hnodup
    rcases List.mem_cons.mp hmem with heq | hin
    · subst heq
      have hfil : (rest.filter fun i => i.productId = item.productId) = [] := by
        rw [List.filter_eq_nil_iff]
        intro i hi
        simp only [decide_eq_true_eq]
        intro hEq
        exact hnot (List.mem_map.mpr ⟨i, hi, hEq⟩)
      simp [deliveredOfProduct, List.filter_cons, hfil]
    · have hne : ¬ b.productId = item.productId := by
        intro hEq
        apply hnot
        rw [hEq]
        exact List.mem_map.mpr ⟨item, hin, rfl⟩
      have := ih hrest hin
      simp only [deliveredOfProduct] at this ⊢
      simp [List.filter_cons, hne, this]

/-- A successful delivery passed the validation loop. -/
theorem delivery_success_validates
    (organization : Option Organization) (confirmed : Bool) (now : JSDate)
    (order : Listed SalesOrder) (s : Store)
    (hsucc : (handleDeliver organization confirmed now order s).2 = .success) :
    ∃ C us, validateInventory (readInventory s order.data.items) 0 [] = .ok (C, us) := by
  cases confirmed with
  | false => simp [handleDeliver] at hsucc
  | true =>
    cases hval : validateInventory (readInventory s order.data.items) 0 [] with
    | error e => simp [handleDeliver, runTransaction, deliverTransaction, hval] at hsucc
    | ok res => exact ⟨res.1, res.2, rfl⟩

/-- Inventory after a successful delivery: each item holds the `newQty` computed
for the last order line naming it, and is untouched when no line names it. -/
theorem delivery_inventory_after
    (organization : Option Organization) (confirmed : Bool) (now : JSDate)
    (order : Listed SalesOrder) (s : Store)
    (hsucc : (handleDeliver organization confirmed now order s).2 = .success) (id : DocId) :
    (handleDeliver organization confirmed now order s).1.inventory_items id =
      match lastInventoryQty (order.data.items.map (inventoryUpdateOf s)) id with
      | none => s.inventory_items id
      | some q => (s.inventory_items id).map fun inv => { inv with quantity := q } := by
  cases confirmed with
  | false => simp [handleDeliver] at hsucc
  | true =>
    cases hval : validateInventory (readInventory s order.data.items) 0 [] with
    | error e => simp [handleDeliver, runTransaction, deliverTransaction, hval] at hsucc
    | ok res =>
      obtain ⟨C, us⟩ := res
      have hus := (validateInventory_updates s order.data.items 0 [] C us hval).1
      rw [List.nil_append] at hus
      cases organization with
      | none => simp [handleDeliver, runTransaction, deliverTransaction, hval] at hsucc
      | some org =>
        simp only [handleDeliver, runTransaction, deliverTransaction, hval, commit_append]
          at hsucc ⊢
        cases hc : commit s (inventoryWrites org order.id us) with
        | none => simp [hc] at hsucc
        | some s1 =>
          have hinv := commit_inventoryWrites_inventory_items org order.id us s s1 hc id
          have hframe := (commit_inventoryWrites_frame org order.id us s s1 hc).2.1
          rw [hus] at hinv
          rw [← hinv]
          cases hord : s.sales_orders order.id with
          | none => simp [hc, commit, applyWrite, hframe, hord] at hsucc
          | some stored => simp [hc, commit, applyWrite, hframe, hord]

/-- When the order lines name pairwise distinct products, a successful delivery
deducts from every ordered item exactly the quantity delivered of it. -/
theorem delivery_deducts_distinct_products
    (organization : Option Organization) (confirmed : Bool) (now : JSDate)
    (order : Listed SalesOrder) (s : Store)
    (hsucc : (handleDeliver organization confirmed now order s).2 = .success)
    (hnodup : (order.data.items.map fun i => i.productId).Nodup)
    (item : OrderItem) (hmem : item ∈ order.data.items) :
    ∃ inv, s.inventory_items item.productId = some inv ∧
      (handleDeliver organization confirmed now order s).1.inventory_items item.productId =
        some { inv with quantity :=
          inv.quantity - deliveredOfProduct order.data.items item.productId } := by
  obtain ⟨C, us, hval⟩ := delivery_success_validates organization confirmed now order s hsucc
  obtain ⟨inv, hinv, _⟩ := (validateInventory_updates s order.data.items 0 [] C us hval).2
    item hmem
  refine ⟨inv, hinv, ?_⟩
  rw [delivery_inventory_after organization confirmed now order s hsucc,
    lastInventoryQty_of_nodup s order.data.items hnodup item hmem,
    deliveredOfProduct_of_nodup order.data.items hnodup item hmem]
  simp [hinv, priorQuantity]

/-! ## Lemmas on the stock invariant -/

/-- A transaction that does not end in success leaves the store as it was. -/
theorem runTransaction_unchanged (s : Store)
    (updateFunction : Store → Except Failure (List Write))
    (h : (runTransaction s updateFunction).2 ≠ .success) :
    (runTransaction s updateFunction).1 = s := by
  unfold runTransaction at h ⊢
  cases hf : updateFunction s with
  | error e => rfl
  | ok writes =>
    cases hc : commit s writes with
    | none => simp [hc]
    | some s1 => simp [hf, hc] at h

/-- A purchase that does not succeed writes nothing. -/
theorem handlePurchase_unchanged (organization : Option Organization)
    (selectedMaterial : Option (Listed RawMaterial)) (purchaseData : PurchaseData) (s : Store)
    (h : (handlePurchase organization selectedMaterial purchaseData s).2 ≠ .success) :
    (handlePurchase organization selectedMaterial purchaseData s).1 = s := by
  cases selectedMaterial with
  | none => simp [handlePurchase]
  | some sel =>
    cases organization with
    | none => simp [handlePurchase]
    | some org =>
      by_cases hbad : purchaseData.quantity ≤ 0 ∨ purchaseData.totalCost < 0
      · simp [handlePurchase, hbad]
      · simp only [handlePurchase, hbad, if_false] at h ⊢
        exact runTransaction_unchanged _ _ h

/-- A production run that does not succeed writes nothing. -/
theorem handleProductionRun_unchanged (organization : Option Organization)
    (products : List (Listed Product)) (productionData : ProductionData) (s : Store)
    (h : (handleProductionRun organization products productionData s).2 ≠ .success) :
    (handleProductionRun organization products productionData s).1 = s := by
  obtain ⟨pid, qty⟩ := productionData
  cases pid with
  | none => simp [handleProductionRun]
  | some productId =>
    cases organization with
    | none => simp [handleProductionRun]
    | some org =>
      by_cases hq : qty ≤ 0
      · simp [handleProductionRun, hq]
      cases hfind : products.find? (fun p => p.id == productId) with
      | none => simp [handleProductionRun, hq, hfind]
      | some product =>
        by_cases hlen : product.data.bom.length = 0
        · simp [handleProductionRun, hq, hfind, hlen]
        · simp only [handleProductionRun, hq, hfind, hlen, if_false] at h ⊢
          exact runTransaction_unchanged _ _ h

/-- A delivery that does not succeed writes nothing. -/
theorem handleDeliver_unchanged (organization : Option Organization) (confirmed : Bool)
    (now : JSDate) (order : Listed SalesOrder) (s : Store)
    (h : (handleDeliver organization confirmed now order s).2 ≠ .success) :
    (handleDeliver organization confirmed now order s).1 = s := by
  cases confirmed with
  | false => simp [handleDeliver]
  | true =>
    simp only [handleDeliver, Bool.true_eq_false, if_false] at h ⊢
    exact runTransaction_unchanged _ _ h

/-- An adjustment that does not succeed writes nothing. -/
theorem handleadjustment_unchanged (organization : Option Organization)
    (selectedItem : Option (Listed InventoryItem)) (adjustment : AdjustmentData) (s : Store)
    (h : (handleadjustment organization selectedItem adjustment s).2 ≠ .success) :
    (handleadjustment organization selectedItem adjustment s).1 = s := by
  cases selectedItem with
  | none => simp [handleadjustment]
  | some sel =>
    cases organization with
    | none => simp [handleadjustment]
    | some org =>
      by_cases hq : adjustment.quantity ≤ 0
      · simp [handleadjustment, hq]
      · simp only [handleadjustment, hq, if_false] at h ⊢
        exact runTransaction_unchanged _ _ h

/-- A purchase keeps every stored quantity non-negative. -/
theorem handlePurchase_preserves_nonNegative (organization : Option Organization)
    (selectedMaterial : Option (Listed RawMaterial)) (purchaseData : PurchaseData) (s : Store)
    (h0 : nonNegativeStock s) :
    nonNegativeStock (handlePurchase organization selectedMaterial purchaseData s).1 := by
  by_cases hs : (handlePurchase organization selectedMaterial purchaseData s).2 = .success
  swap
  · rw [handlePurchase_unchanged _ _ _ _ hs]
    exact h0
  cases selectedMaterial with
  | none => simp [handlePurchase] at hs
  | some sel =>
    cases organization with
    | none => simp [handlePurchase] at hs
    | some org =>
      by_cases hbad : purchaseData.quantity ≤ 0 ∨ purchaseData.totalCost < 0
      · simp [handlePurchase, hbad] at hs
      have hn : 0 < purchaseData.quantity := by
        by_contra hneg
        exact hbad (Or.inl (not_lt.mp hneg))
      cases hm : s.raw_materials sel.id with
      | none =>
        simp [handlePurchase, hbad, runTransaction, purchaseTransaction, hm] at hs
      | some m0 =>
        have hm0 := h0.1 _ _ hm
        refine ⟨?_, ?_⟩
        · intro id m hid
          by_cases hEq : id = sel.id
          · subst hEq
            simp [handlePurchase, hbad, runTransaction, purchaseTransaction, hm, commit,
              applyWrite] at hid
            rw [← hid]
            simp only
            linarith
          · simp [handlePurchase, hbad, runTransaction, purchaseTransaction, hm, commit,
              applyWrite, setDoc, hEq] at hid
            exact h0.1 _ _ hid
        · intro id item hid
          simp [handlePurchase, hbad, runTransaction, purchaseTransaction, hm, commit,
            applyWrite] at hid
          exact h0.2 _ _ hid

/-- An adjustment keeps every stored quantity non-negative. -/
theorem handleadjustment_preserves_nonNegative (organization : Option Organization)
    (selectedItem : Option (Listed InventoryItem)) (adjustment : AdjustmentData) (s : Store)
    (h0 : nonNegativeStock s) :
    nonNegativeStock (handleadjustment organization selectedItem adjustment s).1 := by
  by_cases hs : (handleadjustment organization selectedItem adjustment s).2 = .success
  swap
  · rw [handleadjustment_unchanged _ _ _ _ hs]
    exact h0
  cases selectedItem with
  | none => simp [handleadjustment] at hs
  | some sel =>
    cases organization with
    | none => simp [handleadjustment] at hs
    | some org =>
      by_cases hq : adjustment.quantity ≤ 0
      · simp [handleadjustment, hq] at hs
      cases hitem : s.inventory_items sel.id with
      | none =>
        simp [handleadjustment, hq, runTransaction, adjustmentTransaction, hitem] at hs
      | some item0 =>
        by_cases hneg : item0.quantity +
            (if adjustment.type = .add then adjustment.quantity else -adjustment.quantity) < 0
        · simp [handleadjustment, hq, runTransaction, adjustmentTransaction, hitem, hneg] at hs
        refine ⟨?_, ?_⟩
        · intro id m hid
          simp [handleadjustment, hq, runTransaction, adjustmentTransaction, hitem, hneg,
            commit, applyWrite] at hid
          exact h0.1 _ _ hid
        · intro id item hid
          by_cases hEq : id = sel.id
          · subst hEq
            simp [handleadjustment, hq, runTransaction, adjustmentTransaction, hitem, hneg,
              commit, applyWrite] at hid
            rw [← hid]
            simp only
            exact not_lt.mp hneg
          · simp [handleadjustment, hq, runTransaction, adjustmentTransaction, hitem, hneg,
              commit, applyWrite, setDoc, hEq] at hid
            exact h0.2 _ _ hid

/-- The last `newQty` written to a material comes from one of the updates. -/
theorem lastMaterialQty_mem (us : List MaterialUpdate) (id : DocId) (q : ℚ)
    (h : lastMaterialQty us id = some q) : ∃ u ∈ us, u.ref = id ∧ u.newQty = q := by
  induction us with
  | nil => simp [lastMaterialQty] at h
  | cons u rest ih =>
    simp only [lastMaterialQty] at h
    cases hrest : lastMaterialQty rest id with
    | some q1 =>
      simp only [hrest, Option.some.injEq] at h
      obtain ⟨v, hv, hvr, hvq⟩ := ih (by rw [hrest, h])
      exact ⟨v, List.mem_cons_of_mem _ hv, hvr, hvq⟩
    | none =>
      simp only [hrest] at h
      by_cases hu : u.ref = id
      · simp only [hu, if_true, Option.some.injEq] at h
        exact ⟨u, List.mem_cons_self _ _, hu, h⟩
      · simp [hu] at h

/-- The last `newQty` written to an item comes from one of the updates. -/
theorem lastInventoryQty_mem (us : List InventoryUpdate) (id : DocId) (q : ℚ)
    (h : lastInventoryQty us id = some q) : ∃ u ∈ us, u.ref = id ∧ u.newQty = q := by
  induction us with
  | nil => simp [lastInventoryQty] at h
  | cons u rest ih =>
    simp only [lastInventoryQty] at h
    cases hrest : lastInventoryQty rest id with
    | some q1 =>
      simp only [hrest, Option.some.injEq] at h
      obtain ⟨v, hv, hvr, hvq⟩ := ih (by rw [hrest, h])
      exact ⟨v, List.mem_cons_of_mem _ hv, hvr, hvq⟩
    | none =>
      simp only [hrest] at h
      by_cases hu : u.ref = id
      · simp only [hu, if_true, Option.some.injEq] at h
        exact ⟨u, List.mem_cons_self _ _, hu, h⟩
      · simp [hu] at h

/-- Inventory after a successful production run: only the item of the product
changes; it holds the prior quantity plus `qty` and the average cost computed
by `inventoryValues`. -/
theorem production_inventory_items_after
    (organization : Option Organization) (products : List (Listed Product))
    (productId : DocId) (product : Listed Product) (qty : ℚ) (s : Store)
    (hfind : products.find? (fun p => p.id == productId) = some product)
    (hsucc : (handleProductionRun organization products ⟨some productId, qty⟩ s).2 = .success) :
    (∀ id, id ≠ productId →
      (handleProductionRun organization products ⟨some productId, qty⟩ s).1.inventory_items id =
        s.inventory_items id) ∧
    ∃ item,
      (handleProductionRun organization products ⟨some productId, qty⟩ s).1.inventory_items
        productId = some item ∧
      item.quantity = priorQuantity s productId + qty ∧
      item.averageCost = (inventoryValues (s.inventory_items productId) qty
        (consumedMaterialCost s product.data.bom qty)).2 := by
  cases organization with
  | none => simp [handleProductionRun] at hsucc
  | some org =>
    by_cases hq : qty ≤ 0
    · simp [handleProductionRun, hq] at hsucc
    by_cases hlen : product.data.bom.length = 0
    · simp [handleProductionRun, hq, hfind, hlen] at hsucc
    cases hval : validateMaterials qty (readMaterials s product.data.bom) 0 [] with
    | error e =>
      simp [handleProductionRun, hq, hfind, hlen, runTransaction, productionTransaction, hval]
        at hsucc
    | ok res =>
      obtain ⟨T, us⟩ := res
      have hT := validateMaterials_totalCost s qty product.data.bom 0 [] T us hval
      rw [zero_add] at hT
      simp only [handleProductionRun, hq, hfind, hlen, runTransaction, productionTransaction,
        hval, if_false, commit_append] at hsucc ⊢
      cases hc : commit s (materialWrites org us) with
      | none => simp [hc] at hsucc
      | some s1 =>
        have hframe := (commit_materialWrites_frame org us s s1 hc).1
        cases hinv : s.inventory_items productId with
        | none =>
          refine ⟨?_, ⟨productId, org.id, qty, T / qty⟩, ?_, ?_, ?_⟩
          · intro id hid
            simp [hc, commit, applyWrite, inventoryWrite, hinv, setDoc, hid, hframe]
          · simp [hc, commit, applyWrite, inventoryWrite, inventoryValues, hinv]
          · simp [priorQuantity, hinv]
          · simp [inventoryValues, hT]
        | some it =>
          refine ⟨?_, ⟨it.productId, it.orgId, it.quantity + qty,
            (it.quantity * it.averageCost + T) / (it.quantity + qty)⟩, ?_, ?_, ?_⟩
          · intro id hid
            simp [hc, commit, applyWrite, inventoryWrite, hinv, setDoc, hid, hframe]
          · simp [hc, commit, applyWrite, inventoryWrite, inventoryValues, hinv, hframe]
          · simp [priorQuantity, hinv]
          · simp [inventoryValues, hT]

/-- A delivery never touches the raw materials. -/
theorem delivery_raw_materials_after
    (organization : Option Organization) (confirmed : Bool) (now : JSDate)
    (order : Listed SalesOrder) (s : Store) :
    (handleDeliver organization confirmed now order s).1.raw_materials = s.raw_materials := by
  by_cases hsucc : (handleDeliver organization confirmed now order s).2 = .success
  swap
  · rw [handleDeliver_unchanged _ _ _ _ _ hsucc]
  cases confirmed with
  | false => simp [handleDeliver] at hsucc
  | true =>
    cases hval : validateInventory (readInventory s order.data.items) 0 [] with
    | error e => simp [handleDeliver, runTransaction, deliverTransaction, hval] at hsucc
    | ok res =>
      obtain ⟨C, us⟩ := res
      cases organization with
      | none => simp [handleDeliver, runTransaction, deliverTransaction, hval] at hsucc
      | some org =>
        simp only [handleDeliver, runTransaction, deliverTransaction, hval, commit_append]
          at hsucc ⊢
        cases hc : commit s (inventoryWrites org order.id us) with
        | none => simp [hc] at hsucc
        | some s1 =>
          have hframe := commit_inventoryWrites_frame org order.id us s s1 hc
          cases hord : s.sales_orders order.id with
          | none => simp [hc, commit, applyWrite, hframe.2.1, hord] at hsucc
          | some stored => simp [hc, commit, applyWrite, hframe.2.1, hord, hframe.1]

/-- A production run keeps every stored quantity non-negative. -/
theorem handleProductionRun_preserves_nonNegative (organization : Option Organization)
    (products : List (Listed Product)) (productionData : ProductionData) (s : Store)
    (h0 : nonNegativeStock s) :
    nonNegativeStock (handleProductionRun organization products productionData s).1 := by
  by_cases hs : (handleProductionRun organization products productionData s).2 = .success
  swap
  · rw [handleProductionRun_unchanged _ _ _ _ hs]
    exact h0
  obtain ⟨pid, qty⟩ := productionData
  cases pid with
  | none => simp [handleProductionRun] at hs
  | some productId =>
    cases hfind : products.find? (fun p => p.id == productId) with
    | none =>
      cases organization with
      | none => simp [handleProductionRun] at hs
      | some org =>
        by_cases hq : qty ≤ 0
        · simp [handleProductionRun, hq] at hs
        · simp [handleProductionRun, hq, hfind] at hs
    | some product =>
      obtain ⟨hqty, T, us, hval⟩ := production_success_validates organization products
        productId product qty s hfind hs
      have hlines := (validateMaterials_updates s qty product.data.bom 0 [] T us hval).2
      refine ⟨?_, ?_⟩
      · intro id m hid
        rw [production_raw_materials_after organization products productId product qty s
          hfind hs id] at hid
        cases hlast : lastMaterialQty (product.data.bom.map (materialUpdateOf s qty)) id with
        | none =>
          rw [hlast] at hid
          exact h0.1 _ _ hid
        | some q =>
          rw [hlast] at hid
          obtain ⟨u, hu, hur, huq⟩ := lastMaterialQty_mem _ _ _ hlast
          obtain ⟨item, hitem, rfl⟩ := List.mem_map.mp hu
          obtain ⟨m0, hm0, hle⟩ := hlines item hitem
          have hidEq : item.materialId = id := hur
          simp only [materialUpdateOf, materialQuantity, hm0] at huq
          cases hsm : s.raw_materials id with
          | none => simp [hsm] at hid
          | some m1 =>
            simp only [hsm, Option.map_some', Option.some.injEq] at hid
            rw [← hid]
            simp only
            rw [← huq]
            linarith
      · intro id item hid
        obtain ⟨hother, it, hit, hitq, _⟩ := production_inventory_items_after organization
          products productId product qty s hfind hs
        by_cases hEq : id = productId
        · subst hEq
          rw [hit] at hid
          cases hid
          rw [hitq]
          have hQ : 0 ≤ priorQuantity s id := by
            unfold priorQuantity
            cases hinv : s.inventory_items id with
            | none => simp
            | some inv => exact h0.2 _ _ hinv
          linarith
        · rw [hother id hEq] at hid
          exact h0.2 _ _ hid

/-- A delivery keeps every stored quantity non-negative. -/
theorem handleDeliver_preserves_nonNegative (organization : Option Organization)
    (confirmed : Bool) (now : JSDate) (order : Listed SalesOrder) (s : Store)
    (h0 : nonNegativeStock s) :
    nonNegativeStock (handleDeliver organization confirmed now order s).1 := by
  by_cases hs : (handleDeliver organization confirmed now order s).2 = .success
  swap
  · rw [handleDeliver_unchanged _ _ _ _ _ hs]
    exact h0
  obtain ⟨C, us, hval⟩ := delivery_success_validates organization confirmed now order s hs
  have hlines := (validateInventory_updates s order.data.items 0 [] C us hval).2
  refine ⟨?_, ?_⟩
  · intro id m hid
    rw [delivery_raw_materials_after] at hid
    exact h0.1 _ _ hid
  · intro id item hid
    rw [delivery_inventory_after organization confirmed now order s hs id] at hid
    cases hlast : lastInventoryQty (order.data.items.map (inventoryUpdateOf s)) id with
    | none =>
      rw [hlast] at hid
      exact h0.2 _ _ hid
    | some q =>
      rw [hlast] at hid
      obtain ⟨u, hu, hur, huq⟩ := lastInventoryQty_mem _ _ _ hlast
      obtain ⟨line, hline, rfl⟩ := List.mem_map.mp hu
      obtain ⟨inv0, hinv0, hle⟩ := hlines line hline
      simp only [inventoryUpdateOf, priorQuantity, hinv0] at huq
      cases hsi : s.inventory_items id with
      | none => simp [hsi] at hid
      | some inv1 =>
        simp only [hsi, Option.map_some', Option.some.injEq] at hid
        rw [← hid]
        simp only
        rw [← huq]
        linarith

/-- Each call keeps every stored quantity non-negative. -/
theorem Call.run_preserves_nonNegative (s : Store) (call : Call) (h0 : nonNegativeStock s) :
    nonNegativeStock (call.run s).1 := by
  cases call with
  | purchase organization selectedMaterial purchaseData =>
    exact handlePurchase_preserves_nonNegative organization selectedMaterial purchaseData s h0
  | productionRun organization products productionData =>
    exact handleProductionRun_preserves_nonNegative organization products productionData s h0
  | salesDelivery organization confirmed now order =>
    exact handleDeliver_preserves_nonNegative organization confirmed now order s h0
  | manualAdjustment organization selectedItem adjustment =>
    exact handleadjustment_preserves_nonNegative organization selectedItem adjustment s h0

/-- A sequence of calls keeps every stored quantity non-negative. -/
theorem runCalls_preserves_nonNegative (s : Store) (calls : List Call)
    (h0 : nonNegativeStock s) : nonNegativeStock (runCalls s calls) := by
  induction calls generalizing s with
  | nil => exact h0
  | cons call rest ih => exact ih _ (Call.run_preserves_nonNegative s call h0)

/-- A call that does not succeed writes nothing. -/
theorem Call.run_unchanged (s : Store) (call : Call) (h : (call.run s).2 ≠ .success) :
    (call.run s).1 = s := by
  cases call with
  | purchase organization selectedMaterial purchaseData =>
    exact handlePurchase_unchanged organization selectedMaterial purchaseData s h
  | productionRun organization products productionData =>
    exact handleProductionRun_unchanged organization products productionData s h
  | salesDelivery organization confirmed now order =>
    exact handleDeliver_unchanged organization confirmed now order s h
  | manualAdjustment organization selectedItem adjustment =>
    exact handleadjustment_unchanged organization selectedItem adjustment s h

/-- On a store with non-negative stock, a call that computes a negative quantity
does not succeed. -/
theorem Call.run_fails_of_wouldGoNegative (s : Store) (call : Call) (h0 : nonNegativeStock s)
    (hneg : wouldGoNegative s call) : (call.run s).2 ≠ .success := by
  cases call with
  | purchase organization selectedMaterial purchaseData =>
    obtain ⟨sel, m, hsel, hm, hlt⟩ := hneg
    have hm0 := h0.1 _ _ hm
    have hbad : purchaseData.quantity ≤ 0 ∨ purchaseData.totalCost < 0 :=
      Or.inl (by linarith)
    subst hsel
    cases organization with
    | none => simp [Call.run, handlePurchase]
    | some org => simp [Call.run, handlePurchase, hbad]
  | productionRun organization products productionData =>
    obtain ⟨productId, product, hpid, hfind, hcase⟩ := hneg
    obtain ⟨pid, qty⟩ := productionData
    simp only at hpid hcase
    subst hpid
    cases organization with
    | none => simp [Call.run, handleProductionRun]
    | some org =>
      by_cases hq : qty ≤ 0
      · simp [Call.run, handleProductionRun, hq]
      by_cases hlen : product.data.bom.length = 0
      · simp [Call.run, handleProductionRun, hq, hfind, hlen]
      rcases hcase with ⟨item, hitem, m, hm, hlt⟩ | ⟨inv, hinv, hlt⟩
      · have hshort : ∃ item ∈ product.data.bom, bomLineShort s qty item :=
          ⟨item, hitem, Or.inr ⟨m, hm, by linarith⟩⟩
        obtain ⟨e, he⟩ := validateMaterials_error_of_short s qty product.data.bom hshort 0 []
        simp [Call.run, handleProductionRun, hq, hfind, hlen, runTransaction,
          productionTransaction, he]
      · have hinv0 := h0.2 _ _ hinv
        exact absurd (by linarith : qty ≤ 0) hq
  | salesDelivery organization confirmed now order =>
    obtain ⟨item, hitem, inv, hinv, hlt⟩ := hneg
    have hshort : ∃ item ∈ order.data.items, orderLineShort s item :=
      ⟨item, hitem, Or.inr ⟨inv, hinv, by linarith⟩⟩
    obtain ⟨e, he⟩ := validateInventory_error_of_short s order.data.items hshort 0 []
    cases confirmed with
    | false => simp [Call.run, handleDeliver]
    | true => simp [Call.run, handleDeliver, runTransaction, deliverTransaction, he]
  | manualAdjustment organization selectedItem adjustment =>
    obtain ⟨sel, inv, hsel, hinv, hlt⟩ := hneg
    subst hsel
    cases organization with
    | none => simp [Call.run, handleadjustment]
    | some org =>
      by_cases hq : adjustment.quantity ≤ 0
      · simp [Call.run, handleadjustment, hq]
      · simp [Call.run, handleadjustment, hq, runTransaction, adjustmentTransaction, hinv, hlt]

/-! ## Lemmas on purchases, cost frames and the production order -/

/-- What a valid purchase of a stored material leaves: the material document,
one log and one cash-flow entry. -/
theorem handlePurchase_valid (org : Organization) (sel : Listed RawMaterial) (n c : ℚ)
    (s : Store) (m : RawMaterial) (hm : s.raw_materials sel.id = some m)
    (hn : 0 < n) (hc : 0 ≤ c) :
    (handlePurchase (some org) (some sel) ⟨n, c⟩ s).2 = .success ∧
    (handlePurchase (some org) (some sel) ⟨n, c⟩ s).1.raw_materials =
      setDoc s.raw_materials sel.id (purchasedMaterial m n c) ∧
    (handlePurchase (some org) (some sel) ⟨n, c⟩ s).1.raw_material_logs =
      s.raw_material_logs ++ [{
        orgId := org.id
        materialId := sel.id
        type := .purchase
        quantityChange := n
        cost := some c
        unitCost := some (c / n)
        newQuantity := some (purchasedMaterial m n c).quantity
        newAvgCost := some (purchasedMaterial m n c).averageCost
        quantity := none }] ∧
    (handlePurchase (some org) (some sel) ⟨n, c⟩ s).1.cashflow_entries =
      s.cashflow_entries ++ [{
        orgId := org.id
        type := .outflow
        category := .purchase
        amount := c }] := by
  have hguard : ¬ (n ≤ 0 ∨ c < 0) := by
    rintro (h | h) <;> linarith
  refine ⟨?_, ?_, ?_, ?_⟩ <;>
    simp [handlePurchase, hguard, runTransaction, purchaseTransaction, hm, commit, applyWrite,
      purchasedMaterial]

/-- The production order a successful run appends, with `totalCost` the
consumed-material cost. -/
theorem production_appends_order
    (organization : Option Organization) (products : List (Listed Product))
    (productId : DocId) (product : Listed Product) (qty : ℚ) (s : Store)
    (hfind : products.find? (fun p => p.id == productId) = some product)
    (hsucc : (handleProductionRun organization products ⟨some productId, qty⟩ s).2 = .success) :
    ∃ org, organization = some org ∧
      (handleProductionRun organization products ⟨some productId, qty⟩ s).1.production_orders =
        s.production_orders ++ [{
          orgId := org.id
          productId := productId
          quantity := qty
          totalCost := consumedMaterialCost s product.data.bom qty
          unitCost := consumedMaterialCost s product.data.bom qty / qty
          status := .completed }] := by
  cases organization with
  | none => simp [handleProductionRun] at hsucc
  | some org =>
    by_cases hq : qty ≤ 0
    · simp [handleProductionRun, hq] at hsucc
    by_cases hlen : product.data.bom.length = 0
    · simp [handleProductionRun, hq, hfind, hlen] at hsucc
    refine ⟨org, rfl, ?_⟩
    cases hval : validateMaterials qty (readMaterials s product.data.bom) 0 [] with
    | error e =>
      simp [handleProductionRun, hq, hfind, hlen, runTransaction, productionTransaction, hval]
        at hsucc
    | ok res =>
      obtain ⟨T, us⟩ := res
      have hT := validateMaterials_totalCost s qty product.data.bom 0 [] T us hval
      rw [zero_add] at hT
      simp only [handleProductionRun, hq, hfind, hlen, runTransaction, productionTransaction,
        hval, if_false, commit_append] at hsucc ⊢
      cases hc : commit s (materialWrites org us) with
      | none => simp [hc] at hsucc
      | some s1 =>
        have hframe := commit_materialWrites_frame org us s s1 hc
        cases hinv : s.inventory_items productId with
        | none =>
          simp [hc, commit, applyWrite, inventoryWrite, hinv, hframe.2.2.2.2.1, hT]
        | some it =>
          simp [hc, commit, applyWrite, inventoryWrite, hinv, hframe.1, hframe.2.2.2.2.1, hT]

/-- A production run, successful or not, leaves the average cost and the owner
of every stored raw material as they were. -/
theorem production_keeps_material_cost (organization : Option Organization)
    (products : List (Listed Product)) (productionData : ProductionData) (s : Store)
    (id : DocId) (m : RawMaterial) (hm : s.raw_materials id = some m) :
    ∃ m1, (handleProductionRun organization products productionData s).1.raw_materials id =
        some m1 ∧ m1.averageCost = m.averageCost ∧ m1.orgId = m.orgId := by
  by_cases hsucc : (handleProductionRun organization products productionData s).2 = .success
  · obtain ⟨pid, qty⟩ := productionData
    cases pid with
    | none => simp [handleProductionRun] at hsucc
    | some productId =>
      cases hfind : products.find? (fun p => p.id == productId) with
      | none =>
        cases organization with
        | none => simp [handleProductionRun] at hsucc
        | some org =>
          by_cases hq : qty ≤ 0
          · simp [handleProductionRun, hq] at hsucc
          · simp [handleProductionRun, hq, hfind] at hsucc
      | some product =>
        rw [production_raw_materials_after organization products productId product qty s hfind
          hsucc id]
        cases lastMaterialQty (product.data.bom.map (materialUpdateOf s qty)) id with
        | none => exact ⟨m, hm, rfl, rfl⟩
        | some q => exact ⟨{ m with quantity := q }, by simp [hm], rfl, rfl⟩
  · rw [handleProductionRun_unchanged organization products productionData s hsucc]
    exact ⟨m, hm, rfl, rfl⟩

/-- A delivery, successful or not, leaves the average cost, the product and the
owner of every stored inventory item as they were. -/
theorem delivery_keeps_inventory_cost (organization : Option Organization)
    (confirmed : Bool) (now : JSDate) (order : Listed SalesOrder) (s : Store)
    (id : DocId) (inv : InventoryItem) (hinv : s.inventory_items id = some inv) :
    ∃ inv1, (handleDeliver organization confirmed now order s).1.inventory_items id =
        some inv1 ∧ inv1.averageCost = inv.averageCost ∧ inv1.productId = inv.productId ∧
        inv1.orgId = inv.orgId := by
  by_cases hsucc : (handleDeliver organization confirmed now order s).2 = .success
  · rw [delivery_inventory_after organization confirmed now order s hsucc id]
    cases lastInventoryQty (order.data.items.map (inventoryUpdateOf s)) id with
    | none => exact ⟨inv, hinv, rfl, rfl, rfl⟩
    | some q => exact ⟨{ inv with quantity := q }, by simp [hinv], rfl, rfl, rfl⟩
  · rw [handleDeliver_unchanged organization confirmed now order s hsucc]
    exact ⟨inv, hinv, rfl, rfl, rfl⟩

/-- A manual adjustment, successful or not, leaves the average cost, the
product and the owner of every stored inventory item as they were. -/
theorem adjustment_keeps_inventory_cost (organization : Option Organization)
    (selectedItem : Option (Listed InventoryItem)) (adjustment : AdjustmentData) (s : Store)
    (id : DocId) (inv : InventoryItem) (hinv : s.inventory_items id = some inv) :
    ∃ inv1, (handleadjustment organization selectedItem adjustment s).1.inventory_items id =
        some inv1 ∧ inv1.averageCost = inv.averageCost ∧ inv1.productId = inv.productId ∧
        inv1.orgId = inv.orgId := by
  by_cases hsucc : (handleadjustment organization selectedItem adjustment s).2 = .success
  · cases selectedItem with
    | none => simp [handleadjustment] at hsucc
    | some sel =>
      cases organization with
      | none => simp [handleadjustment] at hsucc
      | some org =>
        by_cases hq : adjustment.quantity ≤ 0
        · simp [handleadjustment, hq] at hsucc
        cases hdoc : s.inventory_items sel.id with
        | none =>
          simp [handleadjustment, hq, runTransaction, adjustmentTransaction, hdoc] at hsucc
        | some data =>
          by_cases hneg : data.quantity +
              (if adjustment.type = .add then adjustment.quantity else -adjustment.quantity) < 0
          · simp [handleadjustment, hq, runTransaction, adjustmentTransaction, hdoc, hneg]
              at hsucc
          · by_cases hid : id = sel.id
            · subst hid
              have hEq : data = inv := by
                rw [hdoc] at hinv
                exact Option.some.inj hinv
              subst hEq
              refine ⟨{ data with quantity := data.quantity +
                (if adjustment.type = .add then adjustment.quantity
                  else -adjustment.quantity) }, ?_, rfl, rfl, rfl⟩
              simp [handleadjustment, hq, runTransaction, adjustmentTransaction, hdoc, hneg,
                commit, applyWrite]
            · refine ⟨inv, ?_, rfl, rfl, rfl⟩
              simp [handleadjustment, hq, runTransaction, adjustmentTransaction, hdoc, hneg,
                commit, applyWrite, setDoc_other _ _ _ _ hid, hinv]
  · rw [handleadjustment_unchanged organization selectedItem adjustment s hsucc]
    exact ⟨inv, hinv, rfl, rfl, rfl⟩

/-! ## Lemmas on queries and order totals -/

/-- The `reduce` of `handleCreateOrder` is the sum of the line amounts. -/
theorem foldl_line_amounts (items : List OrderItem) (start : ℚ) :
    items.foldl (fun sum item => sum + item.quantity * item.unitPrice) start =
      start + (items.map fun item => item.quantity * item.unitPrice).sum := by
  induction items generalizing start with
  | nil => simp
  | cons item rest ih => simp [List.foldl, ih, add_assoc]

/-- A constraint only selects among the documents it is given. -/
theorem QueryConstraint.mem_apply {α : Type} (c : QueryConstraint α) (docs : List (Listed α))
    (d : Listed α) (h : d ∈ c.apply docs) : d ∈ docs := by
  cases c with
  | whereField test => exact (List.mem_filter.1 h).1
  | orderBy le => exact List.mem_mergeSort.1 h
  | limit n => exact List.mem_of_mem_take h

/-- A query only selects among the documents of its collection. -/
theorem mem_runQuery {α : Type} (constraints : List (QueryConstraint α))
    (docs : List (Listed α)) (d : Listed α) (h : d ∈ runQuery docs constraints) : d ∈ docs := by
  induction constraints generalizing docs with
  | nil => exact h
  | cons c rest ih =>
    exact QueryConstraint.mem_apply c docs d (ih (c.apply docs) h)

/-! ## Lemmas on the operation traces -/

/-- The calls of staged writes: one write per element, then the rest. -/
theorem Tx.ops_stage (s : Store) (ws : List Write) (next : Tx) :
    (Tx.stage ws next).ops s = ws.map Op.write ++ next.ops s := by
  induction ws with
  | nil => rfl
  | cons w rest ih => simp [Tx.stage, Tx.ops, ih]

/-- Staged writes are handed over in front of what the rest stages. -/
theorem Tx.result_stage (s : Store) (ws : List Write) (next : Tx) :
    (Tx.stage ws next).result s =
      match next.result s with
      | .error e => .error e
      | .ok writes => .ok (ws ++ writes) := by
  induction ws with
  | nil => simp only [Tx.stage, List.nil_append]; cases next.result s <;> rfl
  | cons w rest ih =>
    simp only [Tx.stage, Tx.result, ih]
    cases next.result s <;> rfl

/-- The read loop of the production run makes one `transaction.get` per BOM line
and hands `readMaterials` to the code after it. -/
theorem readMaterialsTx_ops (s : Store) (bom : List BomItem) (acc : List MaterialRead)
    (next : List MaterialRead → Tx) :
    (readMaterialsTx bom acc next).ops s =
      bom.map (fun item => Op.get (.raw_materials item.materialId)) ++
        (next (acc ++ readMaterials s bom)).ops s := by
  induction bom generalizing acc with
  | nil => simp [readMaterialsTx, readMaterials]
  | cons item rest ih =>
    simp only [readMaterialsTx, Tx.ops, ih, readMaterials, List.map_cons, List.cons_append,
      List.append_assoc, List.singleton_append, List.nil_append]

/-- The read loop of the production run stages nothing. -/
theorem readMaterialsTx_result (s : Store) (bom : List BomItem) (acc : List MaterialRead)
    (next : List MaterialRead → Tx) :
    (readMaterialsTx bom acc next).result s = (next (acc ++ readMaterials s bom)).result s := by
  induction bom generalizing acc with
  | nil => simp [readMaterialsTx, readMaterials]
  | cons item rest ih =>
    simp only [readMaterialsTx, Tx.result, ih, readMaterials, List.map_cons,
      List.append_assoc, List.singleton_append]

/-- The read loop of the delivery makes one `transaction.get` per order line and
hands `readInventory` to the code after it. -/
theorem readInventoryTx_ops (s : Store) (items : List OrderItem) (acc : List InventoryRead)
    (next : List InventoryRead → Tx) :
    (readInventoryTx items acc next).ops s =
      items.map (fun item => Op.get (.inventory_items item.productId)) ++
        (next (acc ++ readInventory s items)).ops s := by
  induction items generalizing acc with
  | nil => simp [readInventoryTx, readInventory]
  | cons item rest ih =>
    simp only [readInventoryTx, Tx.ops, ih, readInventory, List.map_cons, List.cons_append,
      List.append_assoc, List.singleton_append, List.nil_append]

/-- The read loop of the delivery stages nothing. -/
theorem readInventoryTx_result (s : Store) (items : List OrderItem) (acc : List InventoryRead)
    (next : List InventoryRead → Tx) :
    (readInventoryTx items acc next).result s =
      (next (acc ++ readInventory s items)).result s := by
  induction items generalizing acc with
  | nil => simp [readInventoryTx, readInventory]
  | cons item rest ih =>
    simp only [readInventoryTx, Tx.result, ih, readInventory, List.map_cons,
      List.append_assoc, List.singleton_append]

/-- Reads in front of a trace do not matter for the two orderings. -/
theorem ordered_reads_append (reads ops : List Op) (hr : ∀ o ∈ reads, o.isWrite = false)
    (h : noReadAfterWrite ops ∧ noValidationFailureAfterWrite ops) :
    noReadAfterWrite (reads ++ ops) ∧ noValidationFailureAfterWrite (reads ++ ops) := by
  induction reads with
  | nil => simpa using h
  | cons o rest ih =>
    have ho : o.isWrite = false := hr o (List.mem_cons_self _ _)
    have ih1 := ih (fun x hx => hr x (List.mem_cons_of_mem _ hx))
    simp only [List.cons_append, noReadAfterWrite, noValidationFailureAfterWrite, ho]
    exact ⟨⟨by simp, ih1.1⟩, ⟨by simp, ih1.2⟩⟩

/-- A trace without reads and without validation failures is ordered. -/
theorem ordered_of_quiet (ops : List Op) (h1 : ∀ o ∈ ops, o.isRead = false)
    (h2 : ∀ o ∈ ops, o.isValidationFailure = false) :
    noReadAfterWrite ops ∧ noValidationFailureAfterWrite ops := by
  induction ops with
  | nil => exact ⟨trivial, trivial⟩
  | cons o rest ih =>
    have ih1 := ih (fun x hx => h1 x (List.mem_cons_of_mem _ hx))
      (fun x hx => h2 x (List.mem_cons_of_mem _ hx))
    exact ⟨⟨fun _ x hx => h1 x (List.mem_cons_of_mem _ hx), ih1.1⟩,
      ⟨fun _ x hx => h2 x (List.mem_cons_of_mem _ hx), ih1.2⟩⟩

/-- A trace that is a single throw is ordered. -/
theorem ordered_throw (e : Failure) :
    noReadAfterWrite [Op.throw e] ∧ noValidationFailureAfterWrite [Op.throw e] := by
  simp [noReadAfterWrite, noValidationFailureAfterWrite, Op.isWrite]

/-- Staged writes followed by nothing, or by the throw on a missing
organization, are ordered. -/
theorem ordered_writes (ws : List Write) (tail : List Op)
    (ht : tail = [] ∨ tail = [Op.throw .noOrganization]) :
    noReadAfterWrite (ws.map Op.write ++ tail) ∧
      noValidationFailureAfterWrite (ws.map Op.write ++ tail) := by
  apply ordered_of_quiet
  · intro o ho
    rcases List.mem_append.1 ho with h | h
    · obtain ⟨w, _, rfl⟩ := List.mem_map.1 h; rfl
    · rcases ht with rfl | rfl
      · simp at h
      · simp at h; subst h; rfl
  · intro o ho
    rcases List.mem_append.1 ho with h | h
    · obtain ⟨w, _, rfl⟩ := List.mem_map.1 h; rfl
    · rcases ht with rfl | rfl
      · simp at h
      · simp at h; subst h; rfl

/-- The call-by-call purchase hands over what `purchaseTransaction` returns. -/
theorem purchaseTx_result (org : Organization) (materialId : DocId) (quantity cost : ℚ)
    (s : Store) :
    (purchaseTx org materialId quantity cost).result s =
      purchaseTransaction org materialId quantity cost s := by
  simp only [purchaseTx, Tx.result, purchaseTransaction]
  cases s.raw_materials materialId <;> rfl

/-- The call-by-call production run hands over what `productionTransaction`
returns. -/
theorem productionTx_result (org : Organization) (productId : DocId) (product : Product)
    (qty : ℚ) (s : Store) :
    (productionTx org productId product qty).result s =
      productionTransaction org productId product qty s := by
  simp only [productionTx, readMaterialsTx_result, Tx.result, productionTransaction,
    List.nil_append]
  cases h : validateMaterials qty (readMaterials s product.bom) 0 [] with
  | error e => simp [Tx.result]
  | ok r =>
    obtain ⟨totalCost, materialUpdates⟩ := r
    simp [Tx.result_stage, Tx.result]

/-- The call-by-call delivery hands over what `deliverTransaction` returns. -/
theorem deliverTx_result (organization : Option Organization) (now : JSDate)
    (order : Listed SalesOrder) (s : Store) :
    (deliverTx organization now order).result s =
      deliverTransaction organization now order s := by
  simp only [deliverTx, readInventoryTx_result, deliverTransaction, List.nil_append]
  cases h : validateInventory (readInventory s order.data.items) 0 [] with
  | error e => simp [Tx.result]
  | ok r =>
    obtain ⟨totalCOGS, inventoryUpdates⟩ := r
    cases organization with
    | none => cases inventoryUpdates <;> simp [Tx.result]
    | some org => simp [Tx.result_stage, Tx.result]

/-- The call-by-call collection hands over what `collectionTransaction` returns. -/
theorem collectionTx_result (organization : Option Organization)
    (selectedReceivable : Listed Receivable) (amount : ℚ) (s : Store) :
    (collectionTx organization selectedReceivable amount).result s =
      collectionTransaction organization selectedReceivable amount s := by
  simp only [collectionTx, Tx.result, collectionTransaction]
  cases s.receivables[selectedReceivable.id]? with
  | none => rfl
  | some data => cases organization <;> simp [Tx.result]

/-- The call-by-call adjustment hands over what `adjustmentTransaction` returns. -/
theorem adjustmentTx_result (org : Organization) (itemId : DocId)
    (adjustment : AdjustmentData) (actualChange : ℚ) (s : Store) :
    (adjustmentTx org itemId adjustment actualChange).result s =
      adjustmentTransaction org itemId adjustment actualChange s := by
  simp only [adjustmentTx, Tx.result, adjustmentTransaction]
  cases s.inventory_items itemId with
  | none => rfl
  | some data =>
    by_cases h : data.quantity + actualChange < 0 <;> simp [h, Tx.result]

/-- Ordering of the calls of the purchase transaction. -/
theorem purchaseTx_ordered (org : Organization) (materialId : DocId) (quantity cost : ℚ)
    (s : Store) :
    noReadAfterWrite ((purchaseTx org materialId quantity cost).ops s) ∧
      noValidationFailureAfterWrite ((purchaseTx org materialId quantity cost).ops s) := by
  simp only [purchaseTx, Tx.ops]
  cases s.raw_materials materialId <;>
    simp [Tx.ops, noReadAfterWrite, noValidationFailureAfterWrite, Op.isWrite, Op.isRead,
      Op.isValidationFailure]

/-- Ordering of the calls of the production transaction. -/
theorem productionTx_ordered (org : Organization) (productId : DocId) (product : Product)
    (qty : ℚ) (s : Store) :
    noReadAfterWrite ((productionTx org productId product qty).ops s) ∧
      noValidationFailureAfterWrite ((productionTx org productId product qty).ops s) := by
  simp only [productionTx, readMaterialsTx_ops, Tx.ops, List.nil_append]
  apply ordered_reads_append
  · intro o ho; obtain ⟨i, _, rfl⟩ := List.mem_map.1 ho; rfl
  · apply ordered_reads_append [Op.get (.inventory_items productId)]
    · intro o ho; simp at ho; subst ho; rfl
    · cases h : validateMaterials qty (readMaterials s product.bom) 0 [] with
      | error e => exact ordered_throw e
      | ok r =>
        obtain ⟨totalCost, materialUpdates⟩ := r
        simp only [Tx.ops_stage, Tx.ops]
        have := ordered_writes (materialWrites org materialUpdates ++
          [inventoryWrite org productId (s.inventory_items productId)
              (inventoryValues (s.inventory_items productId) qty totalCost).1
              (inventoryValues (s.inventory_items productId) qty totalCost).2,
            .setInventoryLog {
                orgId := org.id
                itemId := productId
                type := .production
                quantityChange := qty
                cost := some totalCost
                relatedOrderId := none
                reason := none },
            .setProductionOrder {
                  orgId := org.id
                  productId := productId
                  quantity := qty
                  totalCost := totalCost
                  unitCost := totalCost / qty
                  status := .completed }]) [] (Or.inl rfl)
        simpa using this

/-- Ordering of the calls of the delivery transaction. -/
theorem deliverTx_ordered (organization : Option Organization) (now : JSDate)
    (order : Listed SalesOrder) (s : Store) :
    noReadAfterWrite ((deliverTx organization now order).ops s) ∧
      noValidationFailureAfterWrite ((deliverTx organization now order).ops s) := by
  simp only [deliverTx, readInventoryTx_ops, List.nil_append]
  apply ordered_reads_append
  · intro o ho; obtain ⟨i, _, rfl⟩ := List.mem_map.1 ho; rfl
  · cases h : validateInventory (readInventory s order.data.items) 0 [] with
    | error e => exact ordered_throw e
    | ok r =>
      obtain ⟨totalCOGS, inventoryUpdates⟩ := r
      cases organization with
      | none =>
        cases inventoryUpdates with
        | nil => exact ordered_throw _
        | cons u rest =>
          have := ordered_writes [.updateInventory u.ref u.newQty none]
            [Op.throw .noOrganization] (Or.inr rfl)
          simpa [Tx.ops] using this
      | some org =>
        simp only [Tx.ops_stage, Tx.ops]
        have := ordered_writes (inventoryWrites org order.id inventoryUpdates ++
          [.setReceivable {
              orgId := org.id
              orderId := order.id
              totalAmount := order.data.totalAmount
              paidAmount := 0
              dueAmount := order.data.totalAmount
              issueDate := now
              dueDate := now.addDays 30
              status := .unpaid },
            .updateOrder order.id .delivered totalCOGS]) [] (Or.inl rfl)
        simpa using this

/-- Ordering of the calls of the collection transaction. -/
theorem collectionTx_ordered (organization : Option Organization)
    (selectedReceivable : Listed Receivable) (amount : ℚ) (s : Store) :
    noReadAfterWrite ((collectionTx organization selectedReceivable amount).ops s) ∧
      noValidationFailureAfterWrite
        ((collectionTx organization selectedReceivable amount).ops s) := by
  simp only [collectionTx, Tx.ops]
  cases s.receivables[selectedReceivable.id]? with
  | none =>
    simp [Tx.ops, noReadAfterWrite, noValidationFailureAfterWrite, Op.isWrite]
  | some data =>
    cases organization <;>
      simp [Tx.ops, noReadAfterWrite, noValidationFailureAfterWrite, Op.isWrite, Op.isRead,
        Op.isValidationFailure, Failure.isValidation]

/-- Ordering of the calls of the adjustment transaction. -/
theorem adjustmentTx_ordered (org : Organization) (itemId : DocId)
    (adjustment : AdjustmentData) (actualChange : ℚ) (s : Store) :
    noReadAfterWrite ((adjustmentTx org itemId adjustment actualChange).ops s) ∧
      noValidationFailureAfterWrite
        ((adjustmentTx org itemId adjustment actualChange).ops s) := by
  simp only [adjustmentTx, Tx.ops]
  cases s.inventory_items itemId with
  | none =>
    simp [Tx.ops, noReadAfterWrite, noValidationFailureAfterWrite, Op.isWrite]
  | some data =>
    by_cases h : data.quantity + actualChange < 0 <;>
      simp [h, Tx.ops, noReadAfterWrite, noValidationFailureAfterWrite, Op.isWrite, Op.isRead,
        Op.isValidationFailure]

/-! ## Lemmas on rounding, the stored products, the hook and `NaN` -/

/-- The integer nearest to `y`, when `y` is within less than 1/2 of it. -/
theorem roundHalfEven_eq (y : ℚ) (m : ℤ) (h1 : (m : ℚ) - 1 / 2 < y) (h2 : y < m + 1 / 2) :
    roundHalfEven y = m := by
  unfold roundHalfEven
  by_cases hy : (m : ℚ) ≤ y
  · have hf : ⌊y⌋ = m := by
      rw [Int.floor_eq_iff]
      constructor
      · exact hy
      · linarith
    rw [hf]
    have : y - m < 1 / 2 := by linarith
    rw [if_pos this]
  · have hy1 : y < m := lt_of_not_ge hy
    have hf : ⌊y⌋ = m - 1 := by
      rw [Int.floor_eq_iff]
      push_cast
      constructor
      · linarith
      · linarith
    rw [hf]
    have h3 : ¬ (y - ((m - 1 : ℤ) : ℚ) < 1 / 2) := by push_cast; linarith
    have h4 : 1 / 2 < y - ((m - 1 : ℤ) : ℚ) := by push_cast; linarith
    rw [if_neg h3, if_pos h4]
    ring

/-- The double nearest to a positive `x` with `2 ^ (e + 52) <= x < 2 ^ (e + 53)`
is `m * 2 ^ e` when `x / 2 ^ e` is within less than 1/2 of the integer `m`. -/
theorem fl_eq (x : ℚ) (e m : ℤ) (hx : 0 < x)
    (he1 : (2 : ℚ) ^ (e + 52) ≤ x) (he2 : x < (2 : ℚ) ^ (e + 53))
    (h1 : (m : ℚ) - 1 / 2 < x / (2 : ℚ) ^ e) (h2 : x / (2 : ℚ) ^ e < m + 1 / 2) :
    fl x = m * (2 : ℚ) ^ e := by
  have hlog : Int.log 2 |x| = e + 52 := by
    rw [abs_of_pos hx]
    have ha : e + 52 ≤ Int.log 2 x :=
      (Int.zpow_le_iff_le_log (by norm_num) hx).1 (by exact_mod_cast he1)
    have hb : Int.log 2 x < e + 53 :=
      (Int.lt_zpow_iff_log_lt (by norm_num) hx).1 (by exact_mod_cast he2)
    omega
  unfold fl
  rw [if_neg (ne_of_gt hx), hlog]
  have : e + 52 - 52 = e := by ring
  rw [this, roundHalfEven_eq _ m h1 h2]

/-- With `round = id` the rounded purchase is the exact one. -/
theorem handlePurchaseRounded_id (organization : Option Organization)
    (selectedMaterial : Option (Listed RawMaterial)) (purchaseData : PurchaseData) (s : Store) :
    handlePurchaseRounded id organization selectedMaterial purchaseData s =
      handlePurchase organization selectedMaterial purchaseData s := by
  rfl

/-- With `round = id` the rounded validation loop is the exact one. -/
theorem validateMaterialsRounded_id (qty : ℚ) (reads : List MaterialRead) (totalCost : ℚ)
    (updates : List MaterialUpdate) :
    validateMaterialsRounded id qty reads totalCost updates =
      validateMaterials qty reads totalCost updates := by
  induction reads generalizing totalCost updates with
  | nil => rfl
  | cons r rest ih =>
    simp only [validateMaterialsRounded, validateMaterials, id]
    cases r.doc with
    | none => rfl
    | some matData =>
      simp only []
      split_ifs
      · rfl
      · exact ih _ _

/-- With `round = id` the rounded production run is the exact one. -/
theorem handleProductionRunRounded_id (organization : Option Organization)
    (products : List (Listed Product)) (productionData : ProductionData) (s : Store) :
    handleProductionRunRounded id organization products productionData s =
      handleProductionRun organization products productionData s := by
  have h : ∀ org productId product qty,
      productionTransactionRounded id org productId product qty =
        productionTransaction org productId product qty := by
    intro org productId product qty
    funext s1
    simp only [productionTransactionRounded, productionTransaction,
      validateMaterialsRounded_id]
    rfl
  unfold handleProductionRunRounded handleProductionRun
  simp only [h]

/-- A staged write neither reads nor writes the stored products. -/
theorem applyWrite_products (s : Store) (P : DocId → Option Product) (w : Write) :
    applyWrite { s with products := P } w =
      (applyWrite s w).map fun t => { t with products := P } := by
  cases w with
  | updateMaterial id q a =>
    simp only [applyWrite]
    cases s.raw_materials id <;> rfl
  | updateInventory id q a =>
    simp only [applyWrite]
    cases s.inventory_items id <;> rfl
  | updateOrder id st c =>
    simp only [applyWrite]
    cases s.sales_orders id <;> rfl
  | updateReceivable id p d st =>
    simp only [applyWrite]
    cases s.receivables[id]? <;> rfl
  | setMaterialLog _ => rfl
  | setCashflow _ => rfl
  | setInventory _ _ => rfl
  | setInventoryLog _ => rfl
  | setProductionOrder _ => rfl
  | setReceivable _ => rfl
  | setCollection _ => rfl

/-- A commit neither reads nor writes the stored products. -/
theorem commit_products (s : Store) (P : DocId → Option Product) (ws : List Write) :
    commit { s with products := P } ws =
      (commit s ws).map fun t => { t with products := P } := by
  induction ws generalizing s with
  | nil => rfl
  | cons w rest ih =>
    simp only [commit, applyWrite_products]
    cases h : applyWrite s w with
    | none => rfl
    | some s1 => simpa using ih s1

/-- Every document the query of `useFirestore` matches is a document of the
collection whose `orgId` is the id of the organization, whatever the extra
constraints; without extra constraints the query matches exactly those. -/
theorem tenantQuery_scoped {α : Type} (orgId : α → DocId) (organization : Organization)
    (collection : List (Listed α)) (queryConstraints : List (QueryConstraint α)) :
    (∀ d ∈ tenantQuery orgId organization collection queryConstraints,
      d ∈ collection ∧ orgId d.data = organization.id) ∧
    tenantQuery orgId organization collection [] =
      collection.filter fun d => orgId d.data == organization.id := by
  constructor
  · intro d h
    simp only [tenantQuery, runQuery, List.foldl_cons, QueryConstraint.apply] at h
    have h1 := mem_runQuery queryConstraints _ d h
    have h2 := List.mem_filter.1 h1
    exact ⟨h2.1, by simpa using h2.2⟩
  · simp [tenantQuery, runQuery, QueryConstraint.apply]

/-- What `useFirestore` returns right after a snapshot or after an effect with no
organization: the documents of the organization it listens for, or nothing. -/
theorem useFirestore_after_snapshot {α : Type} (orgId : α → DocId)
    (queryConstraints : List (QueryConstraint α)) (events : List (HookEvent α))
    (organization : Organization) (collection : List (Listed α)) :
    (∀ d ∈ (useFirestore orgId queryConstraints
        (events ++ [.effect (some organization), .snapshot collection])).data,
      orgId d.data = organization.id) ∧
    (useFirestore orgId queryConstraints (events ++ [.effect none])).data = [] := by
  constructor
  · intro d hd
    simp only [useFirestore, List.foldl_append, List.foldl_cons, List.foldl_nil,
      HookState.step] at hd
    exact ((tenantQuery_scoped orgId organization collection queryConstraints).1 d hd).2
  · simp [useFirestore, List.foldl_append, HookState.step]

/-- On lines and documents whose numbers are numbers, the validation loop on
JavaScript numbers is the one of the rational embedding. -/
theorem validateInventoryJS_toJS (reads : List InventoryRead) (totalCOGS : ℚ)
    (updates : List InventoryUpdate) :
    validateInventoryJS (reads.map InventoryRead.toJS) (.num totalCOGS)
        (updates.map InventoryUpdate.toJS) =
      match validateInventory reads totalCOGS updates with
      | .error _ => none
      | .ok (c, us) => some (.num c, us.map InventoryUpdate.toJS) := by
  induction reads generalizing totalCOGS updates with
  | nil => rfl
  | cons r rest ih =>
    simp only [List.map_cons, validateInventoryJS, validateInventory, InventoryRead.toJS]
    cases hdoc : r.doc with
    | none => rfl
    | some invData =>
      simp only [Option.map_some', OrderItem.toJS, JSNumber.lt, decide_eq_true_eq]
      by_cases hlt : invData.quantity < r.orderItem.quantity
      · simp [hlt]
      · simp only [hlt, if_false, JSNumber.orZero, JSNumber.mul, JSNumber.add, JSNumber.sub]
        have := ih (totalCOGS + invData.averageCost * r.orderItem.quantity)
          (updates ++ [{ ref := r.ref, newQty := invData.quantity - r.orderItem.quantity,
                         productId := r.orderItem.productId,
                         quantity := r.orderItem.quantity }])
        simpa [InventoryUpdate.toJS, InventoryRead.toJS, OrderItem.toJS] using this

/-! ## Purchase -/

/-- C1: for a stored raw material with quantity `q >= 0` and average cost `a`, a
purchase of `n > 0` units for total cost `c >= 0` succeeds and writes quantity
`q + n` and average cost `(q * a + c) / (q + n)`, which is
`weightedAverage q a n (c / n)`. -/
theorem purchase_weighted_average (org : Organization) (sel : Listed RawMaterial)
    (n c : ℚ) (s : Store) (m : RawMaterial)
    (hm : s.raw_materials sel.id = some m) (hq : 0 ≤ m.quantity) (hn : 0 < n) (hc : 0 ≤ c) :
    (handlePurchase (some org) (some sel) ⟨n, c⟩ s).2 = .success ∧
    (handlePurchase (some org) (some sel) ⟨n, c⟩ s).1.raw_materials sel.id =
      some { m with quantity := m.quantity + n,
                    averageCost := (m.quantity * m.averageCost + c) / (m.quantity + n) } ∧
    (m.quantity * m.averageCost + c) / (m.quantity + n) =
      weightedAverage m.quantity m.averageCost n (c / n) := by
  have hpos : 0 < m.quantity + n := by linarith
  have hguard : ¬ (n ≤ 0 ∨ c < 0) := by
    rintro (h | h) <;> linarith
  have hne : n ≠ 0 := ne_of_gt hn
  refine ⟨?_, ?_, ?_⟩
  · simp [handlePurchase, hguard, runTransaction, purchaseTransaction, hm, commit, applyWrite]
  · simp [handlePurchase, hguard, runTransaction, purchaseTransaction, hm, commit, applyWrite, hpos]
  · simp only [weightedAverage]
    rw [if_pos hpos, mul_div_cancel₀ c hne]

/-- Witness of C1 on the examples of the specification: from (0, 0), 100 units
for 5000 give (100, 50); then 50 units for 3000 give (150, 8000/150). -/
theorem purchase_weighted_average_witness :
    (handlePurchase (some acme) (some ⟨1, ⟨7, 0, 0⟩⟩) ⟨100, 5000⟩ storeFreshMaterial).1.raw_materials 1
        = some ⟨7, 100, 50⟩ ∧
    (handlePurchase (some acme) (some ⟨1, ⟨7, 100, 50⟩⟩) ⟨50, 3000⟩ storeAfterPurchase).1.raw_materials 1
        = some ⟨7, 150, 8000 / 150⟩ := by
  have h1 := (purchase_weighted_average acme ⟨1, ⟨7, 0, 0⟩⟩ 100 5000 storeFreshMaterial ⟨7, 0, 0⟩
    (by simp [storeFreshMaterial]) (by norm_num) (by norm_num) (by norm_num)).2.1
  have h2 := (purchase_weighted_average acme ⟨1, ⟨7, 100, 50⟩⟩ 50 3000 storeAfterPurchase
    ⟨7, 100, 50⟩ (by simp [storeAfterPurchase]) (by norm_num) (by norm_num) (by norm_num)).2.1
  norm_num at h1 h2
  exact ⟨h1, by rw [h2]; norm_num⟩

/-! ## Production run -/

/-- C2: when some BOM line of the product is short (its material is missing or
holds less than `bomQuantityPerUnit * producedQuantity`), a production run of
`qty > 0` units leaves the whole store as it was and does not succeed; with an
organization present it ends in a failure. -/
theorem production_shortage_writes_nothing
    (organization : Option Organization) (products : List (Listed Product))
    (productId : DocId) (product : Listed Product) (qty : ℚ) (s : Store)
    (hfind : products.find? (fun p => p.id == productId) = some product)
    (hqty : 0 < qty)
    (hshort : ∃ item ∈ product.data.bom, bomLineShort s qty item) :
    (handleProductionRun organization products ⟨some productId, qty⟩ s).1 = s ∧
    (handleProductionRun organization products ⟨some productId, qty⟩ s).2 ≠ .success ∧
    ∀ org, organization = some org →
      ∃ e, (handleProductionRun organization products ⟨some productId, qty⟩ s).2 = .failure e := by
  have hq : ¬ qty ≤ 0 := not_le.mpr hqty
  cases organization with
  | none => simp [handleProductionRun]
  | some org =>
    obtain ⟨e, he⟩ := validateMaterials_error_of_short s qty product.data.bom hshort 0 []
    by_cases hlen : product.data.bom.length = 0
    · simp [handleProductionRun, hq, hfind, hlen]
    · simp [handleProductionRun, hq, hfind, hlen, runTransaction, productionTransaction, he]

/-- Witness of C2: the second BOM line is short (10 required, 5 available), the
run fails and the first line's material is not consumed. -/
theorem production_shortage_writes_nothing_witness :
    (handleProductionRun (some acme) [productTwoLines] ⟨some 5, 10⟩ storeTwoMaterials).1
        = storeTwoMaterials ∧
    (handleProductionRun (some acme) [productTwoLines] ⟨some 5, 10⟩ storeTwoMaterials).2
        = .failure (.insufficientMaterial 2 10 5) := by
  have h := production_shortage_writes_nothing (some acme) [productTwoLines] 5 productTwoLines 10
    storeTwoMaterials (by simp [productTwoLines]) (by norm_num)
    ⟨⟨2, 1⟩, by simp [productTwoLines],
      Or.inr ⟨⟨7, 5, 4⟩, by simp [storeTwoMaterials, setDoc], by norm_num⟩⟩
  refine ⟨h.1, ?_⟩
  norm_num [handleProductionRun, productTwoLines, runTransaction, productionTransaction,
    readMaterials, validateMaterials, storeTwoMaterials, setDoc]

/-- After a successful production run, which has `qty > 0`, the finished-goods item
has quantity `Q + qty` and, the divisor `Q + qty` not being 0, average cost
`(Q * A + T) / (Q + qty)`, where `(Q, A)` are its prior quantity and average
cost (`(0, 0)` when it did not exist) and `T` is the consumed-material cost;
this is `weightedAverage Q A qty (T / qty)` whenever `Q + qty > 0`. -/
theorem production_finished_goods_values
    (organization : Option Organization) (products : List (Listed Product))
    (productId : DocId) (product : Listed Product) (qty : ℚ) (s : Store)
    (hfind : products.find? (fun p => p.id == productId) = some product)
    (hsucc : (handleProductionRun organization products ⟨some productId, qty⟩ s).2 = .success) :
    0 < qty ∧ ∃ item,
      (handleProductionRun organization products ⟨some productId, qty⟩ s).1.inventory_items
        productId = some item ∧
      item.quantity = priorQuantity s productId + qty ∧
      (priorQuantity s productId + qty ≠ 0 →
        item.averageCost =
          (priorQuantity s productId * priorAverageCost s productId +
              consumedMaterialCost s product.data.bom qty) /
            (priorQuantity s productId + qty)) ∧
      (0 < priorQuantity s productId + qty →
        item.averageCost =
          weightedAverage (priorQuantity s productId) (priorAverageCost s productId) qty
            (consumedMaterialCost s product.data.bom qty / qty)) := by
  cases organization with
  | none => simp [handleProductionRun] at hsucc
  | some org =>
    by_cases hq : qty ≤ 0
    · simp [handleProductionRun, hq] at hsucc
    by_cases hlen : product.data.bom.length = 0
    · simp [handleProductionRun, hq, hfind, hlen] at hsucc
    have hne : qty ≠ 0 := fun h => hq (le_of_eq h)
    refine ⟨lt_of_not_ge hq, ?_⟩
    cases hval : validateMaterials qty (readMaterials s product.data.bom) 0 [] with
    | error e =>
      simp [handleProductionRun, hq, hfind, hlen, runTransaction, productionTransaction, hval]
        at hsucc
    | ok res =>
      obtain ⟨T, us⟩ := res
      have hT := validateMaterials_totalCost s qty product.data.bom 0 [] T us hval
      rw [zero_add] at hT
      simp only [handleProductionRun, hq, hfind, hlen, runTransaction, productionTransaction,
        hval, if_false, commit_append] at hsucc ⊢
      cases hc : commit s (materialWrites org us) with
      | none => simp [hc] at hsucc
      | some s1 =>
        have hframe := (commit_materialWrites_frame org us s s1 hc).1
        cases hinv : s.inventory_items productId with
        | none =>
          refine ⟨⟨productId, org.id, qty, T / qty⟩, ?_, ?_, ?_, ?_⟩
          · simp [hc, commit, applyWrite, inventoryWrite, inventoryValues, hinv]
          · simp [priorQuantity, hinv]
          · intro _
            simp [priorQuantity, priorAverageCost, hinv, hT]
          · intro _
            simp [priorQuantity, priorAverageCost, hinv, hT, weightedAverage,
              lt_of_not_ge hq, mul_div_cancel₀ _ hne]
        | some it =>
          refine ⟨{ it with quantity := it.quantity + qty,
                            averageCost := (it.quantity * it.averageCost + T) /
                              (it.quantity + qty) }, ?_, ?_, ?_, ?_⟩
          · simp [hc, commit, applyWrite, inventoryWrite, inventoryValues, hinv, hframe]
          · simp [priorQuantity, hinv]
          · intro _
            simp [priorQuantity, priorAverageCost, hinv, hT]
          · intro hpos
            simp only [priorQuantity, hinv] at hpos
            simp [priorQuantity, priorAverageCost, hinv, hT, weightedAverage, hpos,
              mul_div_cancel₀ _ hne]

/-- C3: on a store of the data model (every stored quantity at least 0), a
successful production run has `qty > 0`, and after it the finished-goods item
has quantity `Q + qty` and average cost `(Q * A + T) / (Q + qty)`, which is
`weightedAverage Q A qty (T / qty)`, where `(Q, A)` are its prior quantity and
average cost (`(0, 0)` when it did not exist) and `T` is the consumed-material
cost. -/
theorem production_finished_goods_costing
    (organization : Option Organization) (products : List (Listed Product))
    (productId : DocId) (product : Listed Product) (qty : ℚ) (s : Store)
    (hstock : nonNegativeStock s)
    (hfind : products.find? (fun p => p.id == productId) = some product)
    (hsucc : (handleProductionRun organization products ⟨some productId, qty⟩ s).2 = .success) :
    0 < qty ∧ ∃ item,
      (handleProductionRun organization products ⟨some productId, qty⟩ s).1.inventory_items
        productId = some item ∧
      item.quantity = priorQuantity s productId + qty ∧
      item.averageCost =
        (priorQuantity s productId * priorAverageCost s productId +
            consumedMaterialCost s product.data.bom qty) /
          (priorQuantity s productId + qty) ∧
      (priorQuantity s productId * priorAverageCost s productId +
            consumedMaterialCost s product.data.bom qty) /
          (priorQuantity s productId + qty) =
        weightedAverage (priorQuantity s productId) (priorAverageCost s productId) qty
          (consumedMaterialCost s product.data.bom qty / qty) := by
  obtain ⟨hqty, item, hitem, hq, havg, hwa⟩ := production_finished_goods_values organization
    products productId product qty s hfind hsucc
  have hQ : 0 ≤ priorQuantity s productId := by
    unfold priorQuantity
    cases hinv : s.inventory_items productId with
    | none => exact le_refl 0
    | some it => exact hstock.2 productId it hinv
  have hpos : 0 < priorQuantity s productId + qty := by linarith
  refine ⟨hqty, item, hitem, hq, havg (ne_of_gt hpos), ?_⟩
  rw [← havg (ne_of_gt hpos)]
  exact hwa hpos

/-- Witness of C3: 10 units from material at average cost 160/3, 2 per unit, with
no finished goods yet, give quantity 10 at average cost 320/3. -/
theorem production_finished_goods_costing_witness :
    nonNegativeStock storeBeforeRun ∧
    (handleProductionRun (some acme) [productOneLine] ⟨some 5, 10⟩ storeBeforeRun).2 = .success ∧
    (∃ item, (handleProductionRun (some acme) [productOneLine] ⟨some 5, 10⟩
        storeBeforeRun).1.inventory_items 5 = some item ∧
      item.quantity = 10 ∧ item.averageCost = 320 / 3) ∧
    weightedAverage 0 0 10 (consumedMaterialCost storeBeforeRun productOneLine.data.bom 10 / 10)
        = 320 / 3 := by
  have hstock : nonNegativeStock storeBeforeRun := by
    constructor
    · intro id m h
      simp only [storeBeforeRun, emptyStore, setDoc] at h
      split_ifs at h
      cases h
      norm_num
    · intro id item h
      simp [storeBeforeRun, emptyStore] at h
  have hs : (handleProductionRun (some acme) [productOneLine] ⟨some 5, 10⟩ storeBeforeRun).2
      = .success := by
    norm_num [handleProductionRun, productOneLine, runTransaction, productionTransaction,
      readMaterials, validateMaterials, storeBeforeRun, setDoc, materialWrites, commit,
      applyWrite, inventoryWrite, inventoryValues, emptyStore, acme]
  obtain ⟨_, item, h1, h2, h3, h4⟩ := production_finished_goods_costing (some acme)
    [productOneLine] 5 productOneLine 10 storeBeforeRun hstock (by simp [productOneLine]) hs
  have hQ : priorQuantity storeBeforeRun 5 = 0 := by
    simp [priorQuantity, storeBeforeRun, emptyStore]
  have hA : priorAverageCost storeBeforeRun 5 = 0 := by
    simp [priorAverageCost, storeBeforeRun, emptyStore]
  have hT : consumedMaterialCost storeBeforeRun productOneLine.data.bom 10 = 3200 / 3 := by
    norm_num [consumedMaterialCost, materialAverageCost, productOneLine, storeBeforeRun, setDoc]
  rw [hQ, hA, hT] at h3 h4
  rw [hQ] at h2
  refine ⟨hstock, hs, ⟨item, h1, by rw [h2]; norm_num, by rw [h3]; norm_num⟩, ?_⟩
  rw [hT, ← h4]
  norm_num

/-- C4, on a BOM with two lines naming material 1 (2 and 3 per unit): a run of 10
units succeeds, requires 50 of the material, logs -20 and -30 and costs 50, yet
the stored quantity goes from 100 to 70, not to 50. -/
theorem production_repeated_material_underdeducts :
    (handleProductionRun (some acme) [productRepeatedMaterial] ⟨some 5, 10⟩ storeOneMaterial).2
        = .success ∧
    storeOneMaterial.raw_materials 1 = some { orgId := 7, quantity := 100, averageCost := 1 } ∧
    requiredOfMaterial productRepeatedMaterial.data.bom 10 1 = 50 ∧
    (handleProductionRun (some acme) [productRepeatedMaterial] ⟨some 5, 10⟩
        storeOneMaterial).1.raw_materials 1
        = some { orgId := 7, quantity := 70, averageCost := 1 } ∧
    ((handleProductionRun (some acme) [productRepeatedMaterial] ⟨some 5, 10⟩
        storeOneMaterial).1.raw_material_logs.map fun log => log.quantityChange) = [-20, -30] ∧
    (handleProductionRun (some acme) [productRepeatedMaterial] ⟨some 5, 10⟩
        storeOneMaterial).1.production_orders
        = [{ orgId := 7, productId := 5, quantity := 10, totalCost := 50, unitCost := 5,
             status := .completed }] := by
  refine ⟨?_, ?_, ?_, ?_, ?_, ?_⟩
  · norm_num [handleProductionRun, productRepeatedMaterial, runTransaction, productionTransaction,
      readMaterials, validateMaterials, storeOneMaterial, setDoc, materialWrites, commit,
      applyWrite, inventoryWrite, inventoryValues, emptyStore, acme]
  · simp [storeOneMaterial, setDoc]
  · norm_num [requiredOfMaterial, productRepeatedMaterial]
  · norm_num [handleProductionRun, productRepeatedMaterial, runTransaction, productionTransaction,
      readMaterials, validateMaterials, storeOneMaterial, setDoc, materialWrites, commit,
      applyWrite, inventoryWrite, inventoryValues, emptyStore, acme]
  · norm_num [handleProductionRun, productRepeatedMaterial, runTransaction, productionTransaction,
      readMaterials, validateMaterials, storeOneMaterial, setDoc, materialWrites, commit,
      applyWrite, inventoryWrite, inventoryValues, emptyStore, acme]
  · norm_num [handleProductionRun, productRepeatedMaterial, runTransaction, productionTransaction,
      readMaterials, validateMaterials, storeOneMaterial, setDoc, materialWrites, commit,
      applyWrite, inventoryWrite, inventoryValues, emptyStore, acme]

/-! ## Sales delivery -/

/-- C5: when some line of the order is short (its finished-goods item is missing
or holds less than the line quantity), `handleDeliver` leaves the whole store as
it was, the order document included, and does not succeed; once confirmed it
ends in a failure. -/
theorem delivery_shortage_writes_nothing
    (organization : Option Organization) (confirmed : Bool) (now : JSDate)
    (order : Listed SalesOrder) (s : Store)
    (hshort : ∃ item ∈ order.data.items, orderLineShort s item) :
    (handleDeliver organization confirmed now order s).1 = s ∧
    (handleDeliver organization confirmed now order s).2 ≠ .success ∧
    (confirmed = true →
      ∃ e, (handleDeliver organization confirmed now order s).2 = .failure e) := by
  obtain ⟨e, he⟩ := validateInventory_error_of_short s order.data.items hshort 0 []
  cases confirmed with
  | false => simp [handleDeliver]
  | true => simp [handleDeliver, runTransaction, deliverTransaction, he]

/-- Witness of C5: the second line is short (2 ordered, 1 in stock), the delivery
fails and the first line's item is not deducted. -/
theorem delivery_shortage_writes_nothing_witness :
    (handleDeliver (some acme) true deliveryInstant orderTwoProducts storeTwoProducts).1
        = storeTwoProducts ∧
    (handleDeliver (some acme) true deliveryInstant orderTwoProducts storeTwoProducts).2
        = .failure (.insufficientStock 6 1) := by
  have h := delivery_shortage_writes_nothing (some acme) true deliveryInstant orderTwoProducts
    storeTwoProducts
    ⟨⟨6, 2, 10⟩, by simp [orderTwoProducts],
      Or.inr ⟨⟨6, 7, 1, 3⟩, by simp [storeTwoProducts, setDoc], by norm_num⟩⟩
  refine ⟨h.1, ?_⟩
  norm_num [handleDeliver, orderTwoProducts, runTransaction, deliverTransaction,
    readInventory, validateInventory, storeTwoProducts, setDoc]

/-- C6, on an order with two lines naming product 5 (3 and 4 units): the
delivery succeeds, delivers 7 units, logs -3 and -4 and records the cost of 7
units, yet the stored quantity goes from 10 to 6, not to 3. -/
theorem delivery_repeated_product_underdeducts :
    (handleDeliver (some acme) true deliveryInstant orderRepeatedProduct
        storeRepeatedProduct).2 = .success ∧
    storeRepeatedProduct.inventory_items 5
        = some { productId := 5, orgId := 7, quantity := 10, averageCost := 2 } ∧
    deliveredOfProduct orderRepeatedProduct.data.items 5 = 7 ∧
    (handleDeliver (some acme) true deliveryInstant orderRepeatedProduct
        storeRepeatedProduct).1.inventory_items 5
        = some { productId := 5, orgId := 7, quantity := 6, averageCost := 2 } ∧
    ((handleDeliver (some acme) true deliveryInstant orderRepeatedProduct
        storeRepeatedProduct).1.inventory_logs.map fun log => log.quantityChange) = [-3, -4] ∧
    (handleDeliver (some acme) true deliveryInstant orderRepeatedProduct
        storeRepeatedProduct).1.sales_orders 9
        = some { orderRepeatedProduct.data with status := .delivered, totalCost := some 14 } := by
  refine ⟨?_, ?_, ?_, ?_, ?_, ?_⟩
  · norm_num [handleDeliver, orderRepeatedProduct, runTransaction, deliverTransaction,
      readInventory, validateInventory, storeRepeatedProduct, setDoc, inventoryWrites, commit,
      applyWrite, emptyStore, acme]
  · simp [storeRepeatedProduct, setDoc]
  · norm_num [deliveredOfProduct, orderRepeatedProduct]
  · norm_num [handleDeliver, orderRepeatedProduct, runTransaction, deliverTransaction,
      readInventory, validateInventory, storeRepeatedProduct, setDoc, inventoryWrites, commit,
      applyWrite, emptyStore, acme]
  · norm_num [handleDeliver, orderRepeatedProduct, runTransaction, deliverTransaction,
      readInventory, validateInventory, storeRepeatedProduct, setDoc, inventoryWrites, commit,
      applyWrite, emptyStore, acme]
  · norm_num [handleDeliver, orderRepeatedProduct, runTransaction, deliverTransaction,
      readInventory, validateInventory, storeRepeatedProduct, setDoc, inventoryWrites, commit,
      applyWrite, emptyStore, acme]

/-- C7: after a successful delivery the stored order has status `delivered` and
`totalCost` equal to the sum over its line items of the average cost of the
inventory item in the snapshot times the line quantity; its other fields are
unchanged. -/
theorem delivery_records_cogs
    (organization : Option Organization) (confirmed : Bool) (now : JSDate)
    (order : Listed SalesOrder) (s : Store)
    (hsucc : (handleDeliver organization confirmed now order s).2 = .success) :
    ∃ stored,
      s.sales_orders order.id = some stored ∧
      (handleDeliver organization confirmed now order s).1.sales_orders order.id =
        some { stored with status := .delivered,
                           totalCost := some (costOfGoodsSold s order.data.items) } := by
  cases confirmed with
  | false => simp [handleDeliver] at hsucc
  | true =>
    cases hval : validateInventory (readInventory s order.data.items) 0 [] with
    | error e => simp [handleDeliver, runTransaction, deliverTransaction, hval] at hsucc
    | ok res =>
      obtain ⟨C, us⟩ := res
      have hC := validateInventory_totalCOGS s order.data.items 0 [] C us hval
      rw [zero_add] at hC
      cases organization with
      | none => simp [handleDeliver, runTransaction, deliverTransaction, hval] at hsucc
      | some org =>
        simp only [handleDeliver, runTransaction, deliverTransaction, hval, commit_append]
          at hsucc ⊢
        cases hc : commit s (inventoryWrites org order.id us) with
        | none => simp [hc] at hsucc
        | some s1 =>
          have hframe := (commit_inventoryWrites_frame org order.id us s s1 hc).2.1
          cases hord : s.sales_orders order.id with
          | none => simp [hc, commit, applyWrite, hframe, hord] at hsucc
          | some stored =>
            refine ⟨stored, rfl, ?_⟩
            simp [hc, commit, applyWrite, hframe, hord, hC]

/-- Witness of C7: delivering 5 units held at average cost 320/3 records the
cost 1600/3 on the order and marks it delivered. -/
theorem delivery_records_cogs_witness :
    (handleDeliver (some acme) true deliveryInstant orderFiveUnits storeBeforeDelivery).2
        = .success ∧
    (handleDeliver (some acme) true deliveryInstant orderFiveUnits
        storeBeforeDelivery).1.sales_orders 9
        = some { orgId := 7, items := [⟨5, 5, 200⟩], totalAmount := 1000,
                 status := .delivered, totalCost := some (1600 / 3) } := by
  have hs : (handleDeliver (some acme) true deliveryInstant orderFiveUnits
      storeBeforeDelivery).2 = .success := by
    norm_num [handleDeliver, orderFiveUnits, runTransaction, deliverTransaction,
      readInventory, validateInventory, storeBeforeDelivery, setDoc, inventoryWrites, commit,
      applyWrite, emptyStore, acme]
  obtain ⟨stored, h1, h2⟩ := delivery_records_cogs (some acme) true deliveryInstant
    orderFiveUnits storeBeforeDelivery hs
  have hstored : stored = orderFiveUnits.data := by
    have h1' := h1
    simp [storeBeforeDelivery, orderFiveUnits, setDoc] at h1'
    rw [← h1']
    rfl
  have hc : costOfGoodsSold storeBeforeDelivery orderFiveUnits.data.items = 1600 / 3 := by
    norm_num [costOfGoodsSold, priorAverageCost, orderFiveUnits, storeBeforeDelivery, setDoc]
  refine ⟨hs, ?_⟩
  have h9 : orderFiveUnits.id = 9 := rfl
  rw [h9, hc, hstored] at h2
  rw [h2]
  rfl

/-- C8: a successful delivery appends exactly one receivable to `receivables`,
for this order, with `totalAmount` and `dueAmount` equal to the order's
`totalAmount`, `paidAmount` 0, status `unpaid`, and a due date 30 calendar days
after the delivery instant. -/
theorem delivery_creates_receivable
    (organization : Option Organization) (confirmed : Bool) (now : JSDate)
    (order : Listed SalesOrder) (s : Store)
    (hsucc : (handleDeliver organization confirmed now order s).2 = .success) :
    ∃ org, organization = some org ∧
      (handleDeliver organization confirmed now order s).1.receivables =
        s.receivables ++ [{
          orgId := org.id
          orderId := order.id
          totalAmount := order.data.totalAmount
          paidAmount := 0
          dueAmount := order.data.totalAmount
          issueDate := now
          dueDate := { day := now.day + 30, msOfDay := now.msOfDay }
          status := .unpaid }] := by
  cases confirmed with
  | false => simp [handleDeliver] at hsucc
  | true =>
    cases hval : validateInventory (readInventory s order.data.items) 0 [] with
    | error e => simp [handleDeliver, runTransaction, deliverTransaction, hval] at hsucc
    | ok res =>
      obtain ⟨C, us⟩ := res
      cases organization with
      | none => simp [handleDeliver, runTransaction, deliverTransaction, hval] at hsucc
      | some org =>
        refine ⟨org, rfl, ?_⟩
        simp only [handleDeliver, runTransaction, deliverTransaction, hval, commit_append]
          at hsucc ⊢
        cases hc : commit s (inventoryWrites org order.id us) with
        | none => simp [hc] at hsucc
        | some s1 =>
          have hframe := commit_inventoryWrites_frame org order.id us s s1 hc
          cases hord : s.sales_orders order.id with
          | none => simp [hc, commit, applyWrite, hframe.2.1, hord] at hsucc
          | some stored =>
            simp [hc, commit, applyWrite, hframe.2.1, hframe.2.2.1, hord, JSDate.addDays]

/-- Witness of C8: delivering order 9 (total 1000) on day 100 creates the single
receivable of 1000, unpaid, due on day 130. -/
theorem delivery_creates_receivable_witness :
    (handleDeliver (some acme) true deliveryInstant orderFiveUnits storeBeforeDelivery).2
        = .success ∧
    (handleDeliver (some acme) true deliveryInstant orderFiveUnits
        storeBeforeDelivery).1.receivables
        = [{ orgId := 7, orderId := 9, totalAmount := 1000, paidAmount := 0, dueAmount := 1000,
             issueDate := { day := 100, msOfDay := 43200000 },
             dueDate := { day := 130, msOfDay := 43200000 }, status := .unpaid }] := by
  have hs : (handleDeliver (some acme) true deliveryInstant orderFiveUnits
      storeBeforeDelivery).2 = .success := by
    norm_num [handleDeliver, orderFiveUnits, runTransaction, deliverTransaction,
      readInventory, validateInventory, storeBeforeDelivery, setDoc, inventoryWrites, commit,
      applyWrite, emptyStore, acme]
  obtain ⟨org, horg, h⟩ := delivery_creates_receivable (some acme) true deliveryInstant
    orderFiveUnits storeBeforeDelivery hs
  cases horg
  refine ⟨hs, ?_⟩
  rw [h]
  simp [storeBeforeDelivery, emptyStore, acme, orderFiveUnits, deliveryInstant]

/-! ## Collection -/

/-- C9, on two collections entered against the same dialog state: the receivable
(total 500, due 500) is selected, 400 are collected, and 300 are then collected
with `selectedReceivable` still showing due 500.  The stored `dueAmount` is 100
when the second collection is applied, yet it succeeds and leaves `paidAmount`
700 above `totalAmount` 500 and `dueAmount` -200. -/
theorem collection_stale_due_amount_overpays :
    (handleCollection (some acme) (some ⟨0, receivableUnpaid⟩) 400 storeUnpaid).2 = .success ∧
    (handleCollection (some acme) (some ⟨0, receivableUnpaid⟩) 400 storeUnpaid).1.receivables
        = [receivableAfter400] ∧
    receivableAfter400.dueAmount = 100 ∧
    (handleCollection (some acme) (some ⟨0, receivableUnpaid⟩) 300
        (handleCollection (some acme) (some ⟨0, receivableUnpaid⟩) 400 storeUnpaid).1).2
        = .success ∧
    (handleCollection (some acme) (some ⟨0, receivableUnpaid⟩) 300
        (handleCollection (some acme) (some ⟨0, receivableUnpaid⟩) 400 storeUnpaid).1).1.receivables
        = [{ receivableUnpaid with paidAmount := 700, dueAmount := -200, status := .paid }] ∧
    ((handleCollection (some acme) (some ⟨0, receivableUnpaid⟩) 300
        (handleCollection (some acme) (some ⟨0, receivableUnpaid⟩) 400
          storeUnpaid).1).1.collections.map fun c => c.amount) = [400, 300] := by
  refine ⟨?_, ?_, ?_, ?_, ?_, ?_⟩
  · norm_num [handleCollection, receivableUnpaid, runTransaction, collectionTransaction,
      storeUnpaid, commit, applyWrite, emptyStore, acme]
  · norm_num [handleCollection, receivableUnpaid, runTransaction, collectionTransaction,
      storeUnpaid, receivableAfter400, commit, applyWrite, emptyStore, acme]
  · simp [receivableAfter400]
  · norm_num [handleCollection, receivableUnpaid, runTransaction, collectionTransaction,
      storeUnpaid, commit, applyWrite, emptyStore, acme]
  · norm_num [handleCollection, receivableUnpaid, runTransaction, collectionTransaction,
      storeUnpaid, commit, applyWrite, emptyStore, acme]
  · norm_num [handleCollection, receivableUnpaid, runTransaction, collectionTransaction,
      storeUnpaid, commit, applyWrite, emptyStore, acme]

/-- C10: a successful collection has `amount > 0` and replaces the stored
receivable by one with `paidAmount + amount`, `dueAmount = totalAmount -
(paidAmount + amount)` and status `paid` when that is at most 0.01 and `partial`
otherwise; it appends exactly one collection record and one cash-inflow entry,
each with that amount. -/
theorem collection_updates_receivable
    (organization : Option Organization) (sel : Listed Receivable) (amount : ℚ) (s : Store)
    (hsucc : (handleCollection organization (some sel) amount s).2 = .success) :
    ∃ org stored,
      organization = some org ∧ s.receivables[sel.id]? = some stored ∧ 0 < amount ∧
      (handleCollection organization (some sel) amount s).1.receivables =
        s.receivables.set sel.id
          { stored with
            paidAmount := stored.paidAmount + amount
            dueAmount := stored.totalAmount - (stored.paidAmount + amount)
            status := if stored.totalAmount - (stored.paidAmount + amount) ≤ 0.01
                      then .paid else .partialPaid } ∧
      (handleCollection organization (some sel) amount s).1.collections =
        s.collections ++ [{ orgId := org.id, receivableId := sel.id,
                            orderId := sel.data.orderId, amount := amount }] ∧
      (handleCollection organization (some sel) amount s).1.cashflow_entries =
        s.cashflow_entries ++ [{ orgId := org.id, type := .inflow,
                                 category := .collection, amount := amount }] := by
  by_cases hle : amount ≤ 0
  · simp [handleCollection, hle] at hsucc
  by_cases hgt : amount > sel.data.dueAmount
  · simp [handleCollection, hle, hgt] at hsucc
  cases hrec : s.receivables[sel.id]? with
  | none =>
    simp [handleCollection, hle, hgt, runTransaction, collectionTransaction, hrec] at hsucc
  | some stored =>
    cases organization with
    | none =>
      simp [handleCollection, hle, hgt, runTransaction, collectionTransaction, hrec] at hsucc
    | some org =>
      refine ⟨org, stored, rfl, rfl, lt_of_not_ge hle, ?_⟩
      simp [handleCollection, hle, hgt, runTransaction, collectionTransaction, hrec, commit,
        applyWrite]

/-- Witness of C10 on the example of the specification: due 500, collecting 200
gives paid 200, due 300, `partial`; a further 300 gives due 0, `paid`. -/
theorem collection_updates_receivable_witness :
    (handleCollection (some acme) (some ⟨0, receivableUnpaid⟩) 200 storeUnpaid).2 = .success ∧
    (handleCollection (some acme) (some ⟨0, receivableUnpaid⟩) 200 storeUnpaid).1.receivables
        = [receivableAfter200] ∧
    (handleCollection (some acme) (some ⟨0, receivableAfter200⟩) 300 storeAfter200).2
        = .success ∧
    (handleCollection (some acme) (some ⟨0, receivableAfter200⟩) 300 storeAfter200).1.receivables
        = [{ receivableUnpaid with paidAmount := 500, dueAmount := 0, status := .paid }] := by
  have hs1 : (handleCollection (some acme) (some ⟨0, receivableUnpaid⟩) 200 storeUnpaid).2
      = .success := by
    norm_num [handleCollection, receivableUnpaid, runTransaction, collectionTransaction,
      storeUnpaid, commit, applyWrite, emptyStore, acme]
  have hs2 : (handleCollection (some acme) (some ⟨0, receivableAfter200⟩) 300 storeAfter200).2
      = .success := by
    norm_num [handleCollection, receivableUnpaid, runTransaction, collectionTransaction,
      storeAfter200, receivableAfter200, commit, applyWrite, emptyStore, acme]
  obtain ⟨org1, st1, ho1, hst1, _, hr1, _, _⟩ := collection_updates_receivable (some acme)
    ⟨0, receivableUnpaid⟩ 200 storeUnpaid hs1
  obtain ⟨org2, st2, ho2, hst2, _, hr2, _, _⟩ := collection_updates_receivable (some acme)
    ⟨0, receivableAfter200⟩ 300 storeAfter200 hs2
  have e1 : st1 = receivableUnpaid := by
    simp [storeUnpaid] at hst1
    exact hst1.symm
  have e2 : st2 = receivableAfter200 := by
    simp [storeAfter200] at hst2
    exact hst2.symm
  subst e1 e2
  refine ⟨hs1, ?_, hs2, ?_⟩
  · rw [hr1]
    norm_num [storeUnpaid, receivableUnpaid, receivableAfter200]
  · rw [hr2]
    norm_num [storeAfter200, receivableUnpaid, receivableAfter200]

/-! ## Stock invariant, audit trail and repeated delivery -/

/-- When every quantity entered is a number (the rational embedding has no `NaN`):
starting from a store in which every quantity is at least 0, every store
reached by a sequence of purchases, production runs, deliveries and manual
adjustments has every quantity at least 0, and a call that computes a negative
quantity for a document it reads does not succeed and leaves the store as it
was. -/
theorem non_negative_stock_on_numbers (s : Store) (calls : List Call)
    (h0 : nonNegativeStock s) :
    nonNegativeStock (runCalls s calls) ∧
    ∀ call, wouldGoNegative (runCalls s calls) call →
      (call.run (runCalls s calls)).2 ≠ .success ∧
      (call.run (runCalls s calls)).1 = runCalls s calls := by
  have hreach := runCalls_preserves_nonNegative s calls h0
  refine ⟨hreach, ?_⟩
  intro call hneg
  have hfail := Call.run_fails_of_wouldGoNegative (runCalls s calls) call hreach hneg
  exact ⟨hfail, Call.run_unchanged (runCalls s calls) call hfail⟩

/-- C11 (failing input): in the New Order dialog the quantity input is cleared,
so `parseFloat` gives `NaN`, and the line is added for product 5: the guard
`quantity <= 0` of `handleAddItem` lets it through, while it stops a quantity of
-3.  On delivery, with item 5 holding 10, the stock check
`invData.quantity < orderItem.quantity` is false, the validation passes, and
item 5 is written with quantity `NaN`, which is not at least 0; the cost of
goods sold written on the order is `NaN` too. -/
theorem delivery_stores_nan_quantity :
    handleAddItem ⟨some 5, .nan, .num 10⟩ [] = [⟨5, .nan, .num 10⟩] ∧
    handleAddItem ⟨some 5, .num (-3), .num 10⟩ [] = [] ∧
    (deliverInventoryJS
        (fun id => if id = 5 then some ⟨.num 10, .num 2⟩ else none)
        (handleAddItem ⟨some 5, .nan, .num 10⟩ [])).map (fun r => (r.1 5, r.2)) =
      some (some ⟨.nan, .num 2⟩, .nan) ∧
    JSNumber.le (.num 0) .nan = false := by
  refine ⟨?_, ?_, ?_, rfl⟩
  · simp [handleAddItem, JSNumber.le]
  · simp [handleAddItem, JSNumber.le]
  · simp [deliverInventoryJS, readInventoryJS, validateInventoryJS, applyInventoryUpdatesJS,
      handleAddItem, JSNumber.le, JSNumber.lt, JSNumber.orZero, JSNumber.mul, JSNumber.add,
      JSNumber.sub]

/-- C12, on a material created with quantity 0: after a purchase of 100 and a
successful run of 10 units of a product whose BOM names the material twice (2
and 3 per unit), the logs written for the material sum to 100 - 20 - 30 = 50
while its stored quantity is 70. -/
theorem audit_sum_diverges_on_repeated_material :
    storeFreshMaterial.raw_materials 1 = some { orgId := 7, quantity := 0, averageCost := 0 } ∧
    materialLogSum storeFreshMaterial 1 = 0 ∧
    (handlePurchase (some acme) (some ⟨1, ⟨7, 0, 0⟩⟩) ⟨100, 100⟩ storeFreshMaterial).2
        = .success ∧
    (handleProductionRun (some acme) [productRepeatedMaterial] ⟨some 5, 10⟩
      (handlePurchase (some acme) (some ⟨1, ⟨7, 0, 0⟩⟩) ⟨100, 100⟩ storeFreshMaterial).1).2
        = .success ∧
    (handleProductionRun (some acme) [productRepeatedMaterial] ⟨some 5, 10⟩
      (handlePurchase (some acme) (some ⟨1, ⟨7, 0, 0⟩⟩) ⟨100, 100⟩
        storeFreshMaterial).1).1.raw_materials 1
        = some { orgId := 7, quantity := 70, averageCost := 1 } ∧
    materialLogSum (handleProductionRun (some acme) [productRepeatedMaterial] ⟨some 5, 10⟩
      (handlePurchase (some acme) (some ⟨1, ⟨7, 0, 0⟩⟩) ⟨100, 100⟩
        storeFreshMaterial).1).1 1 = 50 := by
  refine ⟨?_, ?_, ?_, ?_, ?_, ?_⟩ <;>
  norm_num [materialLogSum, handleProductionRun, handlePurchase, runTransaction,
    productionTransaction, purchaseTransaction, readMaterials, validateMaterials,
    materialWrites, inventoryWrite, inventoryValues, commit, applyWrite, setDoc,
    storeFreshMaterial, emptyStore, acme, productRepeatedMaterial]

/-- C13, on order 9 delivered twice from the same listed copy: the first call
marks the stored order delivered, the second call still succeeds, takes the
stock from 5 to 0, and leaves two receivables and two outflow logs for the one
order. -/
theorem delivery_repeats_on_delivered_order :
    (handleDeliver (some acme) true deliveryInstant orderFiveUnits storeBeforeDelivery).2
        = .success ∧
    ((handleDeliver (some acme) true deliveryInstant orderFiveUnits
        storeBeforeDelivery).1.sales_orders 9).map (fun o => o.status) = some .delivered ∧
    (handleDeliver (some acme) true deliveryInstant orderFiveUnits
      (handleDeliver (some acme) true deliveryInstant orderFiveUnits storeBeforeDelivery).1).2
        = .success ∧
    (handleDeliver (some acme) true deliveryInstant orderFiveUnits
      (handleDeliver (some acme) true deliveryInstant orderFiveUnits
        storeBeforeDelivery).1).1.inventory_items 5
        = some { productId := 5, orgId := 7, quantity := 0, averageCost := 320 / 3 } ∧
    ((handleDeliver (some acme) true deliveryInstant orderFiveUnits
      (handleDeliver (some acme) true deliveryInstant orderFiveUnits
        storeBeforeDelivery).1).1.receivables.map fun r => (r.orderId, r.dueAmount))
        = [(9, 1000), (9, 1000)] ∧
    ((handleDeliver (some acme) true deliveryInstant orderFiveUnits
      (handleDeliver (some acme) true deliveryInstant orderFiveUnits
        storeBeforeDelivery).1).1.inventory_logs.map fun log => log.quantityChange)
        = [-5, -5] := by
  refine ⟨?_, ?_, ?_, ?_, ?_, ?_⟩ <;>
  norm_num [handleDeliver, runTransaction, deliverTransaction, readInventory,
    validateInventory, inventoryWrites, commit, applyWrite, setDoc, storeBeforeDelivery,
    emptyStore, acme, orderFiveUnits]

/-! ## Manual adjustment -/

/-- What an adjustment of `d > 0` does on any store: on a missing item it fails
with no writes; on a stored item with quantity `q` an add writes `q + d` and one
log `manual_add` with `quantityChange = d`, a deduct writes `q - d` and one log
`manual_deduct` with `quantityChange = -d`, and each fails with no writes when
the quantity it computes is negative. -/
theorem manual_adjustment_values (org : Organization) (sel : Listed InventoryItem)
    (d : ℚ) (reason : String) (s : Store) (hd : 0 < d) :
    (s.inventory_items sel.id = none →
      handleadjustment (some org) (some sel) ⟨.add, d, reason⟩ s =
        (s, .failure .itemNotFound) ∧
      handleadjustment (some org) (some sel) ⟨.deduct, d, reason⟩ s =
        (s, .failure .itemNotFound)) ∧
    ∀ item, s.inventory_items sel.id = some item →
      (0 ≤ item.quantity + d →
        (handleadjustment (some org) (some sel) ⟨.add, d, reason⟩ s).2 = .success ∧
        (handleadjustment (some org) (some sel) ⟨.add, d, reason⟩ s).1.inventory_items sel.id =
          some { item with quantity := item.quantity + d } ∧
        (handleadjustment (some org) (some sel) ⟨.add, d, reason⟩ s).1.inventory_logs =
          s.inventory_logs ++ [{
            orgId := org.id, itemId := sel.id, type := .manual_add, quantityChange := d,
            cost := none, relatedOrderId := none, reason := some reason }]) ∧
      (item.quantity + d < 0 →
        handleadjustment (some org) (some sel) ⟨.add, d, reason⟩ s =
          (s, .failure .insufficientStockForDeduction)) ∧
      (0 ≤ item.quantity - d →
        (handleadjustment (some org) (some sel) ⟨.deduct, d, reason⟩ s).2 = .success ∧
        (handleadjustment (some org) (some sel) ⟨.deduct, d, reason⟩ s).1.inventory_items sel.id =
          some { item with quantity := item.quantity - d } ∧
        (handleadjustment (some org) (some sel) ⟨.deduct, d, reason⟩ s).1.inventory_logs =
          s.inventory_logs ++ [{
            orgId := org.id, itemId := sel.id, type := .manual_deduct, quantityChange := -d,
            cost := none, relatedOrderId := none, reason := some reason }]) ∧
      (item.quantity - d < 0 →
        handleadjustment (some org) (some sel) ⟨.deduct, d, reason⟩ s =
          (s, .failure .insufficientStockForDeduction)) := by
  have hq : ¬ d ≤ 0 := not_le.mpr hd
  refine ⟨?_, ?_⟩
  · intro hnone
    simp [handleadjustment, hq, runTransaction, adjustmentTransaction, hnone]
  · intro item hitem
    refine ⟨?_, ?_, ?_, ?_⟩
    · intro h
      have h' : ¬ item.quantity + d < 0 := not_lt.mpr h
      simp [handleadjustment, hq, runTransaction, adjustmentTransaction, hitem, h', commit,
        applyWrite]
    · intro h
      simp [handleadjustment, hq, runTransaction, adjustmentTransaction, hitem, h]
    · intro h
      have h' : ¬ item.quantity + -d < 0 := by
        rw [← sub_eq_add_neg]
        exact not_lt.mpr h
      simp [handleadjustment, hq, runTransaction, adjustmentTransaction, hitem, h', commit,
        applyWrite, sub_eq_add_neg]
    · intro h
      have h' : item.quantity + -d < 0 := by
        rw [← sub_eq_add_neg]
        exact h
      simp [handleadjustment, hq, runTransaction, adjustmentTransaction, hitem, h']

/-- C15: on a store of the data model (every stored quantity at least 0) and
for `d > 0`, an adjustment on a missing item fails with no writes; on a stored
item with quantity `q` an add succeeds and writes `q + d` and one log
`manual_add` with `quantityChange = d`; a deduct with `q - d >= 0` succeeds and
writes `q - d` and one log `manual_deduct` with `quantityChange = -d`; a deduct
with `q - d < 0` fails with no writes.  So on a stored item the adjustment
fails exactly when it is a deduct with `q - d < 0`. -/
theorem manual_adjustment_effect (org : Organization) (sel : Listed InventoryItem)
    (d : ℚ) (reason : String) (s : Store) (hstock : nonNegativeStock s) (hd : 0 < d) :
    (s.inventory_items sel.id = none →
      handleadjustment (some org) (some sel) ⟨.add, d, reason⟩ s =
        (s, .failure .itemNotFound) ∧
      handleadjustment (some org) (some sel) ⟨.deduct, d, reason⟩ s =
        (s, .failure .itemNotFound)) ∧
    ∀ item, s.inventory_items sel.id = some item →
      ((handleadjustment (some org) (some sel) ⟨.add, d, reason⟩ s).2 = .success ∧
        (handleadjustment (some org) (some sel) ⟨.add, d, reason⟩ s).1.inventory_items sel.id =
          some { item with quantity := item.quantity + d } ∧
        (handleadjustment (some org) (some sel) ⟨.add, d, reason⟩ s).1.inventory_logs =
          s.inventory_logs ++ [{
            orgId := org.id, itemId := sel.id, type := .manual_add, quantityChange := d,
            cost := none, relatedOrderId := none, reason := some reason }]) ∧
      (0 ≤ item.quantity - d →
        (handleadjustment (some org) (some sel) ⟨.deduct, d, reason⟩ s).2 = .success ∧
        (handleadjustment (some org) (some sel) ⟨.deduct, d, reason⟩ s).1.inventory_items sel.id =
          some { item with quantity := item.quantity - d } ∧
        (handleadjustment (some org) (some sel) ⟨.deduct, d, reason⟩ s).1.inventory_logs =
          s.inventory_logs ++ [{
            orgId := org.id, itemId := sel.id, type := .manual_deduct, quantityChange := -d,
            cost := none, relatedOrderId := none, reason := some reason }]) ∧
      (item.quantity - d < 0 →
        handleadjustment (some org) (some sel) ⟨.deduct, d, reason⟩ s =
          (s, .failure .insufficientStockForDeduction)) ∧
      ∀ type, (handleadjustment (some org) (some sel) ⟨type, d, reason⟩ s).2 ≠ .success ↔
        (type = .deduct ∧ item.quantity - d < 0) := by
  obtain ⟨hmiss, hitems⟩ := manual_adjustment_values org sel d reason s hd
  refine ⟨hmiss, ?_⟩
  intro item hitem
  obtain ⟨hadd, _, hded, hfail⟩ := hitems item hitem
  have hq : 0 ≤ item.quantity := hstock.2 sel.id item hitem
  have hadd1 := hadd (by linarith)
  refine ⟨hadd1, hded, hfail, ?_⟩
  intro type
  cases type with
  | add =>
    constructor
    · intro h; exact absurd hadd1.1 h
    · rintro ⟨h, _⟩; cases h
  | deduct =>
    constructor
    · intro h
      refine ⟨rfl, ?_⟩
      by_contra hge
      exact h (hded (not_lt.mp hge)).1
    · rintro ⟨_, hlt⟩
      rw [hfail hlt]
      simp

/-- Witness of C15: on 10 units, adding 5 gives 15, deducting 4 gives 6 with its
log, deducting 11 fails and writes nothing. -/
theorem manual_adjustment_effect_witness :
    nonNegativeStock storeBeforeDelivery ∧
    (handleadjustment (some acme) (some listedItemFive) ⟨.add, 5, "recount"⟩
        storeBeforeDelivery).1.inventory_items 5
        = some { productId := 5, orgId := 7, quantity := 15, averageCost := 320 / 3 } ∧
    (handleadjustment (some acme) (some listedItemFive) ⟨.deduct, 4, "damaged"⟩
        storeBeforeDelivery).1.inventory_items 5
        = some { productId := 5, orgId := 7, quantity := 6, averageCost := 320 / 3 } ∧
    (handleadjustment (some acme) (some listedItemFive) ⟨.deduct, 4, "damaged"⟩
        storeBeforeDelivery).1.inventory_logs
        = [{ orgId := 7, itemId := 5, type := .manual_deduct, quantityChange := -4,
             cost := none, relatedOrderId := none, reason := some "damaged" }] ∧
    handleadjustment (some acme) (some listedItemFive) ⟨.deduct, 11, "lost"⟩
        storeBeforeDelivery
        = (storeBeforeDelivery, .failure .insufficientStockForDeduction) := by
  have hstock : nonNegativeStock storeBeforeDelivery := by
    constructor
    · intro id m h
      simp [storeBeforeDelivery, emptyStore] at h
    · intro id item h
      simp only [storeBeforeDelivery, emptyStore, setDoc] at h
      split_ifs at h
      cases h
      norm_num
  have hitem : storeBeforeDelivery.inventory_items listedItemFive.id
      = some ⟨5, 7, 10, 320 / 3⟩ := by
    simp [storeBeforeDelivery, listedItemFive]
  have h1 := ((manual_adjustment_effect acme listedItemFive 5 "recount" storeBeforeDelivery
    hstock (by norm_num)).2 _ hitem).1
  have h2 := ((manual_adjustment_effect acme listedItemFive 4 "damaged" storeBeforeDelivery
    hstock (by norm_num)).2 _ hitem).2.1 (by norm_num)
  have h3 := ((manual_adjustment_effect acme listedItemFive 11 "lost" storeBeforeDelivery
    hstock (by norm_num)).2 _ hitem).2.2.1 (by norm_num)
  have h5 : listedItemFive.id = 5 := rfl
  rw [h5] at h1 h2
  refine ⟨hstock, ?_, ?_, ?_, h3⟩
  · rw [h1.2.1]
    norm_num
  · rw [h2.2.1]
    norm_num
  · rw [h2.2.2]
    norm_num [storeBeforeDelivery, emptyStore, acme]

/-! ## Purchase: input checks and records -/

/-- C16: a purchase whose quantity is at most 0 or whose total cost is negative
leaves the whole store as it was and does not succeed; with a material and an
organization present it ends in the failure `Invalid quantity or cost`. -/
theorem purchase_rejects_bad_input (organization : Option Organization)
    (selectedMaterial : Option (Listed RawMaterial)) (n c : ℚ) (s : Store)
    (hbad : n ≤ 0 ∨ c < 0) :
    (handlePurchase organization selectedMaterial ⟨n, c⟩ s).1 = s ∧
    (handlePurchase organization selectedMaterial ⟨n, c⟩ s).2 ≠ .success ∧
    ∀ org sel, organization = some org → selectedMaterial = some sel →
      handlePurchase organization selectedMaterial ⟨n, c⟩ s =
        (s, .failure .invalidQuantityOrCost) := by
  cases selectedMaterial with
  | none => simp [handlePurchase]
  | some sel =>
    cases organization with
    | none => simp [handlePurchase]
    | some org => simp [handlePurchase, hbad]

/-- Witness of C16: quantities -5 and 0 and cost -1 are rejected with no write. -/
theorem purchase_rejects_bad_input_witness :
    handlePurchase (some acme) (some ⟨1, ⟨7, 0, 0⟩⟩) ⟨-5, 100⟩ storeFreshMaterial =
      (storeFreshMaterial, .failure .invalidQuantityOrCost) ∧
    handlePurchase (some acme) (some ⟨1, ⟨7, 0, 0⟩⟩) ⟨0, 100⟩ storeFreshMaterial =
      (storeFreshMaterial, .failure .invalidQuantityOrCost) ∧
    handlePurchase (some acme) (some ⟨1, ⟨7, 0, 0⟩⟩) ⟨5, -1⟩ storeFreshMaterial =
      (storeFreshMaterial, .failure .invalidQuantityOrCost) :=
  ⟨(purchase_rejects_bad_input (some acme) (some ⟨1, ⟨7, 0, 0⟩⟩) (-5) 100 storeFreshMaterial
      (Or.inl (by norm_num))).2.2 acme ⟨1, ⟨7, 0, 0⟩⟩ rfl rfl,
   (purchase_rejects_bad_input (some acme) (some ⟨1, ⟨7, 0, 0⟩⟩) 0 100 storeFreshMaterial
      (Or.inl (by norm_num))).2.2 acme ⟨1, ⟨7, 0, 0⟩⟩ rfl rfl,
   (purchase_rejects_bad_input (some acme) (some ⟨1, ⟨7, 0, 0⟩⟩) 5 (-1) storeFreshMaterial
      (Or.inr (by norm_num))).2.2 acme ⟨1, ⟨7, 0, 0⟩⟩ rfl rfl⟩

/-- C17: a successful purchase has `n > 0` and `c >= 0` and appends exactly one
raw-material log of type `purchase` with `quantityChange = n`, cost `c`, unit
cost `c / n` and the quantity and average cost now stored on the material, and
exactly one cash-flow entry of type `outflow` with amount `c`. -/
theorem purchase_writes_log_and_cashflow (organization : Option Organization)
    (selectedMaterial : Option (Listed RawMaterial)) (n c : ℚ) (s : Store)
    (hsucc : (handlePurchase organization selectedMaterial ⟨n, c⟩ s).2 = .success) :
    ∃ org sel m,
      organization = some org ∧ selectedMaterial = some sel ∧ 0 < n ∧ 0 ≤ c ∧
      (handlePurchase organization selectedMaterial ⟨n, c⟩ s).1.raw_materials sel.id = some m ∧
      (handlePurchase organization selectedMaterial ⟨n, c⟩ s).1.raw_material_logs =
        s.raw_material_logs ++ [{
          orgId := org.id
          materialId := sel.id
          type := .purchase
          quantityChange := n
          cost := some c
          unitCost := some (c / n)
          newQuantity := some m.quantity
          newAvgCost := some m.averageCost
          quantity := none }] ∧
      (handlePurchase organization selectedMaterial ⟨n, c⟩ s).1.cashflow_entries =
        s.cashflow_entries ++ [{
          orgId := org.id
          type := .outflow
          category := .purchase
          amount := c }] := by
  cases selectedMaterial with
  | none => simp [handlePurchase] at hsucc
  | some sel =>
    cases organization with
    | none => simp [handlePurchase] at hsucc
    | some org =>
      by_cases hbad : n ≤ 0 ∨ c < 0
      · simp [handlePurchase, hbad] at hsucc
      · have hn : 0 < n := by
          by_contra h
          exact hbad (Or.inl (not_lt.mp h))
        have hc : 0 ≤ c := by
          by_contra h
          exact hbad (Or.inr (not_le.mp h))
        cases hm : s.raw_materials sel.id with
        | none =>
          simp [handlePurchase, hbad, runTransaction, purchaseTransaction, hm] at hsucc
        | some m0 =>
          refine ⟨org, sel,
            { m0 with
              quantity := m0.quantity + n
              averageCost := if m0.quantity + n > 0
                then (m0.quantity * m0.averageCost + c) / (m0.quantity + n) else 0 },
            rfl, rfl, hn, hc, ?_, ?_, ?_⟩
          · simp [handlePurchase, hbad, runTransaction, purchaseTransaction, hm, commit,
              applyWrite]
          · simp [handlePurchase, hbad, runTransaction, purchaseTransaction, hm, commit,
              applyWrite]
          · simp [handlePurchase, hbad, runTransaction, purchaseTransaction, hm, commit,
              applyWrite]

/-- Witness of C17: purchasing 100 for 5000 logs +100 at unit cost 50 with new
quantity 100 and new average cost 50, and one outflow of 5000. -/
theorem purchase_writes_log_and_cashflow_witness :
    (handlePurchase (some acme) (some ⟨1, ⟨7, 0, 0⟩⟩) ⟨100, 5000⟩ storeFreshMaterial).2
        = .success ∧
    (handlePurchase (some acme) (some ⟨1, ⟨7, 0, 0⟩⟩) ⟨100, 5000⟩
        storeFreshMaterial).1.raw_material_logs
        = [{ orgId := 7, materialId := 1, type := .purchase, quantityChange := 100,
             cost := some 5000, unitCost := some 50, newQuantity := some 100,
             newAvgCost := some 50, quantity := none }] ∧
    (handlePurchase (some acme) (some ⟨1, ⟨7, 0, 0⟩⟩) ⟨100, 5000⟩
        storeFreshMaterial).1.cashflow_entries
        = [{ orgId := 7, type := .outflow, category := .purchase, amount := 5000 }] := by
  have hs : (handlePurchase (some acme) (some ⟨1, ⟨7, 0, 0⟩⟩) ⟨100, 5000⟩ storeFreshMaterial).2
      = .success := by
    norm_num [handlePurchase, runTransaction, purchaseTransaction, commit, applyWrite, setDoc,
      storeFreshMaterial, emptyStore, acme]
  obtain ⟨org, sel, m, horg, hsel, _, _, hm, hlog, hcf⟩ := purchase_writes_log_and_cashflow
    (some acme) (some ⟨1, ⟨7, 0, 0⟩⟩) 100 5000 storeFreshMaterial hs
  cases horg
  cases hsel
  have hm1 : m = ⟨7, 100, 50⟩ := by
    have hm2 := hm
    norm_num [handlePurchase, runTransaction, purchaseTransaction, commit, applyWrite, setDoc,
      storeFreshMaterial, emptyStore, acme] at hm2
    rw [← hm2]
  subst hm1
  refine ⟨hs, ?_, ?_⟩
  · rw [hlog]
    norm_num [storeFreshMaterial, emptyStore, acme]
  · rw [hcf]
    norm_num [storeFreshMaterial, emptyStore, acme]

/-! ## Production order, cost bounds and the end-to-end example -/

/-- C18: a successful production run has `qty > 0` and appends exactly one
production order with `totalCost` the sum over the BOM lines of
`bomQuantityPerUnit * qty * averageCost` of the material in the snapshot,
`unitCost = totalCost / qty`, `quantity = qty` and status `completed`. -/
theorem production_order_record
    (organization : Option Organization) (products : List (Listed Product))
    (productId : DocId) (product : Listed Product) (qty : ℚ) (s : Store)
    (hfind : products.find? (fun p => p.id == productId) = some product)
    (hsucc : (handleProductionRun organization products ⟨some productId, qty⟩ s).2 = .success) :
    0 < qty ∧ ∃ org, organization = some org ∧
      (handleProductionRun organization products ⟨some productId, qty⟩ s).1.production_orders =
        s.production_orders ++ [{
          orgId := org.id
          productId := productId
          quantity := qty
          totalCost :=
            (product.data.bom.map fun item =>
              item.quantity * qty * materialAverageCost s item.materialId).sum
          unitCost :=
            (product.data.bom.map fun item =>
              item.quantity * qty * materialAverageCost s item.materialId).sum / qty
          status := .completed }] := by
  have hsum : (product.data.bom.map fun item =>
      item.quantity * qty * materialAverageCost s item.materialId).sum =
      consumedMaterialCost s product.data.bom qty := by
    unfold consumedMaterialCost
    congr 1
    apply List.map_congr_left
    intro item _
    ring
  rw [hsum]
  cases organization with
  | none => simp [handleProductionRun] at hsucc
  | some org =>
    by_cases hq : qty ≤ 0
    · simp [handleProductionRun, hq] at hsucc
    by_cases hlen : product.data.bom.length = 0
    · simp [handleProductionRun, hq, hfind, hlen] at hsucc
    refine ⟨lt_of_not_ge hq, org, rfl, ?_⟩
    cases hval : validateMaterials qty (readMaterials s product.data.bom) 0 [] with
    | error e =>
      simp [handleProductionRun, hq, hfind, hlen, runTransaction, productionTransaction, hval]
        at hsucc
    | ok res =>
      obtain ⟨T, us⟩ := res
      have hT := validateMaterials_totalCost s qty product.data.bom 0 [] T us hval
      rw [zero_add] at hT
      simp only [handleProductionRun, hq, hfind, hlen, runTransaction, productionTransaction,
        hval, if_false, commit_append] at hsucc ⊢
      cases hc : commit s (materialWrites org us) with
      | none => simp [hc] at hsucc
      | some s1 =>
        have hframe := commit_materialWrites_frame org us s s1 hc
        cases hinv : s.inventory_items productId with
        | none =>
          simp [hc, commit, applyWrite, inventoryWrite, hinv, hframe.2.2.2.2.1, hT]
        | some it =>
          simp [hc, commit, applyWrite, inventoryWrite, hinv, hframe.1, hframe.2.2.2.2.1, hT]

/-- Witness of C18: 10 units needing 2 each of a material at 160/3 give a
production order of total cost 3200/3 and unit cost 320/3. -/
theorem production_order_record_witness :
    (handleProductionRun (some acme) [productOneLine] ⟨some 5, 10⟩ storeBeforeRun).2 = .success ∧
    (handleProductionRun (some acme) [productOneLine] ⟨some 5, 10⟩
        storeBeforeRun).1.production_orders
        = [{ orgId := 7, productId := 5, quantity := 10, totalCost := 3200 / 3,
             unitCost := 320 / 3, status := .completed }] := by
  have hs : (handleProductionRun (some acme) [productOneLine] ⟨some 5, 10⟩ storeBeforeRun).2
      = .success := by
    norm_num [handleProductionRun, productOneLine, runTransaction, productionTransaction,
      readMaterials, validateMaterials, storeBeforeRun, setDoc, materialWrites, commit,
      applyWrite, inventoryWrite, inventoryValues, emptyStore, acme]
  obtain ⟨_, org, horg, h⟩ := production_order_record (some acme) [productOneLine] 5
    productOneLine 10 storeBeforeRun (by simp [productOneLine]) hs
  cases horg
  refine ⟨hs, ?_⟩
  rw [h]
  norm_num [materialAverageCost, productOneLine, storeBeforeRun, setDoc, emptyStore, acme]

/-- C19: with incoming quantity `> 0` and incoming cost `>= 0`, on a stored
quantity and average cost that are `>= 0` the divisor of the average cost is
positive and the average cost written is `>= 0`, for Purchase and for
ProductionRun; Purchase, on any stored quantity, writes average cost 0 when the
resulting quantity is at most 0. -/
theorem costing_never_negative
    (org : Organization) (sel : Listed RawMaterial) (n c : ℚ) (s : Store) (m : RawMaterial)
    (organization : Option Organization) (products : List (Listed Product))
    (productId : DocId) (product : Listed Product) (qty : ℚ) (s2 : Store)
    (hm : s.raw_materials sel.id = some m) (hn : 0 < n) (hc : 0 ≤ c)
    (hfind : products.find? (fun p => p.id == productId) = some product)
    (hsucc : (handleProductionRun organization products ⟨some productId, qty⟩ s2).2 = .success) :
    (0 ≤ m.quantity → 0 ≤ m.averageCost →
      0 < m.quantity + n ∧
      ∃ m1, (handlePurchase (some org) (some sel) ⟨n, c⟩ s).1.raw_materials sel.id = some m1 ∧
        m1.averageCost = (m.quantity * m.averageCost + c) / (m.quantity + n) ∧
        0 ≤ m1.averageCost) ∧
    (m.quantity + n ≤ 0 →
      ∃ m1, (handlePurchase (some org) (some sel) ⟨n, c⟩ s).1.raw_materials sel.id = some m1 ∧
        m1.quantity = m.quantity + n ∧ m1.averageCost = 0) ∧
    (0 ≤ priorQuantity s2 productId → 0 ≤ priorAverageCost s2 productId →
      0 ≤ consumedMaterialCost s2 product.data.bom qty →
      0 < qty ∧ 0 < priorQuantity s2 productId + qty ∧
      ∃ item,
        (handleProductionRun organization products ⟨some productId, qty⟩ s2).1.inventory_items
          productId = some item ∧
        item.averageCost =
          (priorQuantity s2 productId * priorAverageCost s2 productId +
            consumedMaterialCost s2 product.data.bom qty) / (priorQuantity s2 productId + qty) ∧
        0 ≤ item.averageCost) := by
  have hguard : ¬ (n ≤ 0 ∨ c < 0) := by
    rintro (h | h) <;> linarith
  refine ⟨?_, ?_, ?_⟩
  · intro hq ha
    have hpos : 0 < m.quantity + n := by linarith
    refine ⟨hpos, ⟨m.orgId, m.quantity + n,
      (m.quantity * m.averageCost + c) / (m.quantity + n)⟩, ?_, rfl, ?_⟩
    · simp [handlePurchase, hguard, runTransaction, purchaseTransaction, hm, commit, applyWrite,
        hpos]
    · exact div_nonneg (add_nonneg (mul_nonneg hq ha) hc) (le_of_lt hpos)
  · intro hle
    have hnpos : ¬ 0 < m.quantity + n := not_lt.mpr hle
    refine ⟨⟨m.orgId, m.quantity + n, 0⟩, ?_, rfl, rfl⟩
    simp [handlePurchase, hguard, runTransaction, purchaseTransaction, hm, commit, applyWrite,
      hnpos]
  · intro hQ hA hT
    obtain ⟨hqty, _, _, _⟩ := production_success_validates organization products productId
      product qty s2 hfind hsucc
    obtain ⟨_, item, hitem, hiq, hia⟩ := production_inventory_items_after organization products
      productId product qty s2 hfind hsucc
    have hpos : 0 < priorQuantity s2 productId + qty := by linarith
    have havg : item.averageCost =
        (priorQuantity s2 productId * priorAverageCost s2 productId +
          consumedMaterialCost s2 product.data.bom qty) / (priorQuantity s2 productId + qty) := by
      rw [hia]
      unfold inventoryValues priorQuantity priorAverageCost
      cases hinv : s2.inventory_items productId with
      | none => simp
      | some inv => simp
    refine ⟨hqty, hpos, item, hitem, havg, ?_⟩
    rw [havg]
    exact div_nonneg (add_nonneg (mul_nonneg hQ hA) hT) (le_of_lt hpos)

/-- Witness of C19: the second purchase of the example writes 160/3 and the run
writes 320/3, both non-negative. -/
theorem costing_never_negative_witness :
    (∃ m1, (handlePurchase (some acme) (some ⟨1, ⟨7, 100, 50⟩⟩) ⟨50, 3000⟩
        storeAfterPurchase).1.raw_materials 1 = some m1 ∧
      m1.averageCost = 160 / 3 ∧ 0 ≤ m1.averageCost) ∧
    (∃ item, (handleProductionRun (some acme) [productOneLine] ⟨some 5, 10⟩
        storeBeforeRun).1.inventory_items 5 = some item ∧
      item.averageCost = 320 / 3 ∧ 0 ≤ item.averageCost) := by
  have hs : (handleProductionRun (some acme) [productOneLine] ⟨some 5, 10⟩ storeBeforeRun).2
      = .success := by
    norm_num [handleProductionRun, productOneLine, runTransaction, productionTransaction,
      readMaterials, validateMaterials, storeBeforeRun, setDoc, materialWrites, commit,
      applyWrite, inventoryWrite, inventoryValues, emptyStore, acme]
  have h := costing_never_negative acme ⟨1, ⟨7, 100, 50⟩⟩ 50 3000 storeAfterPurchase
    ⟨7, 100, 50⟩ (some acme) [productOneLine] 5 productOneLine 10 storeBeforeRun
    (by simp [storeAfterPurchase]) (by norm_num) (by norm_num) (by simp [productOneLine]) hs
  have hQ : priorQuantity storeBeforeRun 5 = 0 := by
    simp [priorQuantity, storeBeforeRun, emptyStore]
  have hA : priorAverageCost storeBeforeRun 5 = 0 := by
    simp [priorAverageCost, storeBeforeRun, emptyStore]
  have hT : consumedMaterialCost storeBeforeRun productOneLine.data.bom 10 = 3200 / 3 := by
    norm_num [consumedMaterialCost, materialAverageCost, productOneLine, storeBeforeRun, setDoc]
  obtain ⟨_, m1, hm1, hm1a, hm1n⟩ := h.1 (by norm_num) (by norm_num)
  obtain ⟨_, _, item, hitem, hia, hin⟩ := h.2.2 (by rw [hQ]) (by rw [hA])
    (by rw [hT]; norm_num)
  rw [hQ, hA, hT] at hia
  refine ⟨⟨m1, hm1, ?_, hm1n⟩, ⟨item, hitem, ?_, hin⟩⟩
  · rw [hm1a]
    norm_num
  · rw [hia]
    norm_num

/-- C20: the end-to-end example in exact arithmetic.  From material 1 at (0, 0),
purchases of 100 for 5000 and 50 for 3000, a run of 10 units at 2 per unit with
no finished goods yet, and the delivery of 5 units leave the material at
quantity 130 and average cost 160/3, the finished good at quantity 5 and
average cost 320/3, and the cost 1600/3 on the order. -/
theorem end_to_end_costing_example :
    storeEndToEnd.raw_materials 1 = some { orgId := 7, quantity := 0, averageCost := 0 } ∧
    storeEndToEnd.inventory_items 5 = none ∧
    storeAfterTwoPurchases.raw_materials 1
        = some { orgId := 7, quantity := 150, averageCost := 160 / 3 } ∧
    (handleProductionRun (some acme) [productOneLine] ⟨some 5, 10⟩ storeAfterTwoPurchases).2
        = .success ∧
    storeAfterRun.raw_materials 1
        = some { orgId := 7, quantity := 130, averageCost := 160 / 3 } ∧
    storeAfterRun.inventory_items 5
        = some { productId := 5, orgId := 7, quantity := 10, averageCost := 320 / 3 } ∧
    (handleDeliver (some acme) true deliveryInstant orderFiveUnits storeAfterRun).2
        = .success ∧
    storeAfterDelivery.raw_materials 1
        = some { orgId := 7, quantity := 130, averageCost := 160 / 3 } ∧
    storeAfterDelivery.inventory_items 5
        = some { productId := 5, orgId := 7, quantity := 5, averageCost := 320 / 3 } ∧
    storeAfterDelivery.sales_orders 9
        = some { orgId := 7, items := [⟨5, 5, 200⟩], totalAmount := 1000,
                 status := .delivered, totalCost := some (1600 / 3) } := by
  refine ⟨?_, ?_, ?_, ?_, ?_, ?_, ?_, ?_, ?_, ?_⟩ <;>
  norm_num [storeAfterDelivery, storeAfterRun, storeAfterTwoPurchases, handleDeliver,
    handleProductionRun, handlePurchase, runTransaction, deliverTransaction,
    productionTransaction, purchaseTransaction, readInventory, validateInventory,
    inventoryWrites, readMaterials, validateMaterials, materialWrites, inventoryWrite,
    inventoryValues, commit, applyWrite, setDoc, storeEndToEnd, emptyStore, acme,
    orderFiveUnits, productOneLine]

/-! ## Repeated and reordered purchases -/

/-- C21: a valid purchase (`n > 0`, `c >= 0`) of a stored material is not
idempotent.  Run once it leaves quantity `q + n`, one more purchase log and one
more cash outflow; run a second time on the store the first left, it succeeds
again and leaves quantity `q + 2 * n`, two purchase logs of `+n` and two cash
outflows of `c`, a store different from the one after the first run. -/
theorem purchase_not_idempotent (org : Organization) (sel : Listed RawMaterial)
    (n c : ℚ) (s : Store) (m : RawMaterial)
    (hm : s.raw_materials sel.id = some m) (hn : 0 < n) (hc : 0 ≤ c) :
    (handlePurchase (some org) (some sel) ⟨n, c⟩ s).2 = .success ∧
    (handlePurchase (some org) (some sel) ⟨n, c⟩
      (handlePurchase (some org) (some sel) ⟨n, c⟩ s).1).2 = .success ∧
    (∃ m1, (handlePurchase (some org) (some sel) ⟨n, c⟩ s).1.raw_materials sel.id = some m1 ∧
      m1.quantity = m.quantity + n) ∧
    (∃ m2, (handlePurchase (some org) (some sel) ⟨n, c⟩
        (handlePurchase (some org) (some sel) ⟨n, c⟩ s).1).1.raw_materials sel.id = some m2 ∧
      m2.quantity = m.quantity + 2 * n) ∧
    (∃ l1, (handlePurchase (some org) (some sel) ⟨n, c⟩ s).1.raw_material_logs =
        s.raw_material_logs ++ [l1]) ∧
    (∃ l1 l2, (handlePurchase (some org) (some sel) ⟨n, c⟩
        (handlePurchase (some org) (some sel) ⟨n, c⟩ s).1).1.raw_material_logs =
        s.raw_material_logs ++ [l1, l2] ∧
      l1.type = .purchase ∧ l1.materialId = sel.id ∧ l1.quantityChange = n ∧
      l2.type = .purchase ∧ l2.materialId = sel.id ∧ l2.quantityChange = n) ∧
    (∃ e1, (handlePurchase (some org) (some sel) ⟨n, c⟩ s).1.cashflow_entries =
        s.cashflow_entries ++ [e1]) ∧
    (∃ e1 e2, (handlePurchase (some org) (some sel) ⟨n, c⟩
        (handlePurchase (some org) (some sel) ⟨n, c⟩ s).1).1.cashflow_entries =
        s.cashflow_entries ++ [e1, e2] ∧
      e1.type = .outflow ∧ e1.category = .purchase ∧ e1.amount = c ∧
      e2.type = .outflow ∧ e2.category = .purchase ∧ e2.amount = c) ∧
    (handlePurchase (some org) (some sel) ⟨n, c⟩
      (handlePurchase (some org) (some sel) ⟨n, c⟩ s).1).1 ≠
      (handlePurchase (some org) (some sel) ⟨n, c⟩ s).1 := by
  obtain ⟨h1s, h1m, h1l, h1c⟩ := handlePurchase_valid org sel n c s m hm hn hc
  have hm1 : (handlePurchase (some org) (some sel) ⟨n, c⟩ s).1.raw_materials sel.id =
      some (purchasedMaterial m n c) := by rw [h1m]; simp
  obtain ⟨h2s, h2m, h2l, h2c⟩ := handlePurchase_valid org sel n c _ _ hm1 hn hc
  have hq2 : (purchasedMaterial (purchasedMaterial m n c) n c).quantity = m.quantity + 2 * n := by
    simp only [purchasedMaterial]; ring
  refine ⟨h1s, h2s, ⟨_, hm1, rfl⟩, ⟨_, by rw [h2m]; simp, hq2⟩, ⟨_, h1l⟩,
    ⟨_, _, by rw [h2l, h1l, List.append_assoc]; rfl, rfl, rfl, rfl, rfl, rfl, rfl⟩, ⟨_, h1c⟩,
    ⟨_, _, by rw [h2c, h1c, List.append_assoc]; rfl, rfl, rfl, rfl, rfl, rfl, rfl⟩, ?_⟩
  intro hEq
  have h := congrArg (fun t => t.raw_materials sel.id) hEq
  simp only [h2m, hm1, setDoc_same, Option.some.injEq] at h
  have hq := congrArg RawMaterial.quantity h
  rw [hq2] at hq
  simp only [purchasedMaterial] at hq
  linarith

/-- Witness of C21 on the example of the specification: 100 units for 5000 bought
twice on the fresh material leave 200 units, not 100. -/
theorem purchase_not_idempotent_witness :
    storeFreshMaterial.raw_materials 1 = some ⟨7, 0, 0⟩ ∧
    (∃ m2, (handlePurchase (some acme) (some ⟨1, ⟨7, 0, 0⟩⟩) ⟨100, 5000⟩
        (handlePurchase (some acme) (some ⟨1, ⟨7, 0, 0⟩⟩) ⟨100, 5000⟩
          storeFreshMaterial).1).1.raw_materials 1 = some m2 ∧ m2.quantity = 200) := by
  have h := purchase_not_idempotent acme ⟨1, ⟨7, 0, 0⟩⟩ 100 5000 storeFreshMaterial ⟨7, 0, 0⟩
    (by simp [storeFreshMaterial]) (by norm_num) (by norm_num)
  obtain ⟨m2, hm2, hq⟩ := h.2.2.2.1
  exact ⟨by simp [storeFreshMaterial], m2, hm2, by rw [hq]; norm_num⟩

/-! ## Cached bill of materials, tenant scoping and ordering inside a transaction -/

/-- Counterexample to C22 as stated: the store holds product 5 with a BOM of two
lines, materials 1 and 2, while the `products` array of the page still holds
the copy with the single line of material 1.  A run of 2 units succeeds on the
cached BOM: material 2 is left at 5 and the order costs 4.  On the same store
and the same request, the array that lists the stored document gives another
outcome: material 2 goes to 3 and the order costs 12. -/
theorem production_uses_cached_bom :
    storeEditedBom.products 5 = some productTwoLines.data ∧
    productOneLine.data ≠ productTwoLines.data ∧
    (handleProductionRun (some acme) [productOneLine] ⟨some 5, 2⟩ storeEditedBom).2 = .success ∧
    (handleProductionRun (some acme) [productOneLine] ⟨some 5, 2⟩
      storeEditedBom).1.raw_materials 2 = some ⟨7, 5, 4⟩ ∧
    (handleProductionRun (some acme) [productOneLine] ⟨some 5, 2⟩
      storeEditedBom).1.production_orders = [⟨7, 5, 2, 4, 2, .completed⟩] ∧
    (handleProductionRun (some acme) [productTwoLines] ⟨some 5, 2⟩ storeEditedBom).2 = .success ∧
    (handleProductionRun (some acme) [productTwoLines] ⟨some 5, 2⟩
      storeEditedBom).1.raw_materials 2 = some ⟨7, 3, 4⟩ ∧
    (handleProductionRun (some acme) [productTwoLines] ⟨some 5, 2⟩
      storeEditedBom).1.production_orders = [⟨7, 5, 2, 12, 6, .completed⟩] := by
  refine ⟨?_, ?_, ?_, ?_, ?_, ?_, ?_, ?_⟩
  · simp [storeEditedBom]
  · simp [productOneLine, productTwoLines]
  all_goals
    norm_num [handleProductionRun, productOneLine, productTwoLines, runTransaction,
      productionTransaction, readMaterials, validateMaterials, inventoryValues, materialWrites,
      inventoryWrite, commit, applyWrite, setDoc, storeEditedBom, storeTwoMaterials, emptyStore,
      acme]

/-- C22, as amended: a production run takes the BOM from the `products` array of
the page and never reads the stored product document.  Two arrays that list
the same copy of the product give the same result, and replacing the stored
products by any others changes nothing in the outcome nor in what is written:
the result is determined by the raw materials and inventory items of the
snapshot, the request, the organization and the listed copy of the product. -/
theorem production_reads_listed_product (organization : Option Organization)
    (products1 products2 : List (Listed Product)) (productId : DocId) (qty : ℚ) (s : Store)
    (P : DocId → Option Product)
    (hlisted : products1.find? (fun p => p.id == productId) =
      products2.find? (fun p => p.id == productId)) :
    handleProductionRun organization products1 ⟨some productId, qty⟩ s =
      handleProductionRun organization products2 ⟨some productId, qty⟩ s ∧
    handleProductionRun organization products1 ⟨some productId, qty⟩ { s with products := P } =
      ({ (handleProductionRun organization products1 ⟨some productId, qty⟩ s).1 with
          products := P },
        (handleProductionRun organization products1 ⟨some productId, qty⟩ s).2) := by
  constructor
  · cases organization with
    | none => rfl
    | some org => simp only [handleProductionRun, hlisted]
  · cases organization with
    | none => rfl
    | some org =>
      by_cases hq : qty ≤ 0
      · simp [handleProductionRun, hq]
      cases hfind : products1.find? (fun p => p.id == productId) with
      | none => simp [handleProductionRun, hq, hfind]
      | some product =>
        by_cases hlen : product.data.bom.length = 0
        · simp [handleProductionRun, hq, hfind, hlen]
        · have htx : productionTransaction org productId product.data qty
              { s with products := P } =
              productionTransaction org productId product.data qty s := rfl
          simp only [handleProductionRun, hq, hfind, hlen, if_false, runTransaction, htx]
          cases productionTransaction org productId product.data qty s with
          | error e => rfl
          | ok ws =>
            simp only [commit_products]
            cases commit s ws <;> rfl

/-- Witness of C22, as amended: on the store whose product 5 has two BOM lines,
the run with the one-line copy gives the same result whatever else the array
lists, and the same writes as on the store with no product stored at all. -/
theorem production_reads_listed_product_witness :
    handleProductionRun (some acme) [productOneLine] ⟨some 5, 2⟩ storeEditedBom =
      handleProductionRun (some acme) [productOneLine, productTwoLines] ⟨some 5, 2⟩
        storeEditedBom ∧
    (handleProductionRun (some acme) [productOneLine] ⟨some 5, 2⟩ storeEditedBom).1.raw_materials
      = (handleProductionRun (some acme) [productOneLine] ⟨some 5, 2⟩
          storeTwoMaterials).1.raw_materials := by
  have h := production_reads_listed_product (some acme) [productOneLine]
    [productOneLine, productTwoLines] 5 2 storeTwoMaterials
    (setDoc emptyStore.products 5 productTwoLines.data) (by simp [productOneLine])
  have hst : storeEditedBom =
      { storeTwoMaterials with products := setDoc emptyStore.products 5 productTwoLines.data } :=
    rfl
  have h1 := (production_reads_listed_product (some acme) [productOneLine]
    [productOneLine, productTwoLines] 5 2 storeEditedBom
    (setDoc emptyStore.products 5 productTwoLines.data) (by simp [productOneLine])).1
  refine ⟨h1, ?_⟩
  rw [hst, h.2]

/-- C23: every document a handler creates carries the `orgId` of the current
organization.  For the five transactions: every staged write that creates a
document (raw-material log, cash-flow entry, inventory item, inventory log,
production order, receivable, collection).  For the `addDoc` handlers: the raw
material, the product, the sales order, the expense and its cash-flow entry. -/
theorem created_documents_carry_orgId (org : Organization) (s : Store) :
    (∀ materialId quantity cost ws,
      purchaseTransaction org materialId quantity cost s = .ok ws →
      ∀ w ∈ ws, ∀ o, w.createdOrgId = some o → o = org.id) ∧
    (∀ productId product qty ws,
      productionTransaction org productId product qty s = .ok ws →
      ∀ w ∈ ws, ∀ o, w.createdOrgId = some o → o = org.id) ∧
    (∀ now order ws,
      deliverTransaction (some org) now order s = .ok ws →
      ∀ w ∈ ws, ∀ o, w.createdOrgId = some o → o = org.id) ∧
    (∀ sel amount ws,
      collectionTransaction (some org) sel amount s = .ok ws →
      ∀ w ∈ ws, ∀ o, w.createdOrgId = some o → o = org.id) ∧
    (∀ itemId adjustment actualChange ws,
      adjustmentTransaction org itemId adjustment actualChange s = .ok ws →
      ∀ w ∈ ws, ∀ o, w.createdOrgId = some o → o = org.id) ∧
    (∀ newId, ((handleAddMaterial (some org) newId s).1.raw_materials newId).map
      (fun d => d.orgId) = some org.id) ∧
    (∀ newId, ((handleAddProduct (some org) newId s).1.products newId).map
      (fun d => d.orgId) = some org.id) ∧
    (∀ newOrder newId, (handleCreateOrder (some org) newOrder newId s).2 = .success →
      ((handleCreateOrder (some org) newOrder newId s).1.sales_orders newId).map
        (fun d => d.orgId) = some org.id) ∧
    (∀ newExpense, (handleAddExpense (some org) newExpense s).2 = .success →
      ∃ e c, (handleAddExpense (some org) newExpense s).1.expenses = s.expenses ++ [e] ∧
        (handleAddExpense (some org) newExpense s).1.cashflow_entries =
          s.cashflow_entries ++ [c] ∧ e.orgId = org.id ∧ c.orgId = org.id) := by
  have hmw : ∀ us : List MaterialUpdate, ∀ w ∈ materialWrites org us,
      ∀ o, w.createdOrgId = some o → o = org.id := by
    intro us
    induction us with
    | nil => intro w hw; simp [materialWrites] at hw
    | cons u rest ih =>
      intro w hw o ho
      simp only [materialWrites, List.mem_cons] at hw
      rcases hw with rfl | rfl | hw
      · simp [Write.createdOrgId] at ho
      · simp only [Write.createdOrgId, Option.some.injEq] at ho; exact ho.symm
      · exact ih w hw o ho
  have hiw : ∀ (orderId : DocId) (us : List InventoryUpdate),
      ∀ w ∈ inventoryWrites org orderId us, ∀ o, w.createdOrgId = some o → o = org.id := by
    intro orderId us
    induction us with
    | nil => intro w hw; simp [inventoryWrites] at hw
    | cons u rest ih =>
      intro w hw o ho
      simp only [inventoryWrites, List.mem_cons] at hw
      rcases hw with rfl | rfl | hw
      · simp [Write.createdOrgId] at ho
      · simp only [Write.createdOrgId, Option.some.injEq] at ho; exact ho.symm
      · exact ih w hw o ho
  refine ⟨?_, ?_, ?_, ?_, ?_, ?_, ?_, ?_, ?_⟩
  · intro materialId quantity cost ws h w hw o ho
    simp only [purchaseTransaction] at h
    cases hm : s.raw_materials materialId with
    | none => simp [hm] at h
    | some m =>
      simp only [hm, Except.ok.injEq] at h
      subst h
      simp only [List.mem_cons, List.mem_singleton, List.not_mem_nil, or_false] at hw
      rcases hw with rfl | rfl | rfl
      · simp [Write.createdOrgId] at ho
      · simp only [Write.createdOrgId, Option.some.injEq] at ho; exact ho.symm
      · simp only [Write.createdOrgId, Option.some.injEq] at ho; exact ho.symm
  · intro productId product qty ws h w hw o ho
    simp only [productionTransaction] at h
    cases hval : validateMaterials qty (readMaterials s product.bom) 0 [] with
    | error e => simp [hval] at h
    | ok r =>
      obtain ⟨T, us⟩ := r
      simp only [hval, Except.ok.injEq] at h
      subst h
      simp only [List.mem_append, List.mem_cons, List.mem_singleton, List.not_mem_nil,
        or_false] at hw
      rcases hw with hw | rfl | rfl | rfl
      · exact hmw us w hw o ho
      · cases hinv : s.inventory_items productId with
        | none =>
          simp only [inventoryWrite, hinv, Write.createdOrgId, Option.some.injEq] at ho
          exact ho.symm
        | some it => simp [inventoryWrite, hinv, Write.createdOrgId] at ho
      · simp only [Write.createdOrgId, Option.some.injEq] at ho; exact ho.symm
      · simp only [Write.createdOrgId, Option.some.injEq] at ho; exact ho.symm
  · intro now order ws h w hw o ho
    simp only [deliverTransaction] at h
    cases hval : validateInventory (readInventory s order.data.items) 0 [] with
    | error e => simp [hval] at h
    | ok r =>
      obtain ⟨C, us⟩ := r
      simp only [hval, Except.ok.injEq] at h
      subst h
      simp only [List.mem_append, List.mem_cons, List.mem_singleton, List.not_mem_nil,
        or_false] at hw
      rcases hw with hw | rfl | rfl
      · exact hiw order.id us w hw o ho
      · simp only [Write.createdOrgId, Option.some.injEq] at ho; exact ho.symm
      · simp [Write.createdOrgId] at ho
  · intro sel amount ws h w hw o ho
    simp only [collectionTransaction] at h
    cases hr : s.receivables[sel.id]? with
    | none => simp [hr] at h
    | some data =>
      simp only [hr, Except.ok.injEq] at h
      subst h
      simp only [List.mem_cons, List.mem_singleton, List.not_mem_nil, or_false] at hw
      rcases hw with rfl | rfl | rfl
      · simp [Write.createdOrgId] at ho
      · simp only [Write.createdOrgId, Option.some.injEq] at ho; exact ho.symm
      · simp only [Write.createdOrgId, Option.some.injEq] at ho; exact ho.symm
  · intro itemId adjustment actualChange ws h w hw o ho
    simp only [adjustmentTransaction] at h
    cases hi : s.inventory_items itemId with
    | none => simp [hi] at h
    | some data =>
      by_cases hneg : data.quantity + actualChange < 0
      · simp [hi, hneg] at h
      · simp only [hi, hneg, if_false, Except.ok.injEq] at h
        subst h
        simp only [List.mem_cons, List.mem_singleton, List.not_mem_nil, or_false] at hw
        rcases hw with rfl | rfl
        · simp [Write.createdOrgId] at ho
        · simp only [Write.createdOrgId, Option.some.injEq] at ho; exact ho.symm
  · intro newId; simp [handleAddMaterial]
  · intro newId; simp [handleAddProduct]
  · intro newOrder newId h
    by_cases hg : newOrder.customerName = "" ∨ newOrder.items = []
    · simp [handleCreateOrder, hg] at h
    · simp [handleCreateOrder, hg]
  · intro newExpense h
    cases ha : newExpense.amount with
    | none => simp [handleAddExpense, ha] at h
    | some amount =>
      exact ⟨{ orgId := org.id, amount := amount },
        { orgId := org.id, type := .outflow, category := .expense, amount := amount },
        by simp [handleAddExpense, ha], by simp [handleAddExpense, ha], rfl, rfl⟩

/-- C24 (failing input): a page is mounted under organization 7 and its listener
delivers the materials of organization 7; then the current organization becomes
organization 8 and the effect runs again.  Until a snapshot of the new query
arrives, and for good when the new listener reports an error, `useFirestore`
still returns the two materials of organization 7. -/
theorem useFirestore_returns_previous_tenant :
    (useFirestore (fun m : RawMaterial => m.orgId) []
      [.effect (some acme), .snapshot materialsOfTwoTenants, .effect (some ⟨8⟩)]).data =
      [⟨1, ⟨7, 100, 50⟩⟩, ⟨3, ⟨7, 5, 1⟩⟩] ∧
    (useFirestore (fun m : RawMaterial => m.orgId) []
      [.effect (some acme), .snapshot materialsOfTwoTenants, .effect (some ⟨8⟩)]).listening =
      some ⟨8⟩ ∧
    (useFirestore (fun m : RawMaterial => m.orgId) []
      [.effect (some acme), .snapshot materialsOfTwoTenants, .effect (some ⟨8⟩),
        .listenerError]).data =
      [⟨1, ⟨7, 100, 50⟩⟩, ⟨3, ⟨7, 5, 1⟩⟩] ∧
    (useFirestore (fun m : RawMaterial => m.orgId) []
      [.effect (some acme), .snapshot materialsOfTwoTenants, .effect (some ⟨8⟩),
        .listenerError]).loading = false ∧
    (useFirestore (fun m : RawMaterial => m.orgId) []
      [.effect (some acme), .snapshot materialsOfTwoTenants, .effect (some ⟨8⟩),
        .snapshot materialsOfTwoTenants]).data = [⟨2, ⟨8, 30, 4⟩⟩] := by
  refine ⟨?_, ?_, ?_, ?_, ?_⟩ <;>
    simp [useFirestore, HookState.step, HookState.initial, tenantQuery, runQuery,
      QueryConstraint.apply, materialsOfTwoTenants, acme, List.filter]

/-- C25: read-before-write ordering.  For each of the five transactions
(purchase, production run, sales delivery, collection, manual adjustment), on
every snapshot and every input, the calls the update function makes on the
`transaction` object contain no `transaction.get` after a `transaction.update`
or `transaction.set`, and no throw of a validation failure after one; and the
call-by-call update function hands `runTransaction` the same failure or the
same staged writes as the transaction body the other theorems are about. -/
theorem reads_before_writes (s : Store) :
    (∀ org materialId quantity cost,
      (purchaseTx org materialId quantity cost).result s =
        purchaseTransaction org materialId quantity cost s ∧
      noReadAfterWrite ((purchaseTx org materialId quantity cost).ops s) ∧
      noValidationFailureAfterWrite ((purchaseTx org materialId quantity cost).ops s)) ∧
    (∀ org productId product qty,
      (productionTx org productId product qty).result s =
        productionTransaction org productId product qty s ∧
      noReadAfterWrite ((productionTx org productId product qty).ops s) ∧
      noValidationFailureAfterWrite ((productionTx org productId product qty).ops s)) ∧
    (∀ organization now order,
      (deliverTx organization now order).result s =
        deliverTransaction organization now order s ∧
      noReadAfterWrite ((deliverTx organization now order).ops s) ∧
      noValidationFailureAfterWrite ((deliverTx organization now order).ops s)) ∧
    (∀ organization selectedReceivable amount,
      (collectionTx organization selectedReceivable amount).result s =
        collectionTransaction organization selectedReceivable amount s ∧
      noReadAfterWrite ((collectionTx organization selectedReceivable amount).ops s) ∧
      noValidationFailureAfterWrite
        ((collectionTx organization selectedReceivable amount).ops s)) ∧
    (∀ org itemId adjustment actualChange,
      (adjustmentTx org itemId adjustment actualChange).result s =
        adjustmentTransaction org itemId adjustment actualChange s ∧
      noReadAfterWrite ((adjustmentTx org itemId adjustment actualChange).ops s) ∧
      noValidationFailureAfterWrite
        ((adjustmentTx org itemId adjustment actualChange).ops s)) :=
  ⟨fun org materialId quantity cost =>
      ⟨purchaseTx_result org materialId quantity cost s,
        purchaseTx_ordered org materialId quantity cost s⟩,
    fun org productId product qty =>
      ⟨productionTx_result org productId product qty s,
        productionTx_ordered org productId product qty s⟩,
    fun organization now order =>
      ⟨deliverTx_result organization now order s, deliverTx_ordered organization now order s⟩,
    fun organization selectedReceivable amount =>
      ⟨collectionTx_result organization selectedReceivable amount s,
        collectionTx_ordered organization selectedReceivable amount s⟩,
    fun org itemId adjustment actualChange =>
      ⟨adjustmentTx_result org itemId adjustment actualChange s,
        adjustmentTx_ordered org itemId adjustment actualChange s⟩⟩

/-- Witness of C25 on a production run of 10 units of the product whose two BOM
lines both name material 1: three reads, then the writes. -/
theorem reads_before_writes_witness :
    ((productionTx acme 5 productRepeatedMaterial.data 10).ops storeOneMaterial).map
        (fun op => op.isRead) =
      [true, true, true, false, false, false, false, false, false, false] ∧
    ((productionTx acme 5 productRepeatedMaterial.data 10).ops storeOneMaterial).map
        (fun op => op.isWrite) =
      [false, false, false, true, true, true, true, true, true, true] ∧
    noReadAfterWrite ((productionTx acme 5 productRepeatedMaterial.data 10).ops
      storeOneMaterial) := by
  have h := ((reads_before_writes storeOneMaterial).2.1 acme 5 productRepeatedMaterial.data
    10).2.1
  refine ⟨?_, ?_, h⟩ <;>
    norm_num [productionTx, readMaterialsTx, Tx.ops, Tx.stage, productRepeatedMaterial,
      validateMaterials, materialWrites, storeOneMaterial, emptyStore, setDoc, Op.isRead,
      Op.isWrite]

/-! ## Order creation, cost frames and value conservation -/

/-- C27: with a current organization, a customer name and at least one line
item, `handleCreateOrder` succeeds and stores an order with `totalAmount` the
sum over its line items of `quantity * unitPrice`, status `pending`, the line
items of the form and no `totalCost`; the other orders are left as they
were. -/
theorem create_order_total_and_status (org : Organization) (newOrder : NewOrder)
    (newId : DocId) (s : Store)
    (hname : newOrder.customerName ≠ "") (hitems : newOrder.items ≠ []) :
    (handleCreateOrder (some org) newOrder newId s).2 = .success ∧
    (handleCreateOrder (some org) newOrder newId s).1.sales_orders newId =
      some { orgId := org.id
             items := newOrder.items
             totalAmount := (newOrder.items.map fun item => item.quantity * item.unitPrice).sum
             status := .pending
             totalCost := none } ∧
    (∀ id, id ≠ newId →
      (handleCreateOrder (some org) newOrder newId s).1.sales_orders id = s.sales_orders id) := by
  refine ⟨?_, ?_, ?_⟩
  · simp [handleCreateOrder, hname, hitems]
  · simp [handleCreateOrder, hname, hitems, foldl_line_amounts]
  · intro id hid
    simp [handleCreateOrder, hname, hitems, setDoc_other _ _ _ _ hid]

/-- Witness of C27: 3 units at 10 and 2 units at 25 give a pending order of
total 80. -/
theorem create_order_total_and_status_witness :
    newOrderTwoLines.customerName ≠ "" ∧
    (handleCreateOrder (some acme) newOrderTwoLines 9 emptyStore).1.sales_orders 9 =
      some ⟨7, [⟨5, 3, 10⟩, ⟨6, 2, 25⟩], 80, .pending, none⟩ := by
  have h := (create_order_total_and_status acme newOrderTwoLines 9 emptyStore
    (by simp [newOrderTwoLines]) (by simp [newOrderTwoLines])).2.1
  refine ⟨by simp [newOrderTwoLines], ?_⟩
  rw [h]
  norm_num [newOrderTwoLines, acme]

/-- C28: outbound and corrective movements never change cost.  After a
production run every stored raw material, after a delivery and after a manual
adjustment (add or deduct) every stored inventory item, still exists with the
average cost (and owner, and product) it had before: only its quantity can
have changed. -/
theorem outbound_movements_keep_average_cost (s : Store) :
    (∀ organization products productionData id m, s.raw_materials id = some m →
      ∃ m1, (handleProductionRun organization products productionData s).1.raw_materials id =
        some m1 ∧ m1.averageCost = m.averageCost ∧ m1.orgId = m.orgId) ∧
    (∀ organization confirmed now order id inv, s.inventory_items id = some inv →
      ∃ inv1, (handleDeliver organization confirmed now order s).1.inventory_items id =
        some inv1 ∧ inv1.averageCost = inv.averageCost ∧ inv1.productId = inv.productId ∧
        inv1.orgId = inv.orgId) ∧
    (∀ organization selectedItem adjustment id inv, s.inventory_items id = some inv →
      ∃ inv1, (handleadjustment organization selectedItem adjustment s).1.inventory_items id =
        some inv1 ∧ inv1.averageCost = inv.averageCost ∧ inv1.productId = inv.productId ∧
        inv1.orgId = inv.orgId) :=
  ⟨fun organization products productionData id m hm =>
      production_keeps_material_cost organization products productionData s id m hm,
    fun organization confirmed now order id inv hinv =>
      delivery_keeps_inventory_cost organization confirmed now order s id inv hinv,
    fun organization selectedItem adjustment id inv hinv =>
      adjustment_keeps_inventory_cost organization selectedItem adjustment s id inv hinv⟩

/-- Witness of C28: the run of 10 units takes material 1 from 150 to 130 and
leaves its average cost at 160/3. -/
theorem outbound_movements_keep_average_cost_witness :
    storeBeforeRun.raw_materials 1 = some ⟨7, 150, 160 / 3⟩ ∧
    ∃ m1, (handleProductionRun (some acme) [productOneLine] ⟨some 5, 10⟩
        storeBeforeRun).1.raw_materials 1 = some m1 ∧
      m1.averageCost = 160 / 3 ∧ m1.quantity = 130 := by
  have h0 : storeBeforeRun.raw_materials 1 = some ⟨7, 150, 160 / 3⟩ := by
    simp [storeBeforeRun]
  obtain ⟨m1, hm1, havg, _⟩ := (outbound_movements_keep_average_cost storeBeforeRun).1
    (some acme) [productOneLine] ⟨some 5, 10⟩ 1 ⟨7, 150, 160 / 3⟩ h0
  refine ⟨h0, m1, hm1, havg, ?_⟩
  have h2 : (handleProductionRun (some acme) [productOneLine] ⟨some 5, 10⟩
      storeBeforeRun).1.raw_materials 1 = some ⟨7, 130, 160 / 3⟩ := by
    norm_num [handleProductionRun, productOneLine, runTransaction, productionTransaction,
      readMaterials, validateMaterials, inventoryValues, materialWrites, inventoryWrite, commit,
      applyWrite, setDoc, storeBeforeRun, emptyStore, acme]
  rw [h2] at hm1
  cases hm1
  rfl

/-- Value balance of a successful production run whose BOM lines name pairwise
distinct materials, the divisor `priorQuantity + qty` not being 0: in exact
arithmetic the value removed from the raw materials, the value added to the
finished-goods item and the `totalCost` of the appended production order are
the consumed-material cost. -/
theorem production_value_balance
    (organization : Option Organization) (products : List (Listed Product))
    (productId : DocId) (product : Listed Product) (qty : ℚ) (s : Store)
    (hfind : products.find? (fun p => p.id == productId) = some product)
    (hsucc : (handleProductionRun organization products ⟨some productId, qty⟩ s).2 = .success)
    (hnodup : (product.data.bom.map fun i => i.materialId).Nodup)
    (hdiv : priorQuantity s productId + qty ≠ 0) :
    materialValueRemoved s
        (handleProductionRun organization products ⟨some productId, qty⟩ s).1
        product.data.bom =
      consumedMaterialCost s product.data.bom qty ∧
    inventoryValue (handleProductionRun organization products ⟨some productId, qty⟩ s).1
        productId - inventoryValue s productId =
      consumedMaterialCost s product.data.bom qty ∧
    ((handleProductionRun organization products ⟨some productId, qty⟩
        s).1.production_orders.getLast?).map (fun o => o.totalCost) =
      some (consumedMaterialCost s product.data.bom qty) := by
  refine ⟨?_, ?_, ?_⟩
  · unfold materialValueRemoved consumedMaterialCost
    congr 1
    apply List.map_congr_left
    intro item hmem
    obtain ⟨m, hm, hafter⟩ := production_deducts_distinct_materials organization products
      productId product qty s hfind hsucc hnodup item hmem
    rw [requiredOfMaterial_of_nodup qty product.data.bom hnodup item hmem] at hafter
    simp only [materialQuantity, materialAverageCost, hm, hafter]
    ring
  · obtain ⟨_, item, hitem, hqty, havg⟩ := production_inventory_items_after organization
      products productId product qty s hfind hsucc
    simp only [inventoryValue]
    have h1 : priorQuantity (handleProductionRun organization products ⟨some productId, qty⟩
        s).1 productId = item.quantity := by simp [priorQuantity, hitem]
    have h2 : priorAverageCost (handleProductionRun organization products
        ⟨some productId, qty⟩ s).1 productId = item.averageCost := by
      simp [priorAverageCost, hitem]
    rw [h1, h2, hqty, havg]
    cases hinv : s.inventory_items productId with
    | none =>
      have hq0 : qty ≠ 0 := by simpa [priorQuantity, hinv] using hdiv
      simp only [inventoryValues, priorQuantity, priorAverageCost, hinv]
      field_simp
    | some inv =>
      have hq0 : inv.quantity + qty ≠ 0 := by simpa [priorQuantity, hinv] using hdiv
      simp only [inventoryValues, priorQuantity, priorAverageCost, hinv]
      field_simp
  · obtain ⟨org, _, horders⟩ := production_appends_order organization products productId
      product qty s hfind hsucc
    rw [horders]
    simp

/-- C29, as amended: in exact arithmetic and on a store of the data model (every
stored quantity at least 0), for a successful production run whose BOM lines
name pairwise distinct materials, the value removed from the raw materials
equals the value added to the finished-goods item, and both equal the
`totalCost` of the production order the run appends, the consumed-material
cost. -/
theorem production_conserves_value
    (organization : Option Organization) (products : List (Listed Product))
    (productId : DocId) (product : Listed Product) (qty : ℚ) (s : Store)
    (hstock : nonNegativeStock s)
    (hfind : products.find? (fun p => p.id == productId) = some product)
    (hsucc : (handleProductionRun organization products ⟨some productId, qty⟩ s).2 = .success)
    (hnodup : (product.data.bom.map fun i => i.materialId).Nodup) :
    materialValueRemoved s
        (handleProductionRun organization products ⟨some productId, qty⟩ s).1
        product.data.bom =
      consumedMaterialCost s product.data.bom qty ∧
    inventoryValue (handleProductionRun organization products ⟨some productId, qty⟩ s).1
        productId - inventoryValue s productId =
      consumedMaterialCost s product.data.bom qty ∧
    ((handleProductionRun organization products ⟨some productId, qty⟩
        s).1.production_orders.getLast?).map (fun o => o.totalCost) =
      some (consumedMaterialCost s product.data.bom qty) := by
  have hqty := (production_success_validates organization products productId product qty s
    hfind hsucc).1
  have hQ : 0 ≤ priorQuantity s productId := by
    unfold priorQuantity
    cases hinv : s.inventory_items productId with
    | none => exact le_refl 0
    | some it => exact hstock.2 productId it hinv
  exact production_value_balance organization products productId product qty s hfind hsucc
    hnodup (by linarith)

/-- Witness of C29, as amended: 10 units needing 2 each of a material at 160/3,
on an item not yet stocked, remove 3200/3 of material value and add 3200/3 of
finished-goods value. -/
theorem production_conserves_value_witness :
    nonNegativeStock storeBeforeRun ∧
    (handleProductionRun (some acme) [productOneLine] ⟨some 5, 10⟩ storeBeforeRun).2 = .success ∧
    materialValueRemoved storeBeforeRun
        (handleProductionRun (some acme) [productOneLine] ⟨some 5, 10⟩ storeBeforeRun).1
        productOneLine.data.bom = 3200 / 3 ∧
    inventoryValue (handleProductionRun (some acme) [productOneLine] ⟨some 5, 10⟩
        storeBeforeRun).1 5 - inventoryValue storeBeforeRun 5 = 3200 / 3 := by
  have hstock : nonNegativeStock storeBeforeRun := by
    constructor
    · intro id m h
      simp only [storeBeforeRun, emptyStore, setDoc] at h
      split_ifs at h
      cases h
      norm_num
    · intro id item h
      simp [storeBeforeRun, emptyStore] at h
  have hs : (handleProductionRun (some acme) [productOneLine] ⟨some 5, 10⟩ storeBeforeRun).2
      = .success := by
    norm_num [handleProductionRun, productOneLine, runTransaction, productionTransaction,
      readMaterials, validateMaterials, inventoryValues, materialWrites, inventoryWrite, commit,
      applyWrite, setDoc, storeBeforeRun, emptyStore, acme]
  have h := production_conserves_value (some acme) [productOneLine] 5 productOneLine 10
    storeBeforeRun hstock (by simp [productOneLine]) hs (by simp [productOneLine])
  have hT : consumedMaterialCost storeBeforeRun productOneLine.data.bom 10 = 3200 / 3 := by
    norm_num [consumedMaterialCost, materialAverageCost, productOneLine, storeBeforeRun,
      emptyStore, setDoc]
  rw [hT] at h
  exact ⟨hstock, hs, h.1, h.2.1⟩

/-- Counterexample to C29 as stated: in the double arithmetic of the code, a run
of 1 unit that consumes 1 of a material at average cost 5, on an item holding 6
at average cost 4, succeeds with `totalCost` 5 and removes a material value of
5, but leaves the item at quantity 7 and average cost 4.142857142857143, the
double nearest to 29/7: the value added is not 5, neither as the exact product
of the stored numbers nor evaluated in double arithmetic
(5.0000000000000036). -/
theorem production_value_differs_in_double_arithmetic :
    (handleProductionRunRounded fl (some acme) [productUnitLine] ⟨some 5, 1⟩
      storeSixAtFour).2 = .success ∧
    (handleProductionRunRounded fl (some acme) [productUnitLine] ⟨some 5, 1⟩
      storeSixAtFour).1.raw_materials 1 = some ⟨7, 9, 5⟩ ∧
    (handleProductionRunRounded fl (some acme) [productUnitLine] ⟨some 5, 1⟩
      storeSixAtFour).1.inventory_items 5 =
      some ⟨5, 7, 7, 4664442471205157 / 1125899906842624⟩ ∧
    (handleProductionRunRounded fl (some acme) [productUnitLine] ⟨some 5, 1⟩
      storeSixAtFour).1.production_orders = [⟨7, 5, 1, 5, 5, .completed⟩] ∧
    materialValueRemoved storeSixAtFour
      (handleProductionRunRounded fl (some acme) [productUnitLine] ⟨some 5, 1⟩
        storeSixAtFour).1 productUnitLine.data.bom = 5 ∧
    inventoryValue (handleProductionRunRounded fl (some acme) [productUnitLine] ⟨some 5, 1⟩
        storeSixAtFour).1 5 - inventoryValue storeSixAtFour 5 =
      5629499534213123 / 1125899906842624 ∧
    fl (fl (7 * (4664442471205157 / 1125899906842624)) - fl (6 * 4)) =
      1407374883553281 / 281474976710656 ∧
    (5629499534213123 / 1125899906842624 : ℚ) ≠ 5 ∧
    (1407374883553281 / 281474976710656 : ℚ) ≠ 5 := by
  have f1 : fl (1) = 1 := by
    rw [fl_eq (1) (-52) 4503599627370496 (by norm_num) (by norm_num) (by norm_num)
      (by norm_num) (by norm_num)]
    norm_num
  have f2 : fl (9) = 9 := by
    rw [fl_eq (9) (-49) 5066549580791808 (by norm_num) (by norm_num) (by norm_num)
      (by norm_num) (by norm_num)]
    norm_num
  have f3 : fl (5) = 5 := by
    rw [fl_eq (5) (-50) 5629499534213120 (by norm_num) (by norm_num) (by norm_num)
      (by norm_num) (by norm_num)]
    norm_num
  have f4 : fl (24) = 24 := by
    rw [fl_eq (24) (-48) 6755399441055744 (by norm_num) (by norm_num) (by norm_num)
      (by norm_num) (by norm_num)]
    norm_num
  have f5 : fl (29) = 29 := by
    rw [fl_eq (29) (-48) 8162774324609024 (by norm_num) (by norm_num) (by norm_num)
      (by norm_num) (by norm_num)]
    norm_num
  have f6 : fl (7) = 7 := by
    rw [fl_eq (7) (-50) 7881299347898368 (by norm_num) (by norm_num) (by norm_num)
      (by norm_num) (by norm_num)]
    norm_num
  have f7 : fl (29 / 7) = 4664442471205157 / 1125899906842624 := by
    rw [fl_eq (29 / 7) (-50) 4664442471205157 (by norm_num) (by norm_num) (by norm_num)
      (by norm_num) (by norm_num)]
    norm_num
  have f8 : fl (32651097298436099 / 1125899906842624) = 8162774324609025 / 281474976710656 := by
    rw [fl_eq (32651097298436099 / 1125899906842624) (-48) 8162774324609025 (by norm_num) (by norm_num) (by norm_num)
      (by norm_num) (by norm_num)]
    norm_num
  have f9 : fl (1407374883553281 / 281474976710656) = 1407374883553281 / 281474976710656 := by
    rw [fl_eq (1407374883553281 / 281474976710656) (-50) 5629499534213124 (by norm_num) (by norm_num) (by norm_num)
      (by norm_num) (by norm_num)]
    norm_num
  have hm : (handleProductionRunRounded fl (some acme) [productUnitLine] ⟨some 5, 1⟩
      storeSixAtFour).1.raw_materials 1 = some ⟨7, 9, 5⟩ := by
    norm_num [handleProductionRunRounded, productUnitLine, runTransaction,
      productionTransactionRounded, readMaterials, validateMaterialsRounded,
      inventoryValuesRounded, materialWrites, inventoryWrite, commit, applyWrite, setDoc,
      storeSixAtFour, emptyStore, acme, f1, f2, f3, f4, f5, f6, f7, f8, f9]
  have hi : (handleProductionRunRounded fl (some acme) [productUnitLine] ⟨some 5, 1⟩
      storeSixAtFour).1.inventory_items 5 =
      some ⟨5, 7, 7, 4664442471205157 / 1125899906842624⟩ := by
    norm_num [handleProductionRunRounded, productUnitLine, runTransaction,
      productionTransactionRounded, readMaterials, validateMaterialsRounded,
      inventoryValuesRounded, materialWrites, inventoryWrite, commit, applyWrite, setDoc,
      storeSixAtFour, emptyStore, acme, f1, f2, f3, f4, f5, f6, f7, f8, f9]
  refine ⟨?_, hm, hi, ?_, ?_, ?_, ?_, by norm_num, by norm_num⟩
  · norm_num [handleProductionRunRounded, productUnitLine, runTransaction,
      productionTransactionRounded, readMaterials, validateMaterialsRounded,
      inventoryValuesRounded, materialWrites, inventoryWrite, commit, applyWrite, setDoc,
      storeSixAtFour, emptyStore, acme, f1, f2, f3, f4, f5, f6, f7, f8, f9]
  · norm_num [handleProductionRunRounded, productUnitLine, runTransaction,
      productionTransactionRounded, readMaterials, validateMaterialsRounded,
      inventoryValuesRounded, materialWrites, inventoryWrite, commit, applyWrite, setDoc,
      storeSixAtFour, emptyStore, acme, f1, f2, f3, f4, f5, f6, f7, f8, f9]
  · have hb : productUnitLine.data.bom = [⟨1, 1⟩] := rfl
    rw [materialValueRemoved, hb]
    simp only [List.map_cons, List.map_nil, materialQuantity, materialAverageCost, hm]
    norm_num [storeSixAtFour, emptyStore, setDoc]
  · simp only [inventoryValue, priorQuantity, priorAverageCost, hi]
    norm_num [storeSixAtFour, emptyStore, setDoc]
  · norm_num [f1, f2, f3, f4, f5, f6, f7, f8, f9]

/-- C30, as amended: in exact arithmetic, two valid purchases of a stored material
with quantity `q >= 0` commute on the material: both succeed in either order,
and either order leaves the same material document, with quantity
`q + n1 + n2` and average cost `(q * a + c1 + c2) / (q + n1 + n2)`. -/
theorem purchases_commute (org : Organization) (sel : Listed RawMaterial)
    (n1 c1 n2 c2 : ℚ) (s : Store) (m : RawMaterial)
    (hm : s.raw_materials sel.id = some m) (hq : 0 ≤ m.quantity)
    (hn1 : 0 < n1) (hc1 : 0 ≤ c1) (hn2 : 0 < n2) (hc2 : 0 ≤ c2) :
    (handlePurchase (some org) (some sel) ⟨n2, c2⟩
      (handlePurchase (some org) (some sel) ⟨n1, c1⟩ s).1).2 = .success ∧
    (handlePurchase (some org) (some sel) ⟨n1, c1⟩
      (handlePurchase (some org) (some sel) ⟨n2, c2⟩ s).1).2 = .success ∧
    (handlePurchase (some org) (some sel) ⟨n2, c2⟩
      (handlePurchase (some org) (some sel) ⟨n1, c1⟩ s).1).1.raw_materials sel.id =
      some { m with quantity := m.quantity + n1 + n2,
                    averageCost :=
                      (m.quantity * m.averageCost + c1 + c2) / (m.quantity + n1 + n2) } ∧
    (handlePurchase (some org) (some sel) ⟨n1, c1⟩
      (handlePurchase (some org) (some sel) ⟨n2, c2⟩ s).1).1.raw_materials sel.id =
      some { m with quantity := m.quantity + n1 + n2,
                    averageCost :=
                      (m.quantity * m.averageCost + c1 + c2) / (m.quantity + n1 + n2) } := by
  have key : ∀ (na ca nb cb : ℚ), 0 < na → 0 ≤ ca → 0 < nb → 0 ≤ cb →
      (handlePurchase (some org) (some sel) ⟨nb, cb⟩
        (handlePurchase (some org) (some sel) ⟨na, ca⟩ s).1).2 = .success ∧
      (handlePurchase (some org) (some sel) ⟨nb, cb⟩
        (handlePurchase (some org) (some sel) ⟨na, ca⟩ s).1).1.raw_materials sel.id =
        some { m with quantity := m.quantity + na + nb,
                      averageCost :=
                        (m.quantity * m.averageCost + ca + cb) / (m.quantity + na + nb) } := by
    intro na ca nb cb hna hca hnb hcb
    obtain ⟨_, h1m, _, _⟩ := handlePurchase_valid org sel na ca s m hm hna hca
    have hm1 : (handlePurchase (some org) (some sel) ⟨na, ca⟩ s).1.raw_materials sel.id =
        some (purchasedMaterial m na ca) := by rw [h1m]; simp
    obtain ⟨h2s, h2m, _, _⟩ := handlePurchase_valid org sel nb cb _ _ hm1 hnb hcb
    refine ⟨h2s, ?_⟩
    rw [h2m, setDoc_same]
    have hpa : 0 < m.quantity + na := by linarith
    have hpb : 0 < m.quantity + na + nb := by linarith
    simp only [purchasedMaterial, if_pos hpa, if_pos hpb,
      mul_div_cancel₀ _ (ne_of_gt hpa)]
  obtain ⟨ha, hb⟩ := key n1 c1 n2 c2 hn1 hc1 hn2 hc2
  obtain ⟨hc, hd⟩ := key n2 c2 n1 c1 hn2 hc2 hn1 hc1
  refine ⟨ha, hc, hb, ?_⟩
  rw [hd]
  have e1 : m.quantity + n2 + n1 = m.quantity + n1 + n2 := by ring
  have e2 : m.quantity * m.averageCost + c2 + c1 = m.quantity * m.averageCost + c1 + c2 := by
    ring
  rw [e1, e2]

/-- Witness of C30, as amended: the purchases of the specification, 100 for 5000
and 50 for 3000 on the fresh material, in either order, leave 150 units. -/
theorem purchases_commute_witness :
    storeFreshMaterial.raw_materials 1 = some ⟨7, 0, 0⟩ ∧
    (handlePurchase (some acme) (some ⟨1, ⟨7, 0, 0⟩⟩) ⟨100, 5000⟩
      (handlePurchase (some acme) (some ⟨1, ⟨7, 0, 0⟩⟩) ⟨50, 3000⟩
        storeFreshMaterial).1).1.raw_materials 1 = some ⟨7, 150, 160 / 3⟩ := by
  have h := (purchases_commute acme ⟨1, ⟨7, 0, 0⟩⟩ 100 5000 50 3000 storeFreshMaterial ⟨7, 0, 0⟩
    (by simp [storeFreshMaterial]) (by norm_num) (by norm_num) (by norm_num) (by norm_num)
    (by norm_num)).2.2.2
  refine ⟨by simp [storeFreshMaterial], ?_⟩
  rw [h]
  norm_num

/-- Counterexample to C30 as stated: in the double arithmetic of the code, on 10
units at average cost 2, the purchase of 1 for 1 followed by the purchase of 3
for 7 leaves average cost 2, while the purchase of 3 for 7 followed by the
purchase of 1 for 1 leaves 2.0000000000000004, that is `2 + 2 ^ (-51)`. -/
theorem purchases_differ_in_double_arithmetic :
    (handlePurchaseRounded fl (some acme) (some ⟨1, ⟨7, 10, 2⟩⟩) ⟨3, 7⟩
      (handlePurchaseRounded fl (some acme) (some ⟨1, ⟨7, 10, 2⟩⟩) ⟨1, 1⟩
        storeTenAtTwo).1).1.raw_materials 1 = some ⟨7, 14, 2⟩ ∧
    (handlePurchaseRounded fl (some acme) (some ⟨1, ⟨7, 10, 2⟩⟩) ⟨1, 1⟩
      (handlePurchaseRounded fl (some acme) (some ⟨1, ⟨7, 10, 2⟩⟩) ⟨3, 7⟩
        storeTenAtTwo).1).1.raw_materials 1 =
      some ⟨7, 14, 4503599627370497 / 2251799813685248⟩ := by
  have f1 : fl (20) = 20 := by
    rw [fl_eq (20) (-48) 5629499534213120 (by norm_num) (by norm_num) (by norm_num)
      (by norm_num) (by norm_num)]
    norm_num
  have f2 : fl (21) = 21 := by
    rw [fl_eq (21) (-48) 5910974510923776 (by norm_num) (by norm_num) (by norm_num)
      (by norm_num) (by norm_num)]
    norm_num
  have f3 : fl (11) = 11 := by
    rw [fl_eq (11) (-49) 6192449487634432 (by norm_num) (by norm_num) (by norm_num)
      (by norm_num) (by norm_num)]
    norm_num
  have f4 : fl (21 / 11) = 2149445276699555 / 1125899906842624 := by
    rw [fl_eq (21 / 11) (-52) 8597781106798220 (by norm_num) (by norm_num) (by norm_num)
      (by norm_num) (by norm_num)]
    norm_num
  have f5 : fl (23643898043695105 / 1125899906842624) = 21 := by
    rw [fl_eq (23643898043695105 / 1125899906842624) (-48) 5910974510923776 (by norm_num) (by norm_num) (by norm_num)
      (by norm_num) (by norm_num)]
    norm_num
  have f6 : fl (28) = 28 := by
    rw [fl_eq (28) (-48) 7881299347898368 (by norm_num) (by norm_num) (by norm_num)
      (by norm_num) (by norm_num)]
    norm_num
  have f7 : fl (14) = 14 := by
    rw [fl_eq (14) (-49) 7881299347898368 (by norm_num) (by norm_num) (by norm_num)
      (by norm_num) (by norm_num)]
    norm_num
  have f8 : fl (2) = 2 := by
    rw [fl_eq (2) (-51) 4503599627370496 (by norm_num) (by norm_num) (by norm_num)
      (by norm_num) (by norm_num)]
    norm_num
  have f9 : fl (1) = 1 := by
    rw [fl_eq (1) (-52) 4503599627370496 (by norm_num) (by norm_num) (by norm_num)
      (by norm_num) (by norm_num)]
    norm_num
  have f10 : fl (27) = 27 := by
    rw [fl_eq (27) (-48) 7599824371187712 (by norm_num) (by norm_num) (by norm_num)
      (by norm_num) (by norm_num)]
    norm_num
  have f11 : fl (13) = 13 := by
    rw [fl_eq (13) (-49) 7318349394477056 (by norm_num) (by norm_num) (by norm_num)
      (by norm_num) (by norm_num)]
    norm_num
  have f12 : fl (27 / 13) = 4676814997653977 / 2251799813685248 := by
    rw [fl_eq (27 / 13) (-51) 4676814997653977 (by norm_num) (by norm_num) (by norm_num)
      (by norm_num) (by norm_num)]
    norm_num
  have f13 : fl (60798594969501701 / 2251799813685248) = 7599824371187713 / 281474976710656 := by
    rw [fl_eq (60798594969501701 / 2251799813685248) (-48) 7599824371187713 (by norm_num) (by norm_num) (by norm_num)
      (by norm_num) (by norm_num)]
    norm_num
  have f14 : fl (7881299347898369 / 281474976710656) = 7881299347898369 / 281474976710656 := by
    rw [fl_eq (7881299347898369 / 281474976710656) (-48) 7881299347898369 (by norm_num) (by norm_num) (by norm_num)
      (by norm_num) (by norm_num)]
    norm_num
  have f15 : fl (7881299347898369 / 3940649673949184) = 4503599627370497 / 2251799813685248 := by
    rw [fl_eq (7881299347898369 / 3940649673949184) (-51) 4503599627370497 (by norm_num) (by norm_num) (by norm_num)
      (by norm_num) (by norm_num)]
    norm_num
  have f16 : fl (7 / 3) = 5254199565265579 / 2251799813685248 := by
    rw [fl_eq (7 / 3) (-51) 5254199565265579 (by norm_num) (by norm_num) (by norm_num)
      (by norm_num) (by norm_num)]
    norm_num
  constructor
  · norm_num [handlePurchaseRounded, runTransaction, purchaseTransactionRounded, commit,
      applyWrite, setDoc, storeTenAtTwo, emptyStore, acme, f1, f2, f3, f4, f5, f6, f7, f8, f9, f10, f11, f12, f13, f14, f15, f16]
  · norm_num [handlePurchaseRounded, runTransaction, purchaseTransactionRounded, commit,
      applyWrite, setDoc, storeTenAtTwo, emptyStore, acme, f1, f2, f3, f4, f5, f6, f7, f8, f9, f10, f11, f12, f13, f14, f15, f16]

end BizPulse
